import Mathlib

/-! MoneroMiner: target arithmetic, nonce partitioning, job registry.

A shallow embedding of the parts of the miner that the checked properties talk
about.  C++ machine integers are natural numbers reduced modulo `2^w` where the
source can overflow; `std::string` is `String`; exceptions and undefined
behaviour are `Option` results or explicit outcomes.
-/

namespace MoneroMiner

/-! ## C++ library functions used by the sources -/

/-- Width of `unsigned long`.  The sources include `WinSock2.h` and use
`localtime_s`, so the target ABI is LLP64, where `unsigned long` has 32 bits. -/
def ULONG_BITS : Nat := 32

/-- Width of `unsigned long long`. -/
def ULLONG_BITS : Nat := 64

/-- The C `isspace` classification in the default locale. -/
def isSpace (c : Char) : Bool :=
  c = ' ' || c = '\t' || c = '\n' || c = '\x0b' || c = '\x0c' || c = '\r'

/-- Value of a character as a digit in the given base (`strtoul` digit rule). -/
def digitVal (base : Nat) (c : Char) : Option Nat :=
  let v : Option Nat :=
    if '0' ≤ c ∧ c ≤ '9' then some (c.toNat - '0'.toNat)
    else if 'a' ≤ c ∧ c ≤ 'z' then some (c.toNat - 'a'.toNat + 10)
    else if 'A' ≤ c ∧ c ≤ 'Z' then some (c.toNat - 'A'.toNat + 10)
    else none
  match v with
  | some d => if d < base then some d else none
  | none => none

/-- Accumulate the longest prefix of digits; the flag tells whether any digit was read. -/
def readDigits (base : Nat) : List Char → Nat → Bool → Nat × Bool
  | [], acc, seen => (acc, seen)
  | c :: cs, acc, seen =>
    match digitVal base c with
    | some d => readDigits base cs (acc * base + d) true
    | none => (acc, seen)

/-- Drop a `0x`/`0X` prefix when the base is 16 and a hex digit follows it. -/
def dropHexPrefix (base : Nat) (s : List Char) : List Char :=
  match s with
  | '0' :: x :: d :: rest =>
    if base = 16 ∧ (x = 'x' ∨ x = 'X') ∧ (digitVal 16 d).isSome then d :: rest else s
  | _ => s

/-- The conversion `strtoul`/`strtoull` performs for a `bits`-wide result, as wrapped by
`std::stoul`/`std::stoull`: leading white space is skipped, a sign is accepted,
the longest digit prefix is read; `none` stands for the exception thrown when no
digit can be read (`std::invalid_argument`) or the value does not fit
(`std::out_of_range`).  A leading minus negates the value in the unsigned type. -/
def strtoulBits (bits base : Nat) (s : List Char) : Option Nat :=
  let s1 := s.dropWhile isSpace
  let (neg, s2) : Bool × List Char :=
    match s1 with
    | '-' :: r => (true, r)
    | '+' :: r => (false, r)
    | _ => (false, s1)
  let s3 := dropHexPrefix base s2
  match readDigits base s3 0 false with
  | (_, false) => none
  | (v, true) =>
    if v < 2 ^ bits then some (if neg then (2 ^ bits - v) % 2 ^ bits else v) else none

/-- A model of `std::stoul(str, nullptr, base)`. -/
def stoul (s : String) (base : Nat) : Option Nat := strtoulBits ULONG_BITS base s.toList

/-- A model of `std::stoull(str, nullptr, base)`. -/
def stoull (s : String) (base : Nat) : Option Nat := strtoulBits ULLONG_BITS base s.toList

/-- One lower-case hexadecimal digit, as `std::hex` prints it. -/
def hexDigit (n : Nat) : Char :=
  if n < 10 then Char.ofNat ('0'.toNat + n) else Char.ofNat ('a'.toNat + (n - 10))

/-- The output of `ss << std::hex << std::setw(2) << std::setfill('0') << static_cast<int>(byte)`
for a byte value. -/
def hexByte (b : Nat) : List Char := [hexDigit (b / 16), hexDigit (b % 16)]

/-! ## `uint256_t` (RandomXManager.h) -/

/-- The struct `uint256_t`: `words[0..3]`, most significant word first. -/
structure uint256_t where
  w0 : Nat
  w1 : Nat
  w2 : Nat
  w3 : Nat
deriving DecidableEq

namespace uint256_t

/-- The default constructor `uint256_t() : words{0, 0, 0, 0}`. -/
def zero : uint256_t := ⟨0, 0, 0, 0⟩

/-- Read `words[i]` (indices 0..3). -/
def words (a : uint256_t) (i : Nat) : Nat :=
  match i with
  | 0 => a.w0
  | 1 => a.w1
  | 2 => a.w2
  | _ => a.w3

/-- Write `words[i] = v` (indices 0..3). -/
def setWord (a : uint256_t) (i : Nat) (v : Nat) : uint256_t :=
  match i with
  | 0 => { a with w0 := v }
  | 1 => { a with w1 := v }
  | 2 => { a with w2 := v }
  | _ => { a with w3 := v }

/-- Every word is a `uint64_t`. -/
def WellFormed (a : uint256_t) : Prop :=
  a.w0 < 2 ^ 64 ∧ a.w1 < 2 ^ 64 ∧ a.w2 < 2 ^ 64 ∧ a.w3 < 2 ^ 64

instance (a : uint256_t) : Decidable a.WellFormed := by
  unfold WellFormed; infer_instance

/-- The unsigned integer `sum(words[i] * 2^(64*(3-i)))` denoted by the four words. -/
def toNat (a : uint256_t) : Nat :=
  a.words 0 * 2 ^ (64 * 3) + a.words 1 * 2 ^ (64 * 2) + a.words 2 * 2 ^ (64 * 1)
    + a.words 3 * 2 ^ (64 * 0)

/-- The loop of `operator<`: `n` iterations remain, the next index is `i`. -/
def ltLoop (a other : uint256_t) : Nat → Nat → Bool
  | _, 0 => false
  | i, n + 1 =>
    if a.words i < other.words i then true
    else if a.words i > other.words i then false
    else ltLoop a other (i + 1) n

/-- The comparison `bool operator<(const uint256_t& other) const`. -/
def lt (a other : uint256_t) : Bool := ltLoop a other 0 4

end uint256_t

/-! ## `RandomXManager::checkHash` (RandomXManager.cpp) -/

namespace RandomXManager

/-- The local `targetValue` of `checkHash`: the compact target is parsed with
`std::stoul(targetHex, nullptr, 16)` into a `uint32_t`, the exponent and mantissa
are extracted, and word 0 is set to `mantissa << 40`, the other words to 0.
`none` when `std::stoul` throws. -/
def checkHashTarget (targetHex : String) : Option uint256_t :=
  match stoul targetHex 16 with
  | none => none
  | some v =>
    let target := v % 2 ^ 32
    let _exponent := (target >>> 24) &&& 0xFF
    let mantissa := target &&& 0x00FFFFFF
    some ⟨(mantissa <<< 40) % 2 ^ 64, 0, 0, 0⟩

/-- One iteration of the loop that packs the hash:
`hashValue.words[i / 8] |= (uint64_t)hash[i] << ((7 - i % 8) * 8)`. -/
def packStep (hash : List Nat) (hv : uint256_t) (i : Nat) : uint256_t :=
  let word_idx := i / 8
  let byte_idx := 7 - (i % 8)
  hv.setWord word_idx (hv.words word_idx ||| ((hash.getD i 0 <<< (byte_idx * 8)) % 2 ^ 64))

/-- The local `hashValue` of `checkHash` after the loop `for (int i = 0; i < 32; i++)`,
starting from the zero value the default constructor gives. -/
def checkHashValue (hash : List Nat) : uint256_t :=
  (List.range 32).foldl (packStep hash) uint256_t.zero

/-- The function `RandomXManager::checkHash(hash, targetHex)` for a non-null hash
pointer: `hashValue < targetValue`; `none` when `std::stoul` throws. -/
def checkHash (hash : List Nat) (targetHex : String) : Option Bool :=
  match checkHashTarget targetHex with
  | none => none
  | some targetValue => some ((checkHashValue hash).lt targetValue)

end RandomXManager

/-! ## `Job` (Job.h) -/

/-- The class `Job`.  The member `double difficulty` is display-only floating point and is
not represented; `height` and `nonce` are `uint32_t`. -/
structure Job where
  jobId : String
  blob : String
  target : String
  height : Nat
  seedHash : String
  nonce : Nat
deriving DecidableEq

namespace Job

/-- The default constructor `Job() : height(0), difficulty(0.0), nonce(0)`. -/
def default : Job :=
  { jobId := "", blob := "", target := "", height := 0, seedHash := "", nonce := 0 }

/-- The constructor `Job(id, b, t, h, sh)`.  It calls `calculateDifficulty()`, whose first
statement is `std::stoull(target, nullptr, 16)`; `none` stands for the exception that
call throws.  The rest of `calculateDifficulty` is floating point and cannot throw. -/
def make (id b t : String) (h : Nat) (sh : String) : Option Job :=
  match stoull t 16 with
  | none => none
  | some _ => some { jobId := id, blob := b, target := t, height := h, seedHash := sh, nonce := 0 }

/-- The loop of `getBlobBytes` that decodes the blob: for `i = 0, 2, 4, ...` the substring
`blob.substr(i, 2)` goes through `std::stoul(byteString, nullptr, 16)` and is cast to
`uint8_t`; `none` when some `std::stoul` throws. -/
def decodeBlob : List Char → Option (List Nat)
  | [] => some []
  | [c] =>
    match stoul (String.mk [c]) 16 with
    | none => none
    | some v => some [v % 256]
  | c1 :: c2 :: rest =>
    match stoul (String.mk [c1, c2]) 16 with
    | none => none
    | some v =>
      match decodeBlob rest with
      | none => none
      | some bytes => some (v % 256 :: bytes)

/-- The member function `Job::getBlobBytes()`: decode, pad with zeros to 43 bytes, write the
job's nonce at bytes 39..42. -/
def getBlobBytes (j : Job) : Option (List Nat) :=
  match decodeBlob j.blob.toList with
  | none => none
  | some bytes =>
    let bytes := if bytes.length < 43 then bytes ++ List.replicate (43 - bytes.length) 0 else bytes
    let nonceValue := j.nonce
    let bytes := bytes.set 39 ((nonceValue >>> 24) &&& 0xFF)
    let bytes := bytes.set 40 ((nonceValue >>> 16) &&& 0xFF)
    let bytes := bytes.set 41 ((nonceValue >>> 8) &&& 0xFF)
    let bytes := bytes.set 42 (nonceValue &&& 0xFF)
    some bytes

end Job

/-! ## Configuration and worker state (Config.h, MiningThreadData.h/.cpp) -/

/-- The part of the global `Config config` that the modelled code reads: `int numThreads`. -/
structure Config where
  numThreads : Int
deriving DecidableEq

/-- The data members of `MiningThreadData` that the modelled code reads or writes.
`vm` is the `randomx_vm*` handle (`none` for `nullptr`), `threadId` an `int`,
`currentNonce` and the counters are `uint64_t`, `currentJob` is the owned `Job*`. -/
structure MiningThreadData where
  threadId : Int
  vm : Option Nat
  vmInitialized : Bool
  hashCount : Nat
  totalHashCount : Nat
  acceptedShares : Nat
  rejectedShares : Nat
  currentNonce : Nat
  currentJob : Option Job
deriving DecidableEq

namespace MiningThreadData

/-- The constructor `MiningThreadData(int id)`. -/
def new (id : Int) : MiningThreadData :=
  { threadId := id, vm := none, vmInitialized := false, hashCount := 0, totalHashCount := 0,
    acceptedShares := 0, rejectedShares := 0, currentNonce := 0, currentJob := none }

/-- The statement of `updateJob` that sets the cursor:
`currentNonce = static_cast<uint64_t>(threadId) * (0xFFFFFFFF / config.numThreads)`.
The literal is an `unsigned int`, so `numThreads` is converted to `unsigned int` and the
division is unsigned; the product is taken in `uint64_t`.  `none` stands for the
undefined behaviour of a division by zero. -/
def startNonce (config : Config) (threadId : Int) : Option Nat :=
  let divisor := (config.numThreads % 2 ^ 32).toNat
  if divisor = 0 then none
  else some (((threadId % 2 ^ 64).toNat * (0xFFFFFFFF / divisor)) % 2 ^ 64)

/-- The member function `MiningThreadData::updateJob(job)`: the current job is replaced by a
copy of `job` and the nonce cursor is reset to the thread's start. -/
def updateJob (config : Config) (w : MiningThreadData) (job : Job) : Option MiningThreadData :=
  match startNonce config w.threadId with
  | none => none
  | some n => some { w with currentJob := some job, currentNonce := n }

/-- The `data` vector that `MiningThreadData::calculateHash(input, nonce)` hands to
`RandomXManager::calculateHash`: `none` when the guard `!vm || input.empty()` returns
early; otherwise the input copied, resized to 43 bytes with zeros when shorter, with the
(`uint64_t`) nonce written at bytes 39..42. -/
def calculateHashData (w : MiningThreadData) (input : List Nat) (nonce : Nat) :
    Option (List Nat) :=
  if w.vm = none ∨ input = [] then none
  else
    let data := input
    let data := if data.length < 43 then data ++ List.replicate (43 - data.length) 0 else data
    let data := data.set 39 ((nonce >>> 24) &&& 0xFF)
    let data := data.set 40 ((nonce >>> 16) &&& 0xFF)
    let data := data.set 41 ((nonce >>> 8) &&& 0xFF)
    let data := data.set 42 (nonce &&& 0xFF)
    some data

/-- The hex string `hashHex` that `submitShare` builds from the hash bytes. -/
def hashHex (hash : List Nat) : String := String.mk (hash.flatMap hexByte)

end MiningThreadData

/-- The member function `MiningThreadData::calculateHash(input, nonce)`, with the library call
`randomx_calculate_hash` taken as the parameter `rxHash` and the current target of
`RandomXManager` as `targetHex`: `some false` on the early return, otherwise the result of
`RandomXManager::checkHash` on the hash of the prepared data. -/
def MiningThreadData.calculateHash (rxHash : List Nat → List Nat) (targetHex : String)
    (w : MiningThreadData) (input : List Nat) (nonce : Nat) : Option Bool :=
  match w.calculateHashData input nonce with
  | none => some false
  | some data => RandomXManager.checkHash (rxHash data) targetHex

/-! ## Share submission (PoolClient.cpp, MiningThreadData.cpp) -/

/-- The values `PoolClient::submitShare` writes into the members of `params`. -/
structure SubmitParams where
  id : String
  job_id : String
  nonce : String
  result : String
  algo : String
deriving DecidableEq

namespace PoolClient

/-- The members of `params` in the request of
`PoolClient::submitShare(jobId, nonce, result, algorithm)`, in the order written. -/
def submitParams (poolId jobId nonce result algorithm : String) : SubmitParams :=
  { id := poolId, job_id := jobId, nonce := nonce, result := result, algo := algorithm }

/-- The text that `submitShare` streams into `ss` for given member values. -/
def renderSubmit (p : SubmitParams) : String :=
  "\x7b\"id\":1,\"jsonrpc\":\"2.0\",\"method\":\"submit\",\"params\":\x7b"
    ++ "\"id\":\"" ++ p.id ++ "\","
    ++ "\"job_id\":\"" ++ p.job_id ++ "\","
    ++ "\"nonce\":\"" ++ p.nonce ++ "\","
    ++ "\"result\":\"" ++ p.result ++ "\","
    ++ "\"algo\":\"" ++ p.algo ++ "\"\x7d\x7d"

/-- The string `request` of `PoolClient::submitShare(jobId, nonce, result, algorithm)` before
the newline is appended (built once the check for a connected socket has passed). -/
def submitRequest (poolId jobId nonce result algorithm : String) : String :=
  renderSubmit (submitParams poolId jobId nonce result algorithm)

end PoolClient

namespace MiningThreadData

/-- The `params` members of the request that results from `MiningThreadData::submitShare(hash)`:
`none` when there is no current job; otherwise those of the call
`PoolClient::submitShare(hashHex, currentJob->getJobId(), heightStr,
std::to_string(currentNonce))`, the arguments in the order the source passes them. -/
def submitShareParams (poolId : String) (w : MiningThreadData) (hash : List Nat) :
    Option SubmitParams :=
  match w.currentJob with
  | none => none
  | some currentJob =>
    let hashHex := hashHex hash
    let heightStr := toString currentJob.height
    some (PoolClient.submitParams poolId hashHex currentJob.jobId heightStr
      (toString w.currentNonce))

/-- The request text that results from `MiningThreadData::submitShare(hash)`. -/
def submitShareRequest (poolId : String) (w : MiningThreadData) (hash : List Nat) :
    Option String :=
  (submitShareParams poolId w hash).map PoolClient.renderSubmit

end MiningThreadData

/-! ## Job notifications (picojson values) -/

/-- The values of `picojson::value`.  A number carries the non-negative integer the pool
sends (the sources read `height` only); an object is its list of members. -/
inductive JsonValue where
  | null : JsonValue
  | boolean : Bool → JsonValue
  | number : Nat → JsonValue
  | string : String → JsonValue
  | array : List JsonValue → JsonValue
  | object : List (String × JsonValue) → JsonValue

namespace JsonValue

/-- The lookup `obj.at(key)` of a `picojson::object`; `none` stands for `std::out_of_range`. -/
def member (obj : List (String × JsonValue)) (key : String) : Option JsonValue :=
  obj.lookup key

/-- The accessor `get<std::string>()`; `none` stands for the exception raised on another type. -/
def getString : JsonValue → Option String
  | string s => some s
  | _ => none

/-- The accessor `get<double>()`; `none` stands for the exception raised on another type. -/
def getDouble : JsonValue → Option Nat
  | number n => some n
  | _ => none

end JsonValue

/-- A job notification object with the five members `job_id`, `blob`, `target`, `height`,
`seed_hash` of the wire format. -/
def jobNotification (jobId blob target : String) (height : Nat) (seedHash : String) :
    List (String × JsonValue) :=
  [("job_id", .string jobId), ("blob", .string blob), ("target", .string target),
   ("height", .number height), ("seed_hash", .string seedHash)]

/-! ## `RandomXManager::initialize` (RandomXManager.cpp) -/

/-- The static members of `RandomXManager` that the modelled code reads or writes;
`dataset` and `cache` are the handles (`none` for `nullptr`). -/
structure RandomXState where
  dataset : Option Nat
  cache : Option Nat
  currentSeedHash : String
  currentTargetHex : String
  currentHeight : Nat
  currentJobId : String
deriving DecidableEq

/-- What the library and the operating system answer during one call of
`RandomXManager::initialize`: the handles returned by `randomx_alloc_dataset` and
`randomx_alloc_cache`, whether the dataset file exists, the result of
`loadDataset(seedHash)` and of `saveDataset(seedHash)` on the file system, the value of
`std::thread::hardware_concurrency()`, and whether creating or joining the
initialisation threads throws. -/
structure InitEnv where
  allocDataset : Option Nat
  fileExists : Bool
  loadDataset : Bool
  allocCache : Option Nat
  hardwareConcurrency : Nat
  threadError : Bool
  saveDataset : Bool
deriving DecidableEq

namespace RandomXManager

/-- The function `RandomXManager::initialize(seedHash)` (`initialize` is reserved in Lean,
hence the name): the returned flag and the static
members afterwards.  The outer `none` stands for the undefined behaviour of
`randomx_dataset_item_count() / numThreads` when `hardware_concurrency()` is 0. -/
def initializeSeed (env : InitEnv) (rx : RandomXState) (seedHash : String) :
    Option (Bool × RandomXState) :=
  if rx.currentSeedHash = seedHash ∧ rx.dataset ≠ none then some (true, rx)
  else
    let rx := { rx with dataset := none, cache := none }
    match env.allocDataset with
    | none => some (false, rx)
    | some d =>
      let rx := { rx with dataset := some d }
      if env.fileExists ∧ env.loadDataset then
        some (true, { rx with currentSeedHash := seedHash })
      else
        match env.allocCache with
        | none => some (false, { rx with dataset := none })
        | some c =>
          let rx := { rx with cache := some c }
          let numThreads := min env.hardwareConcurrency 8
          if numThreads = 0 then none
          else if env.threadError then some (false, { rx with dataset := none, cache := none })
          else some (true, { rx with currentSeedHash := seedHash, cache := none })

/-- The inline function `setJobInfo(height, jobId)`. -/
def setJobInfo (rx : RandomXState) (height : Nat) (jobId : String) : RandomXState :=
  { rx with currentHeight := height, currentJobId := jobId }

/-- The function `RandomXManager::setTarget(targetHex)`. -/
def setTarget (rx : RandomXState) (targetHex : String) : RandomXState :=
  { rx with currentTargetHex := targetHex }

end RandomXManager

/-- An environment in which RandomX initialisation succeeds whatever the state and seed. -/
def InitEnv.Succeeds (env : InitEnv) : Prop :=
  ∀ rx seedHash, ∃ rx', RandomXManager.initializeSeed env rx seedHash = some (true, rx')

/-! ## `PoolClient::processNewJob` (PoolClient.cpp, Globals.cpp) -/

/-- The process-wide state `processNewJob` works on: the configuration, the atomics
`activeJobId` and `notifiedJobId` (`uint32_t`, both initialised to 0 in Globals.cpp),
`PoolClient::jobQueue`, `PoolClient::threadData` (a null `shared_ptr` is `none`), the
statics of `RandomXManager`, and `PoolClient::poolId`. -/
structure PoolState where
  config : Config
  activeJobId : Nat
  notifiedJobId : Nat
  jobQueue : List Job
  threadData : List (Option MiningThreadData)
  rx : RandomXState
  poolId : String
deriving DecidableEq

/-- The state at program start: the initialisers of Globals.cpp, PoolClient.cpp and
RandomXManager.cpp, for a given configuration and set of workers. -/
def PoolState.initial (config : Config) (threadData : List (Option MiningThreadData)) :
    PoolState :=
  { config := config, activeJobId := 0, notifiedJobId := 0, jobQueue := [],
    threadData := threadData,
    rx := { dataset := none, cache := none, currentSeedHash := "", currentTargetHex := "",
            currentHeight := 0, currentJobId := "" },
    poolId := "" }

/-- The path `processNewJob` took, as its log shows it: "Job processed and distributed to
all threads", "Skipping duplicate job", "Failed to initialize RandomX with seed hash", or
"Error processing job" from the `catch` handlers. -/
inductive JobOutcome where
  | published : JobOutcome
  | duplicate : JobOutcome
  | initFailed : JobOutcome
  | exception : JobOutcome
deriving DecidableEq

/-- The loop `for (auto& data : threadData) if (data) data->updateJob(newJob)`; `none` when an
`updateJob` runs into the undefined division. -/
def updateWorkers (config : Config) (job : Job) :
    List (Option MiningThreadData) → Option (List (Option MiningThreadData))
  | [] => some []
  | none :: rest =>
    match updateWorkers config job rest with
    | none => none
    | some rest' => some (none :: rest')
  | some w :: rest =>
    match w.updateJob config job with
    | none => none
    | some w' =>
      match updateWorkers config job rest with
      | none => none
      | some rest' => some (some w' :: rest')

/-- The function `PoolClient::processNewJob(jobObj)`: the state afterwards and the path
taken.  Exceptions thrown inside the `try` block (a missing member, a member of another
type, `std::stoull` in the `Job` constructor, `std::stoul(jobId)`) are caught and leave
the state as it is; the outer `none` stands for undefined behaviour. -/
def processNewJob (env : InitEnv) (s : PoolState) (jobObj : List (String × JsonValue)) :
    Option (PoolState × JobOutcome) :=
  match (JsonValue.member jobObj "job_id").bind JsonValue.getString with
  | none => some (s, .exception)
  | some jobId =>
  match (JsonValue.member jobObj "blob").bind JsonValue.getString with
  | none => some (s, .exception)
  | some blob =>
  match (JsonValue.member jobObj "target").bind JsonValue.getString with
  | none => some (s, .exception)
  | some target =>
  match (JsonValue.member jobObj "height").bind JsonValue.getDouble with
  | none => some (s, .exception)
  | some h =>
  let height := h % 2 ^ 64
  match (JsonValue.member jobObj "seed_hash").bind JsonValue.getString with
  | none => some (s, .exception)
  | some seedHash =>
  match Job.make jobId blob target (height % 2 ^ 32) seedHash with
  | none => some (s, .exception)
  | some newJob =>
  match stoul jobId 10 with
  | none => some (s, .exception)
  | some v =>
    let jobIdNum := v % 2 ^ 32
    if jobIdNum ≠ s.activeJobId then
      let s := { s with activeJobId := jobIdNum, notifiedJobId := jobIdNum }
      match RandomXManager.initializeSeed env s.rx seedHash with
      | none => none
      | some (false, rx) => some ({ s with rx := rx }, .initFailed)
      | some (true, rx) =>
        let s := { s with rx := rx, jobQueue := [newJob] }
        let s := { s with rx := RandomXManager.setJobInfo s.rx height jobId }
        let s := { s with rx := RandomXManager.setTarget s.rx target }
        match updateWorkers s.config newJob s.threadData with
        | none => none
        | some threadData => some ({ s with threadData := threadData }, .published)
    else some (s, .duplicate)

/-- An environment in which both allocations succeed, no dataset file exists and the
machine reports four hardware threads. -/
def envOk : InitEnv :=
  { allocDataset := some 1, fileExists := false, loadDataset := false, allocCache := some 2,
    hardwareConcurrency := 4, threadError := false, saveDataset := true }

/-- The 256-bit value the specification assigns to a compact target `T`: with
`e = (T >> 24) & 0xFF` and `m = T & 0x00FFFFFF`, `m >> 8*(3-e)` when `e <= 3`, and
`m << 8*(e-3)` truncated to 256 bits otherwise. -/
def specExpandTarget (T : Nat) : Nat :=
  let e := (T >>> 24) &&& 0xFF
  let m := T &&& 0x00FFFFFF
  if e ≤ 3 then m >>> (8 * (3 - e)) else (m <<< (8 * (e - 3))) % 2 ^ 256

/-- Big-endian integer denoted by a byte string. -/
def beNat (bytes : List Nat) : Nat := bytes.foldl (fun acc b => acc * 256 + b) 0

/-- The layout the specification requires of the bytes `out` produced from the bytes `src`
and a nonce: `max(|src|, 43)` bytes, the nonce big-endian at 39..42 (most significant byte
at 39), every other index below `|src|` unchanged, every other index up to 42 zero. -/
def BlobLayout (src out : List Nat) (nonce : Nat) : Prop :=
  out.length = max src.length 43
  ∧ out.getD 39 0 = nonce / 2 ^ 24 % 256
  ∧ out.getD 40 0 = nonce / 2 ^ 16 % 256
  ∧ out.getD 41 0 = nonce / 2 ^ 8 % 256
  ∧ out.getD 42 0 = nonce % 256
  ∧ beNat [out.getD 39 0, out.getD 40 0, out.getD 41 0, out.getD 42 0] = nonce % 2 ^ 32
  ∧ (∀ i, i < src.length → i ≠ 39 → i ≠ 40 → i ≠ 41 → i ≠ 42 → out.getD i 0 = src.getD i 0)
  ∧ (∀ i, src.length ≤ i → i < 43 → i ≠ 39 → i ≠ 40 → i ≠ 41 → i ≠ 42 → out.getD i 0 = 0)

/-- The worker used in the submission examples: thread 1, cursor 5, current job "17". -/
def w17 : MiningThreadData :=
  { (MiningThreadData.new 1) with
    currentNonce := 5
    currentJob := some { jobId := "17", blob := "", target := "1d00ffff", height := 3000000,
                         seedHash := "", nonce := 0 } }

/-! ## Library calls made by `RandomXManager` (randomx.h) -/

/-- A call into the RandomX library or the dataset file, with its arguments and (where it
has one) its result.  Handles are numbers, `none` is `nullptr`; `loadFile` and `saveFile`
stand for the runs of `loadDataset(seedHash)` and `saveDataset(seedHash)`. -/
inductive RxCall where
  | releaseDataset : Nat → RxCall
  | releaseCache : Nat → RxCall
  | allocDataset : Nat → Option Nat → RxCall
  | allocCache : Nat → Option Nat → RxCall
  | initCache : Nat → List Nat → Nat → RxCall
  | initDataset : Nat → Nat → Nat → Nat → RxCall
  | createVm : Nat → Option Nat → Option Nat → RxCall
  | destroyVm : Nat → RxCall
  | loadFile : String → Bool → RxCall
  | saveFile : String → Bool → RxCall
deriving DecidableEq

/-- What the library answers about the dataset during one call of `initialize`:
`randomx_dataset_item_count()` and, when thread creation throws, how many initialisation
threads had been started before. -/
structure InitLib where
  itemCount : Nat
  threadsStarted : Nat
deriving DecidableEq

namespace RandomXManager

/-- The flags `RANDOMX_FLAG_JIT | RANDOMX_FLAG_HARD_AES | RANDOMX_FLAG_FULL_MEM` of `initialize`. -/
def initFlags : Nat := 8 ||| 2 ||| 4

/-- The flags of `createVM`: `DEFAULT | FULL_MEM | JIT | HARD_AES | SECURE`. -/
def vmFlags : Nat := 0 ||| 4 ||| 8 ||| 2 ||| 16

/-- The body of one initialisation thread of `initialize`, in `uint32_t` arithmetic:
`startItem = i * itemsPerThread`, `endItem` is `randomx_dataset_item_count()` for the last
thread and `(i + 1) * itemsPerThread` otherwise; the pair is the `(startItem, itemCount)`
passed to `randomx_init_dataset`. -/
def initThreadRange (itemCount numThreads i : Nat) : Nat × Nat :=
  let itemsPerThread := (itemCount / numThreads) % 2 ^ 32
  let startItem := (i * itemsPerThread) % 2 ^ 32
  let endItem :=
    if i = numThreads - 1 then itemCount % 2 ^ 32 else ((i + 1) * itemsPerThread) % 2 ^ 32
  (startItem, (endItem + 2 ^ 32 - startItem) % 2 ^ 32)

/-- The `(startItem, itemCount)` arguments of the threads `i = 0 .. numThreads - 1`, by
thread index. -/
def initDatasetRanges (itemCount numThreads : Nat) : List (Nat × Nat) :=
  (List.range numThreads).map (initThreadRange itemCount numThreads)

/-- The bytes `seedHash.c_str()` points to: the characters of the string as given. -/
def seedKey (seedHash : String) : List Nat := seedHash.toList.map Char.toNat

/-- The releases at the start of `initialize`: the dataset, then the cache, when present. -/
def releaseExisting (rx : RandomXState) : List RxCall :=
  (match rx.dataset with
    | some d => [RxCall.releaseDataset d]
    | none => [])
  ++ (match rx.cache with
    | some c => [RxCall.releaseCache c]
    | none => [])

/-- The part of `initialize` from "Create new dataset" on, for the dataset handle `d`
allocated before and the calls `t` made so far. -/
def rebuildDataset (env : InitEnv) (lib : InitLib) (rx : RandomXState) (d : Nat)
    (seedHash : String) (t : List RxCall) : Option (Bool × RandomXState × List RxCall) :=
  match env.allocCache with
  | none =>
    some (false, { rx with dataset := none },
      t ++ [RxCall.allocCache initFlags none, RxCall.releaseDataset d])
  | some c =>
    let rx := { rx with cache := some c }
    let t := t ++ [RxCall.allocCache initFlags (some c),
      RxCall.initCache c (seedKey seedHash) seedHash.length]
    let numThreads := min env.hardwareConcurrency 8
    if numThreads = 0 then none
    else if env.threadError then
      some (false, { rx with dataset := none, cache := none },
        t ++ ((initDatasetRanges lib.itemCount numThreads).take lib.threadsStarted).map
              (fun r => RxCall.initDataset d c r.1 r.2)
          ++ [RxCall.releaseDataset d, RxCall.releaseCache c])
    else
      some (true, { rx with currentSeedHash := seedHash, cache := none },
        t ++ (initDatasetRanges lib.itemCount numThreads).map
              (fun r => RxCall.initDataset d c r.1 r.2)
          ++ [RxCall.saveFile seedHash env.saveDataset, RxCall.releaseCache c])

/-- The function `RandomXManager::initialize(seedHash)` with the library calls it makes, in
program order (the `randomx_init_dataset` calls of the concurrent threads by thread index).
The flag and the state are those of `initializeSeed`. -/
def initializeTraced (env : InitEnv) (lib : InitLib) (rx : RandomXState) (seedHash : String) :
    Option (Bool × RandomXState × List RxCall) :=
  if rx.currentSeedHash = seedHash ∧ rx.dataset ≠ none then some (true, rx, [])
  else
    let t := releaseExisting rx
    let rx := { rx with dataset := none, cache := none }
    match env.allocDataset with
    | none => some (false, rx, t ++ [RxCall.allocDataset initFlags none])
    | some d =>
      let rx := { rx with dataset := some d }
      let t := t ++ [RxCall.allocDataset initFlags (some d)]
      if env.fileExists then
        if env.loadDataset then
          some (true, { rx with currentSeedHash := seedHash },
            t ++ [RxCall.loadFile seedHash true])
        else rebuildDataset env lib rx d seedHash (t ++ [RxCall.loadFile seedHash false])
      else rebuildDataset env lib rx d seedHash t

/-- The function `RandomXManager::createVM(threadId)`: `randomx_create_vm(flags, nullptr,
dataset)` on the current dataset handle; `result` is what the library returns. -/
def createVM (result : Option Nat) (rx : RandomXState) : Option Nat × List RxCall :=
  (result, [RxCall.createVm vmFlags rx.dataset result])

end RandomXManager

/-- The member function `MiningThreadData::initializeVM()`: nothing when the VM is marked
initialised; otherwise the handle from `RandomXManager::createVM` is stored and, when it is
not null, the flag set. -/
def MiningThreadData.initializeVM (result : Option Nat) (rx : RandomXState)
    (w : MiningThreadData) : Bool × MiningThreadData × List RxCall :=
  if w.vmInitialized then (true, w, [])
  else
    match RandomXManager.createVM result rx with
    | (none, t) => (false, { w with vm := none }, t)
    | (some v, t) => (true, { w with vm := some v, vmInitialized := true }, t)

/-- The function `PoolClient::processNewJob(jobObj)` with the library calls made on the way
(those of `RandomXManager::initialize`); state and outcome are those of `processNewJob`. -/
def processNewJobTraced (env : InitEnv) (lib : InitLib) (s : PoolState)
    (jobObj : List (String × JsonValue)) : Option (PoolState × JobOutcome × List RxCall) :=
  match (JsonValue.member jobObj "job_id").bind JsonValue.getString with
  | none => some (s, .exception, [])
  | some jobId =>
  match (JsonValue.member jobObj "blob").bind JsonValue.getString with
  | none => some (s, .exception, [])
  | some blob =>
  match (JsonValue.member jobObj "target").bind JsonValue.getString with
  | none => some (s, .exception, [])
  | some target =>
  match (JsonValue.member jobObj "height").bind JsonValue.getDouble with
  | none => some (s, .exception, [])
  | some h =>
  let height := h % 2 ^ 64
  match (JsonValue.member jobObj "seed_hash").bind JsonValue.getString with
  | none => some (s, .exception, [])
  | some seedHash =>
  match Job.make jobId blob target (height % 2 ^ 32) seedHash with
  | none => some (s, .exception, [])
  | some newJob =>
  match stoul jobId 10 with
  | none => some (s, .exception, [])
  | some v =>
    let jobIdNum := v % 2 ^ 32
    if jobIdNum ≠ s.activeJobId then
      let s := { s with activeJobId := jobIdNum, notifiedJobId := jobIdNum }
      match RandomXManager.initializeTraced env lib s.rx seedHash with
      | none => none
      | some (false, rx, t) => some ({ s with rx := rx }, .initFailed, t)
      | some (true, rx, t) =>
        let s := { s with rx := rx, jobQueue := [newJob] }
        let s := { s with rx := RandomXManager.setJobInfo s.rx height jobId }
        let s := { s with rx := RandomXManager.setTarget s.rx target }
        match updateWorkers s.config newJob s.threadData with
        | none => none
        | some threadData => some ({ s with threadData := threadData }, .published, t)
    else some (s, .duplicate, [])

/-! ## Seed changes and cleanup (RandomXManager.cpp) -/

/-- The process state with the two further statics of `RandomXManager` that
`handleSeedHashChange` and `cleanup` use: the map `vms` (thread id to VM handle) and the
vector `RandomXManager::threadData`. -/
structure MinerState where
  pool : PoolState
  vms : List (Int × Option Nat)
  rxThreadData : List (Option MiningThreadData)
deriving DecidableEq

/-- The state at program start. -/
def MinerState.initial (config : Config) (threadData : List (Option MiningThreadData)) :
    MinerState :=
  { pool := PoolState.initial config threadData, vms := [], rxThreadData := [] }

namespace RandomXManager

/-- The loop `for (auto& [threadId, vm] : vms) if (vm) randomx_destroy_vm(vm)`. -/
def destroyVms (vms : List (Int × Option Nat)) : List RxCall :=
  vms.filterMap (fun e => e.2.map RxCall.destroyVm)

/-- The function `RandomXManager::handleSeedHashChange(newSeedHash)`: when the seed differs
from the current one the registered VMs are destroyed, `initialize(newSeedHash)` runs, and
on success every worker of `RandomXManager::threadData` is given an empty `Job()`. -/
def handleSeedHashChange (env : InitEnv) (lib : InitLib) (st : MinerState)
    (newSeedHash : String) : Option (MinerState × List RxCall) :=
  if newSeedHash ≠ st.pool.rx.currentSeedHash then
    let t := destroyVms st.vms
    let st := { st with vms := [] }
    match initializeTraced env lib st.pool.rx newSeedHash with
    | none => none
    | some (false, rx, t') => some ({ st with pool := { st.pool with rx := rx } }, t ++ t')
    | some (true, rx, t') =>
      let st := { st with pool := { st.pool with rx := rx } }
      match updateWorkers st.pool.config Job.default st.rxThreadData with
      | none => none
      | some threadData => some ({ st with rxThreadData := threadData }, t ++ t')
  else some (st, [])

/-- The function `RandomXManager::cleanup()`: all registered VMs destroyed and the map
cleared, dataset and cache released and nulled, the current seed hash cleared. -/
def cleanup (st : MinerState) : MinerState × List RxCall :=
  let t := destroyVms st.vms ++ releaseExisting st.pool.rx
  ({ st with
      vms := []
      pool := { st.pool with
                rx := { st.pool.rx with dataset := none, cache := none, currentSeedHash := "" } } },
    t)

end RandomXManager

/-- One of the operations that change the registry and the RandomX statics. -/
inductive MinerOp where
  | newJob : InitEnv → InitLib → List (String × JsonValue) → MinerOp
  | seedChange : InitEnv → InitLib → String → MinerOp
  | cleanup : MinerOp

/-- Whether the operation is a call of `RandomXManager::handleSeedHashChange`. -/
def MinerOp.isSeedChange : MinerOp → Bool
  | .seedChange _ _ _ => true
  | _ => false

/-- The state after one operation; `none` stands for undefined behaviour. -/
def MinerState.step (st : MinerState) : MinerOp → Option MinerState
  | .newJob env lib jobObj =>
    match processNewJobTraced env lib st.pool jobObj with
    | none => none
    | some (pool, _, _) => some { st with pool := pool }
  | .seedChange env lib seedHash =>
    match RandomXManager.handleSeedHashChange env lib st seedHash with
    | none => none
    | some (st', _) => some st'
  | .cleanup => some (RandomXManager.cleanup st).1

/-- The state after a sequence of operations. -/
def MinerState.run (st : MinerState) : List MinerOp → Option MinerState
  | [] => some st
  | op :: ops =>
    match st.step op with
    | none => none
    | some st' => st'.run ops

/-- The registry invariant: when the dataset is resident, every job in the queue carries the
current seed hash of `RandomXManager`. -/
def SeedInvariant (s : PoolState) : Prop :=
  s.rx.dataset ≠ none → ∀ job ∈ s.jobQueue, job.seedHash = s.rx.currentSeedHash

/-- The library answers used in the examples: 1000 dataset items. -/
def libOk : InitLib := { itemCount := 1000, threadsStarted := 0 }

/-- The `(key, keySize)` arguments of the `randomx_init_cache` calls in a list of calls. -/
def initCacheArgs (t : List RxCall) : List (List Nat × Nat) :=
  t.filterMap (fun c =>
    match c with
    | .initCache _ key n => some (key, n)
    | _ => none)

instance (s : PoolState) : Decidable (SeedInvariant s) := by
  unfold SeedInvariant; infer_instance

/-- The scenario of a seed change: job "1" on seed "aa" is published, worker 0 creates its
VM (the library returns handle 7), then job "2" on seed "bb" arrives.  The result lists the
calls of the VM creation, the calls made while job "2" is processed, and the workers
afterwards. -/
def seedSwitchScenario : Option (List RxCall × List RxCall × List (Option MiningThreadData)) :=
  match processNewJobTraced envOk libOk (PoolState.initial ⟨1⟩ [some (MiningThreadData.new 0)])
      (jobNotification "1" "0707" "1d00ffff" 3000000 "aa") with
  | some (s1, _, _) =>
    match s1.threadData with
    | [some w] =>
      match MiningThreadData.initializeVM (some 7) s1.rx w with
      | (_, w', tvm) =>
        match processNewJobTraced { envOk with allocDataset := some 3 } libOk
            { s1 with threadData := [some w'] }
            (jobNotification "2" "0808" "1d00ffff" 3000001 "bb") with
        | some (s2, _, t2) => some (tvm, t2, s2.threadData)
        | none => none
    | _ => none
  | none => none

/-! ## Dataset persistence (RandomXManager.cpp) -/

/-- The fallback macro `RANDOMX_DATASET_ITEM_COUNT` of RandomXManager.cpp. -/
def RANDOMX_DATASET_ITEM_COUNT : Nat := 0x4000000

/-- The macro `RANDOMX_DATASET_ITEM_SIZE` (randomx.h, Constants.h). -/
def RANDOMX_DATASET_ITEM_SIZE : Nat := 64

/-- The fallback macro `RANDOMX_DATASET_SIZE` of RandomXManager.cpp. -/
def RANDOMX_DATASET_SIZE : Nat := RANDOMX_DATASET_ITEM_COUNT * RANDOMX_DATASET_ITEM_SIZE

/-- The macro `RANDOMX_DATASET_BASE_SIZE` of Constants.h. -/
def RANDOMX_DATASET_BASE_SIZE : Nat := 2147483648

/-- The macro `RANDOMX_DATASET_EXTRA_SIZE` of Constants.h. -/
def RANDOMX_DATASET_EXTRA_SIZE : Nat := 33554368

/-- The number of bytes of the dataset memory the library allocates: base size plus extra
size, the product of `randomx_dataset_item_count()` and the item size. -/
def libraryDatasetSize : Nat := RANDOMX_DATASET_BASE_SIZE + RANDOMX_DATASET_EXTRA_SIZE

/-- The object representation of an unsigned integer in `n` bytes (little-endian, as
`reinterpret_cast<const char*>(&x)` exposes it on the target). -/
def leBytes : Nat → Nat → List Nat
  | 0, _ => []
  | n + 1, v => v % 256 :: leBytes n (v / 256)

/-- The unsigned integer whose object representation the bytes are. -/
def leValue : List Nat → Nat
  | [] => 0
  | b :: bs => b + 256 * leValue bs

/-- A `std::ifstream` opened in binary mode: the bytes not yet read and whether the stream
is still good. -/
structure IfStream where
  rest : List Nat
  good : Bool
deriving DecidableEq

/-- The call `file.read(buf, n)`: the bytes stored into the buffer and the stream afterwards.
When fewer than `n` bytes are left they are stored and the stream fails; a failed stream
reads nothing. -/
def IfStream.read (f : IfStream) (n : Nat) : List Nat × IfStream :=
  if f.good then
    if n ≤ f.rest.length then (f.rest.take n, { rest := f.rest.drop n, good := true })
    else (f.rest, { rest := [], good := false })
  else ([], f)

namespace RandomXManager

/-- The function `RandomXManager::loadDataset(seedHash)` on an allocated dataset, for the
size `datasetSize` that `RANDOMX_DATASET_SIZE` denotes: `file` is the content of the dataset
file (`none` when it cannot be opened), `memory` the dataset memory
(`none` when `randomx_get_dataset_memory` returns null).  The result is the returned flag and
the dataset memory afterwards.  The outer `none` stands for undefined behaviour: comparing
`fileDatasetSize` or using `seedHashLength` when the read left them uninitialised, or
storing more bytes than the dataset memory has. -/
def loadDataset (datasetSize : Nat) (file : Option (List Nat)) (seedHash : String)
    (memory : Option (List Nat)) : Option (Bool × Option (List Nat)) :=
  match file with
  | none => some (false, memory)
  | some bytes =>
    let f : IfStream := { rest := bytes, good := true }
    match f.read 8 with
    | (sizeBytes, f) =>
      if sizeBytes.length < 8 then none
      else if leValue sizeBytes ≠ datasetSize then some (false, memory)
      else
        match f.read 4 with
        | (lenBytes, f) =>
          if lenBytes.length < 4 then none
          else
            let seedHashLength := leValue lenBytes
            match f.read seedHashLength with
            | (seedBytes, f) =>
              let fileSeedHash :=
                seedBytes ++ List.replicate (seedHashLength - seedBytes.length) 0
              if fileSeedHash ≠ seedKey seedHash then some (false, memory)
              else
                match memory with
                | none => some (false, none)
                | some mem =>
                  match f.read datasetSize with
                  | (data, _) =>
                    if mem.length < data.length then none
                    else some (true, some (data ++ mem.drop data.length))

/-- The function `RandomXManager::saveDataset(seedHash)`: `dataset` is the dataset handle,
`openOk` whether the output file could be opened, `memory` the dataset memory.  The result
is the returned flag and the content of the file afterwards (`none` when no file was
opened).  The outer `none` stands for the undefined behaviour of writing
`datasetSize` bytes from a shorter memory. -/
def saveDataset (datasetSize : Nat) (openOk : Bool) (seedHash : String) (dataset : Option Nat)
    (memory : Option (List Nat)) : Option (Bool × Option (List Nat)) :=
  match dataset with
  | none => some (false, none)
  | some _ =>
    if !openOk then some (false, none)
    else
      let file := leBytes 8 datasetSize
      let seedHashLength := seedHash.length % 2 ^ 32
      let file := file ++ leBytes 4 seedHashLength
      let file := file ++ (seedKey seedHash).take seedHashLength
      match memory with
      | none => some (false, some file)
      | some mem =>
        if mem.length < datasetSize then none
        else some (true, some (file ++ mem.take datasetSize))

end RandomXManager

/-! ## `PoolClient::receiveData` (PoolClient.cpp) -/

/-- The result of `messageBuffer.find('\n')`; `none` is `std::string::npos`. -/
def findNewline (s : List Char) : Option Nat :=
  if s.indexOf '\n' < s.length then some (s.indexOf '\n') else none

namespace PoolClient

/-- The loop `while ((pos = messageBuffer.find('\n')) != npos)` of `receiveData`, with a
bound on the iterations: it returns the first non-empty line, a trailing carriage return
removed, or the empty string when the buffer holds no such line. -/
def firstMessage : Nat → List Char → List Char
  | 0, _ => []
  | fuel + 1, messageBuffer =>
    match findNewline messageBuffer with
    | none => []
    | some pos =>
      let message := messageBuffer.take pos
      let messageBuffer := messageBuffer.drop (pos + 1)
      if message = [] then firstMessage fuel messageBuffer
      else if message.getLast? = some '\r' then message.dropLast
      else message

/-- The function `PoolClient::receiveData(socket)` for one call: `chunk` is what `recv`
delivered (`none` when `select` or `recv` deliver nothing).  The local `messageBuffer` starts
empty on every call and takes the chunk up to its first NUL character. -/
def receiveData (chunk : Option (List Char)) : List Char :=
  match chunk with
  | none => []
  | some buffer =>
    let messageBuffer := buffer.takeWhile (fun c => c ≠ '\x00')
    firstMessage (messageBuffer.length + 1) messageBuffer

/-- The non-empty results of successive `receiveData` calls, one call per chunk. -/
def receivedMessages (chunks : List (List Char)) : List (List Char) :=
  (chunks.map (fun c => receiveData (some c))).filter (fun m => m ≠ [])

end PoolClient

/-- The lines the specification expects from a byte stream: the newline-terminated lines,
a trailing carriage return removed, the empty ones left out.  `acc` holds the current line
in reverse. -/
def specLinesFrom : List Char → List Char → List (List Char)
  | [], _ => []
  | c :: rest, acc =>
    if c = '\n' then
      (if acc = [] then []
        else if acc.head? = some '\r' then [acc.tail.reverse] else [acc.reverse])
        ++ specLinesFrom rest []
    else specLinesFrom rest (c :: acc)

/-- The expected messages of a sequence of chunks: the lines of their concatenation. -/
def specLines (chunks : List (List Char)) : List (List Char) :=
  specLinesFrom chunks.flatten []

/-! ## Submit requests (PoolClient.cpp, MoneroMiner.cpp) -/

/-- The function `createSubmitPayload` of MoneroMiner.cpp up to the call of `serialize()`:
the `picojson` object it builds (a `std::map`, members in key order) and the value of the
counter `jsonRpcId` after the `fetch_add(1)`; the id is the counter converted to `uint32_t`. -/
def createSubmitPayload (jsonRpcId : Nat) (sessionId jobId nonceHex hashHex algo : String) :
    JsonValue × Nat :=
  let id := jsonRpcId % 2 ^ 32
  (.object [("id", .number id), ("method", .string "submit"),
            ("params", .array [.string sessionId, .string jobId, .string nonceHex,
                               .string hashHex, .string algo])],
   (jsonRpcId + 1) % 2 ^ 64)

/-- Whether a `picojson` value is an object (`is<picojson::object>()`). -/
def JsonValue.isObject : JsonValue → Bool
  | .object _ => true
  | _ => false

namespace PoolClient

/-- The bytes `PoolClient::submitShare` hands to `send`: the request with `"\n"` appended. -/
def submitShareBytes (poolId jobId nonce result algorithm : String) : String :=
  submitRequest poolId jobId nonce result algorithm ++ "\n"

/-- The bytes `PoolClient::sendAndReceive(payload)` hands to `send`: `payload + "\n"`. -/
def sendAndReceiveBytes (payload : String) : String := payload ++ "\n"

end PoolClient

/-- The members of a `picojson` object (`get<picojson::object>()`); empty for another value. -/
def JsonValue.members : JsonValue → List (String × JsonValue)
  | .object m => m
  | _ => []

/-! ## Submit responses and share counters (PoolClient.cpp, MiningThread.cpp, MoneroMiner.cpp, MiningStats.cpp) -/

namespace PoolClient

/-- The statements of the `try` block that ends `PoolClient::submitShare`, for the result
`parsed` of `picojson::parse` on the response (`none` when `err` is not empty).  The outer
`none` stands for the exception `get<std::string>()` throws on a `status` that is not a
string; `some none` means the block was left without a `return`. -/
def submitResponseTry (parsed : Option JsonValue) : Option (Option Bool) :=
  match parsed with
  | some (.object obj) =>
    match JsonValue.member obj "result" with
    | some (.object result) =>
      match JsonValue.member result "status" with
      | some statusValue =>
        match statusValue.getString with
        | none => none
        | some status => some (some (decide (status = "OK")))
      | none => some none
    | _ => some none
  | _ => some none

/-- The value `PoolClient::submitShare` returns once a response has been received: the
`return accepted` of the `try` block, and `false` after "Invalid response format from pool"
or after the `catch` handler. -/
def handleSubmitResponse (parsed : Option JsonValue) : Bool :=
  match submitResponseTry parsed with
  | some (some accepted) => accepted
  | some none => false
  | none => false

end PoolClient

/-- What the socket answers during one `PoolClient::submitShare`: whether `poolSocket` is
valid, whether `send` succeeds, whether `select` reports data within the timeout, and the
text `recv` delivers (`none` when `bytesReceived <= 0`). -/
structure SubmitIo where
  socketValid : Bool
  sendOk : Bool
  selectReady : Bool
  response : Option String
deriving DecidableEq

/-- The function `PoolClient::submitShare` as far as its result goes, with `picojson::parse`
taken as the parameter `parse`. -/
def PoolClient.submitShare (parse : String → Option JsonValue) (io : SubmitIo) : Bool :=
  if !io.socketValid then false
  else if !io.sendOk then false
  else if !io.selectReady then false
  else
    match io.response with
    | none => false
    | some response => PoolClient.handleSubmitResponse (parse response)

/-- The loop `while (retries > 0 && !accepted)` of `miningThread` (MiningThread.cpp):
`outcome k` is the result of the call number `k` of `PoolClient::submitShare`; the result is
the final `accepted` and the number of calls made. -/
def MiningThread.submitLoop (outcome : Nat → Bool) : Nat → Bool → Nat → Bool × Nat
  | 0, accepted, calls => (accepted, calls)
  | retries + 1, accepted, calls =>
    if accepted then (accepted, calls)
    else MiningThread.submitLoop outcome retries (outcome calls) (calls + 1)

/-- The share counters `acceptedShares` and `rejectedShares` (`uint64_t`). -/
structure ShareCounters where
  accepted : Nat
  rejected : Nat
deriving DecidableEq

/-- The submission of a found share in `miningThread` (MiningThread.cpp): the retry loop
starting with `retries = 3`, then `acceptedShares++` or `rejectedShares++`; the result is
the counters and the number of calls of `PoolClient::submitShare`. -/
def MiningThread.submitFoundShare (outcome : Nat → Bool) (c : ShareCounters) :
    ShareCounters × Nat :=
  match MiningThread.submitLoop outcome 3 false 0 with
  | (true, calls) => ({ c with accepted := (c.accepted + 1) % 2 ^ 64 }, calls)
  | (false, calls) => ({ c with rejected := (c.rejected + 1) % 2 ^ 64 }, calls)

/-- The member function `MiningThreadData::submitShare(hash)` as far as the counters go:
nothing without a current job; otherwise one call of `PoolClient::submitShare`, whose result
is `outcome 0`, then `acceptedShares++` or `rejectedShares++`.  The second component is the
number of calls made. -/
def MiningThreadData.submitShare (outcome : Nat → Bool) (w : MiningThreadData) :
    MiningThreadData × Nat :=
  match w.currentJob with
  | none => (w, 0)
  | some _ =>
    let accepted := outcome 0
    if accepted then ({ w with acceptedShares := (w.acceptedShares + 1) % 2 ^ 64 }, 1)
    else ({ w with rejectedShares := (w.rejectedShares + 1) % 2 ^ 64 }, 1)

/-- The function `handleShareResponse(response, accepted)` of MoneroMiner.cpp on the
process-wide counters `acceptedShares` and `rejectedShares`, for the result `parsed` of
`picojson::parse`: the flag `accepted` and the counters afterwards.  `none` stands for the
exception that `get<std::string>()` throws on a `status` or `message` of another type, which
this function does not catch. -/
def handleShareResponse (parsed : Option JsonValue) (accepted : Bool) (c : ShareCounters) :
    Option (Bool × ShareCounters) :=
  match parsed with
  | none => some (false, c)
  | some (.object obj) =>
    match JsonValue.member obj "result" with
    | some result =>
      match result with
      | .object resultObj =>
        match JsonValue.member resultObj "status" with
        | some statusValue =>
          match statusValue.getString with
          | none => none
          | some status =>
            if status = "OK" then some (true, { c with accepted := (c.accepted + 1) % 2 ^ 64 })
            else some (false, { c with rejected := (c.rejected + 1) % 2 ^ 64 })
        | none => some (accepted, c)
      | _ => some (accepted, c)
    | none =>
      match JsonValue.member obj "error" with
      | some error =>
        match error with
        | .object errorObj =>
          match JsonValue.member errorObj "message" with
          | some message =>
            match message.getString with
            | none => none
            | some _ => some (false, { c with rejected := (c.rejected + 1) % 2 ^ 64 })
          | none => some (false, { c with rejected := (c.rejected + 1) % 2 ^ 64 })
        | _ => some (false, { c with rejected := (c.rejected + 1) % 2 ^ 64 })
      | none => some (accepted, c)
  | some _ => some (false, c)

/-- The members of `GlobalStats` (Types.h) that `MiningStats::updateThreadStats` writes. -/
structure GlobalStats where
  totalHashes : Nat
  acceptedShares : Nat
  rejectedShares : Nat
  elapsedSeconds : Int
  currentJobId : String
  currentNonce : Nat
deriving DecidableEq

/-- The function `MiningStats::updateThreadStats(data, hashCount, totalHashCount,
elapsedSeconds, jobId, currentNonce)`: nothing for a null `data`; otherwise the worker's
hash counters are incremented and the members of `globalStats` assigned, the share counters
from the worker's getters. -/
def MiningStats.updateThreadStats (data : Option MiningThreadData)
    (_hashCount totalHashCount : Nat) (elapsedSeconds : Int) (jobId : String)
    (currentNonce : Nat) (globalStats : GlobalStats) : Option MiningThreadData × GlobalStats :=
  match data with
  | none => (none, globalStats)
  | some d =>
    let d := { d with hashCount := (d.hashCount + 1) % 2 ^ 64
                      totalHashCount := (d.totalHashCount + 1) % 2 ^ 64 }
    (some d,
      { totalHashes := totalHashCount, acceptedShares := d.acceptedShares,
        rejectedShares := d.rejectedShares, elapsedSeconds := elapsedSeconds,
        currentJobId := jobId, currentNonce := currentNonce })

/-- Three attempt outcomes: fail, fail, OK (and OK from then on). -/
def failFailOk (k : Nat) : Bool := decide (2 ≤ k)

/-! ## The mining loop (MiningThreadData.cpp, MiningThread.cpp) -/

/-- One pass of the loop body of `MiningThreadData::mine` for a worker that holds a job, in
the case that the hash does not meet the target and no other thread replaces the job during
the pass: the `data` vector that is hashed (`none` when `calculateHash` returns early) and
the worker afterwards, with `this->currentNonce++`, `hashCount++` and `totalHashCount++` on
`uint64_t`.  A blob that does not decode makes `getBlobBytes` throw, and the handler of the
loop leaves the worker as it is.  The outer `none` is a worker without a current job, which
waits for the queue instead. -/
def MiningThreadData.minePass (w : MiningThreadData) :
    Option (Option (List Nat) × MiningThreadData) :=
  match w.currentJob with
  | none => none
  | some job =>
    match job.getBlobBytes with
    | none => some (none, w)
    | some input =>
      let currentNonce := w.currentNonce
      some (w.calculateHashData input currentNonce,
        { w with currentNonce := (w.currentNonce + 1) % 2 ^ 64
                 hashCount := (w.hashCount + 1) % 2 ^ 64
                 totalHashCount := (w.totalHashCount + 1) % 2 ^ 64 })

/-- One pass of the loop `while (!data->shouldStop && job.jobId == data->currentJobId)` of
`miningThread` (MiningThread.cpp) up to the hash call: `nonce++` on the `uint32_t` nonce,
then the nonce written at bytes 39..42 of the 76-byte `input`.  The result is the input that
is hashed and the nonce afterwards; the loop condition does not read the nonce. -/
def MiningThread.loopStep (input : List Nat) (nonce : Nat) : List Nat × Nat :=
  let nonce := (nonce + 1) % 2 ^ 32
  let input := input.set 39 ((nonce >>> 24) &&& 0xFF)
  let input := input.set 40 ((nonce >>> 16) &&& 0xFF)
  let input := input.set 41 ((nonce >>> 8) &&& 0xFF)
  let input := input.set 42 (nonce &&& 0xFF)
  (input, nonce)

/-- The worker of the nonce examples: thread 1 with a VM, an empty blob and the cursor at
`0xFFFFFFFF`. -/
def wLastNonce : MiningThreadData :=
  { (MiningThreadData.new 1) with
    vm := some 1
    currentNonce := 0xFFFFFFFF
    currentJob := some { jobId := "17", blob := "", target := "1d00ffff", height := 3000000,
                         seedHash := "", nonce := 0 } }

/-- The mutexes locked by `MiningThreadData::mine` and the functions it calls: the member
`MiningThreadData::jobMutex`, `PoolClient::jobMutex`, `PoolClient::submitMutex` and
`PoolClient::socketMutex`; all are `std::mutex`. -/
inductive Mutex where
  | workerJob : Mutex
  | poolJob : Mutex
  | submit : Mutex
  | socket : Mutex
deriving DecidableEq

/-- A lock operation of one thread: the constructor of a `lock_guard`/`unique_lock`, or its
destructor. -/
inductive LockEvent where
  | acquire : Mutex → LockEvent
  | release : Mutex → LockEvent
deriving DecidableEq

/-- Lock operations of `MiningThreadData::updateJob`: a `lock_guard` on `jobMutex` for the
whole body. -/
def MiningThreadData.updateJobLocks : List LockEvent :=
  [.acquire .workerJob, .release .workerJob]

/-- Lock operations of `PoolClient::submitShare`: `lock_guard`s on `submitMutex` and
`socketMutex` for the whole body. -/
def PoolClient.submitShareLocks : List LockEvent :=
  [.acquire .submit, .acquire .socket, .release .socket, .release .submit]

/-- Lock operations of `MiningThreadData::submitShare`: a `lock_guard` on `jobMutex` for the
whole body, which calls `PoolClient::submitShare` when there is a current job. -/
def MiningThreadData.submitShareLocks (hasJob : Bool) : List LockEvent :=
  [.acquire .workerJob] ++ (if hasJob then PoolClient.submitShareLocks else [])
    ++ [.release .workerJob]

/-- Lock operations, in program order, of one pass of the loop body of
`MiningThreadData::mine` when no lock operation blocks: `hasJob` tells whether `currentJob`
is set at the start, `queued` whether the pool queue holds a job after the wait (with
`shouldStop` false), `meets` whether `calculateHash` returns true (the job being the same
afterwards). -/
def MiningThreadData.mineLocks (hasJob queued meets : Bool) : List LockEvent :=
  let first : List LockEvent :=
    [.acquire .workerJob]
      ++ (if hasJob then []
          else [.acquire .poolJob]
            ++ (if queued then MiningThreadData.updateJobLocks else [])
            ++ [.release .poolJob])
      ++ [.release .workerJob]
  if !hasJob && !queued then first
  else
    first
      ++ [.acquire .workerJob, .release .workerJob]
      ++ (if meets then
            [.acquire .workerJob] ++ MiningThreadData.submitShareLocks true
              ++ [.release .workerJob]
          else [])
      ++ [.acquire .workerJob, .release .workerJob]

/-- The first mutex that a thread holding the mutexes `held` locks again while it still
holds it, on the given lock operations. -/
def firstRelock : List Mutex → List LockEvent → Option Mutex
  | _, [] => none
  | held, .acquire m :: rest =>
    if m ∈ held then some m else firstRelock (m :: held) rest
  | held, .release m :: rest => firstRelock (held.erase m) rest

/-! ## `Job::calculateDifficulty` (Job.h) and `uint256_t::shift_left` (RandomXManager.h) -/

/-- The array `expandedTarget[0..3]` that `Job::calculateDifficulty` fills from the value
`compactTarget`, as a `uint256_t` (the loop that follows weighs index 3 with 1 and index 0
with `2^192`). -/
def Job.expandWords (compactTarget : Nat) : uint256_t :=
  let exponent := (compactTarget >>> 24) &&& 0xFF
  let mantissa := compactTarget &&& 0xFFFFFF
  let expandedTarget := uint256_t.zero
  if exponent ≤ 3 then
    expandedTarget.setWord 3 (mantissa >>> (8 * (3 - exponent)))
  else
    let shift := 8 * (exponent - 3)
    if shift < 64 then
      expandedTarget.setWord 3 ((mantissa <<< shift) % 2 ^ 64)
    else if shift < 128 then
      expandedTarget.setWord 2 ((mantissa <<< (shift - 64)) % 2 ^ 64)
    else if shift < 192 then
      expandedTarget.setWord 1 ((mantissa <<< (shift - 128)) % 2 ^ 64)
    else if shift < 256 then
      expandedTarget.setWord 0 ((mantissa <<< (shift - 192)) % 2 ^ 64)
    else expandedTarget

/-- The expanded target of `Job::calculateDifficulty` for the member `target`:
`compactTarget = std::stoull(target, nullptr, 16)`, `none` when that call throws. -/
def Job.expandedTarget (target : String) : Option uint256_t :=
  match stoull target 16 with
  | none => none
  | some compactTarget => some (Job.expandWords compactTarget)

/-- The expression `x << s` on `uint64_t`; `none` stands for the undefined behaviour of a
shift amount that is not below the width. -/
def shl64 (x s : Nat) : Option Nat := if s < 64 then some ((x <<< s) % 2 ^ 64) else none

/-- The expression `x >> s` on `uint64_t`; `none` stands for the undefined behaviour of a
shift amount that is not below the width. -/
def shr64 (x s : Nat) : Option Nat := if s < 64 then some (x >>> s) else none

namespace uint256_t

/-- The body of the loop `for (int i = 3; i >= 0; i--)` of `shift_left` for one index: the
state is the words and `carry`. -/
def shiftWord (shift : Nat) (st : uint256_t × Nat) (i : Nat) : Option (uint256_t × Nat) :=
  match shr64 (st.1.words i) (64 - shift) with
  | none => none
  | some next_carry =>
    match shl64 (st.1.words i) shift with
    | none => none
    | some shifted => some (st.1.setWord i (shifted ||| st.2), next_carry)

/-- One pass of the `while` loop of `shift_left` for the shift amount `shift`: `carry = 0`,
then the indices 3, 2, 1, 0. -/
def shiftPass (a : uint256_t) (shift : Nat) : Option uint256_t :=
  match shiftWord shift (a, 0) 3 with
  | none => none
  | some st3 =>
    match shiftWord shift st3 2 with
    | none => none
    | some st2 =>
      match shiftWord shift st2 1 with
      | none => none
      | some st1 =>
        match shiftWord shift st1 0 with
        | none => none
        | some st0 => some st0.1

/-- The loop `while (n > 0)` of `shift_left`, with `shift = (n < 64) ? n : 64` and
`n -= shift`. -/
def shiftLoop (n : Nat) (a : uint256_t) : Option uint256_t :=
  if 0 < n then
    let shift := if n < 64 then n else 64
    match shiftPass a shift with
    | none => none
    | some a1 => shiftLoop (n - shift) a1
  else some a
termination_by n
decreasing_by
  split <;> omega

/-- The member function `shift_left(int n)`; `none` stands for undefined behaviour. -/
def shift_left (a : uint256_t) (n : Int) : Option uint256_t :=
  if n ≤ 0 then some a
  else if n ≥ 256 then some { w0 := 0, w1 := 0, w2 := 0, w3 := 0 }
  else shiftLoop n.toNat a

end uint256_t

/-! ## Hex conversion (Utils.cpp, Globals.cpp) -/

/-- A model of `std::stoi(str, nullptr, base)`: the conversion of `strtol` followed by the
range check of `int`; `none` stands for `std::invalid_argument` (no digit) or
`std::out_of_range`. -/
def stoi (s : String) (base : Nat) : Option Int :=
  let s1 := s.toList.dropWhile isSpace
  let (neg, s2) : Bool × List Char :=
    match s1 with
    | '-' :: r => (true, r)
    | '+' :: r => (false, r)
    | _ => (false, s1)
  let s3 := dropHexPrefix base s2
  match readDigits base s3 0 false with
  | (_, false) => none
  | (v, true) =>
    if neg then (if v ≤ 2 ^ 31 then some (-(v : Int)) else none)
    else if v < 2 ^ 31 then some (v : Int) else none

namespace Utils

/-- The function `bytesToHex(const std::vector<uint8_t>&)` of Utils.cpp: every byte as two
hex digits with fill `0`. -/
def bytesToHex (bytes : List Nat) : String := String.mk (bytes.flatMap hexByte)

/-- The loop of `hexToBytes`: for `i = 0, 2, 4, ...` the substring `hex.substr(i, 2)` goes
through `std::stoi(byteString, nullptr, 16)` and is cast to `uint8_t`; `none` when some
`std::stoi` throws. -/
def hexToBytesLoop : List Char → Option (List Nat)
  | [] => some []
  | [c] =>
    match stoi (String.mk [c]) 16 with
    | none => none
    | some v => some [(v % 256).toNat]
  | c1 :: c2 :: rest =>
    match stoi (String.mk [c1, c2]) 16 with
    | none => none
    | some v =>
      match hexToBytesLoop rest with
      | none => none
      | some bytes => some ((v % 256).toNat :: bytes)

/-- The function `hexToBytes(const std::string&)` of Utils.cpp. -/
def hexToBytes (hex : String) : Option (List Nat) := hexToBytesLoop hex.toList

end Utils

/-- The function `bytesToHex(const std::vector<uint8_t>&)` of Globals.cpp: every byte as two
hex digits with fill `0`, followed by `" "`. -/
def Globals.bytesToHex (bytes : List Nat) : String :=
  String.mk (bytes.flatMap (fun byte => hexByte byte ++ [' ']))

/-! ## Handles that are allocated and not released -/

/-- The dataset and cache handles that are allocated and not yet released. -/
structure LiveHandles where
  datasets : List Nat
  caches : List Nat
deriving DecidableEq

/-- The handles the state of `RandomXManager` holds. -/
def RandomXState.live (rx : RandomXState) : LiveHandles :=
  { datasets := rx.dataset.toList, caches := rx.cache.toList }

/-- The live handles after the library calls `t`, starting from `live`: an allocation that
succeeds adds its handle, a release removes it; `none` when a handle is released that is not
live, which is a release without allocation or a second release. -/
def liveAfter : LiveHandles → List RxCall → Option LiveHandles
  | live, [] => some live
  | live, RxCall.releaseDataset d :: t =>
    if d ∈ live.datasets then liveAfter { live with datasets := live.datasets.erase d } t
    else none
  | live, RxCall.releaseCache c :: t =>
    if c ∈ live.caches then liveAfter { live with caches := live.caches.erase c } t
    else none
  | live, RxCall.allocDataset _ (some d) :: t =>
    liveAfter { live with datasets := d :: live.datasets } t
  | live, RxCall.allocCache _ (some c) :: t =>
    liveAfter { live with caches := c :: live.caches } t
  | live, _ :: t => liveAfter live t

/-- An environment in which the dataset allocation fails. -/
def envAllocFails : InitEnv := { envOk with allocDataset := none }

/-! ## JSON text (RFC 8259) -/

/-- A token of JSON text: the six structural characters, a string, a number and a literal
name. -/
inductive JsonToken where
  | lbrace : JsonToken
  | rbrace : JsonToken
  | lbrack : JsonToken
  | rbrack : JsonToken
  | colon : JsonToken
  | comma : JsonToken
  | str : String → JsonToken
  | num : Nat → JsonToken
  | word : String → JsonToken
deriving DecidableEq

/-- Where the scan of a JSON text stands: between tokens, inside a string (with the
characters read so far, last first), after a backslash inside a string, inside a number,
after a leading zero, or inside a literal name. -/
inductive LexState where
  | normal : LexState
  | inString : List Char → LexState
  | inEscape : List Char → LexState
  | inNumber : Nat → LexState
  | inZero : LexState
  | inWord : List Char → LexState

/-- The white space of JSON text. -/
def jsonWs (c : Char) : Bool := c = ' ' || c = '\t' || c = '\n' || c = '\r'

/-- The token of a structural character. -/
def punctToken (c : Char) : Option JsonToken :=
  if c = '\x7b' then some .lbrace
  else if c = '\x7d' then some .rbrace
  else if c = '[' then some .lbrack
  else if c = ']' then some .rbrack
  else if c = ':' then some .colon
  else if c = ',' then some .comma
  else none

/-- The character a two-character escape sequence stands for. -/
def unescape (c : Char) : Option Char :=
  if c = '"' then some '"'
  else if c = '\\' then some '\\'
  else if c = '/' then some '/'
  else if c = 'b' then some '\x08'
  else if c = 'f' then some '\x0c'
  else if c = 'n' then some '\n'
  else if c = 'r' then some '\r'
  else if c = 't' then some '\t'
  else none

/-- The tokens of a JSON text; `none` when the text is not made of tokens.  Numbers are the
non-negative integers without sign, fraction or exponent, and the `\u` escape is not
accepted: the requests of the program contain neither. -/
def lexJson : LexState → List Char → Option (List JsonToken)
  | .normal, [] => some []
  | .normal, c :: cs =>
    if jsonWs c then lexJson .normal cs
    else
      match punctToken c with
      | some t => (lexJson .normal cs).map (fun ts => t :: ts)
      | none =>
        if c = '"' then lexJson (.inString []) cs
        else if c = '0' then lexJson .inZero cs
        else if c.isDigit then lexJson (.inNumber (c.toNat - '0'.toNat)) cs
        else if c.isLower then lexJson (.inWord [c]) cs
        else none
  | .inString _, [] => none
  | .inString acc, c :: cs =>
    if c = '"' then
      (lexJson .normal cs).map (fun ts => JsonToken.str (String.mk acc.reverse) :: ts)
    else if c = '\\' then lexJson (.inEscape acc) cs
    else if c.toNat < 0x20 then none
    else lexJson (.inString (c :: acc)) cs
  | .inEscape _, [] => none
  | .inEscape acc, c :: cs =>
    match unescape c with
    | some e => lexJson (.inString (e :: acc)) cs
    | none => none
  | .inNumber n, [] => some [JsonToken.num n]
  | .inNumber n, c :: cs =>
    if c.isDigit then lexJson (.inNumber (n * 10 + (c.toNat - '0'.toNat))) cs
    else if jsonWs c then (lexJson .normal cs).map (fun ts => JsonToken.num n :: ts)
    else
      match punctToken c with
      | some t => (lexJson .normal cs).map (fun ts => JsonToken.num n :: t :: ts)
      | none => none
  | .inZero, [] => some [JsonToken.num 0]
  | .inZero, c :: cs =>
    if jsonWs c then (lexJson .normal cs).map (fun ts => JsonToken.num 0 :: ts)
    else
      match punctToken c with
      | some t => (lexJson .normal cs).map (fun ts => JsonToken.num 0 :: t :: ts)
      | none => none
  | .inWord acc, [] => some [JsonToken.word (String.mk acc.reverse)]
  | .inWord acc, c :: cs =>
    if c.isLower then lexJson (.inWord (c :: acc)) cs
    else if jsonWs c then
      (lexJson .normal cs).map (fun ts => JsonToken.word (String.mk acc.reverse) :: ts)
    else
      match punctToken c with
      | some t =>
        (lexJson .normal cs).map (fun ts => JsonToken.word (String.mk acc.reverse) :: t :: ts)
      | none => none

/-- An array or object that is being read: the elements so far (last first), or the members
so far (last first) and the name whose value is being read. -/
inductive JsonFrame where
  | arr : List JsonValue → JsonFrame
  | obj : List (String × JsonValue) → String → JsonFrame

/-- What the grammar allows next, with the arrays and objects still open: a value; a value
or `]`; `,` or `]`; a name or the closing brace; `,` or the closing brace; a name; `:`; or
nothing more after the complete value. -/
inductive ParseState where
  | value : List JsonFrame → ParseState
  | arrStart : List JsonFrame → ParseState
  | inArr : List JsonFrame → List JsonValue → ParseState
  | objStart : List JsonFrame → ParseState
  | inObj : List JsonFrame → List (String × JsonValue) → ParseState
  | key : List JsonFrame → List (String × JsonValue) → ParseState
  | colon : List JsonFrame → List (String × JsonValue) → String → ParseState
  | done : JsonValue → ParseState

/-- A complete value goes into the innermost open array or object, or is the result. -/
def attachValue : List JsonFrame → JsonValue → ParseState
  | [], v => .done v
  | .arr items :: stack, v => .inArr stack (v :: items)
  | .obj members key :: stack, v => .inObj stack ((key, v) :: members)

/-- The value of a string, number or literal-name token. -/
def scalarValue : JsonToken → Option JsonValue
  | .str s => some (.string s)
  | .num n => some (.number n)
  | .word w =>
    if w = "true" then some (.boolean true)
    else if w = "false" then some (.boolean false)
    else if w = "null" then some .null
    else none
  | _ => none

/-- A token where a value is expected. -/
def valueStep (stack : List JsonFrame) (t : JsonToken) : Option ParseState :=
  match t with
  | .lbrack => some (.arrStart stack)
  | .lbrace => some (.objStart stack)
  | t => (scalarValue t).map (attachValue stack)

/-- One token of the grammar `value = object / array / string / number / literal`,
`object = { [member *(, member)] }`, `member = string : value`,
`array = [ [value *(, value)] ]`. -/
def parseStep : ParseState → JsonToken → Option ParseState
  | .value stack, t => valueStep stack t
  | .arrStart stack, .rbrack => some (attachValue stack (.array []))
  | .arrStart stack, t => valueStep (.arr [] :: stack) t
  | .inArr stack items, .comma => some (.value (.arr items :: stack))
  | .inArr stack items, .rbrack => some (attachValue stack (.array items.reverse))
  | .objStart stack, .rbrace => some (attachValue stack (.object []))
  | .objStart stack, .str k => some (.colon stack [] k)
  | .inObj stack members, .comma => some (.key stack members)
  | .inObj stack members, .rbrace => some (attachValue stack (.object members.reverse))
  | .key stack members, .str k => some (.colon stack members k)
  | .colon stack members k, .colon => some (.value (.obj members k :: stack))
  | _, _ => none

/-- The value a list of tokens denotes. -/
def parseTokens (ts : List JsonToken) : Option JsonValue :=
  match ts.foldlM parseStep (.value []) with
  | some (.done v) => some v
  | _ => none

/-- The value a JSON text denotes, members in the order of the text; `none` when the text is
not JSON. -/
def parseJson (text : String) : Option JsonValue :=
  match lexJson .normal text.toList with
  | none => none
  | some ts => parseTokens ts

/-- Whether a string can stand between double quotes as it is: no double quote, no
backslash, no control character. -/
def jsonPlain (s : String) : Bool :=
  s.toList.all (fun c => c != '"' && c != '\\' && decide (0x20 ≤ c.toNat))

/-! ## Theorems -/

theorem or_shift_eq_add (a b s : Nat) (hb : b < 256) (ha : 2 ^ (s + 8) ∣ a) :
    a ||| (b <<< s) = a + b * 2 ^ s := by
  obtain ⟨c, rfl⟩ := ha
  rw [Nat.shiftLeft_eq]
  have hlt : b * 2 ^ s < 2 ^ (s + 8) := by
    rw [Nat.pow_add, Nat.mul_comm]
    exact Nat.mul_lt_mul_of_pos_left hb (Nat.two_pow_pos s)
  exact (Nat.mul_add_lt_is_or hlt c).symm

theorem shl_byte_mod (b s : Nat) (hb : b < 256) (hs : s ≤ 56) :
    (b <<< s) % 2 ^ 64 = b <<< s := by
  apply Nat.mod_eq_of_lt
  rw [Nat.shiftLeft_eq]
  calc b * 2 ^ s < 256 * 2 ^ s := Nat.mul_lt_mul_of_pos_right hb (Nat.two_pow_pos s)
    _ ≤ 256 * 2 ^ 56 := Nat.mul_le_mul_left _ (Nat.pow_le_pow_right (by decide) hs)
    _ = 2 ^ 64 := by norm_num

theorem or8_eq (b0 b1 b2 b3 b4 b5 b6 b7 : Nat) (h0 : b0 < 256) (h1 : b1 < 256) (h2 : b2 < 256)
    (h3 : b3 < 256) (h4 : b4 < 256) (h5 : b5 < 256) (h6 : b6 < 256) (h7 : b7 < 256) :
    ((((((((0 ||| (b0 <<< 56) % 2 ^ 64) ||| (b1 <<< 48) % 2 ^ 64) ||| (b2 <<< 40) % 2 ^ 64) ||| (b3 <<< 32) % 2 ^ 64) ||| (b4 <<< 24) % 2 ^ 64) ||| (b5 <<< 16) % 2 ^ 64) ||| (b6 <<< 8) % 2 ^ 64) ||| (b7 <<< 0) % 2 ^ 64)
    = beNat [b0, b1, b2, b3, b4, b5, b6, b7] := by
  rw [shl_byte_mod b0 56 h0 (by decide), shl_byte_mod b1 48 h1 (by decide),
    shl_byte_mod b2 40 h2 (by decide), shl_byte_mod b3 32 h3 (by decide),
    shl_byte_mod b4 24 h4 (by decide), shl_byte_mod b5 16 h5 (by decide),
    shl_byte_mod b6 8 h6 (by decide), shl_byte_mod b7 0 h7 (by decide)]
  rw [or_shift_eq_add 0 b0 56 h0 (by simp)]
  rw [or_shift_eq_add _ b1 48 h1 (by omega)]
  rw [or_shift_eq_add _ b2 40 h2 (by omega)]
  rw [or_shift_eq_add _ b3 32 h3 (by omega)]
  rw [or_shift_eq_add _ b4 24 h4 (by omega)]
  rw [or_shift_eq_add _ b5 16 h5 (by omega)]
  rw [or_shift_eq_add _ b6 8 h6 (by omega)]
  rw [or_shift_eq_add _ b7 0 h7 (by omega)]
  simp only [beNat, List.foldl]
  omega

/-- C1 (evaluated at the failing input): for the compact target `1d00ffff` the target value
that `checkHash` compares against has word 0 = `0x00ffff0000000000` (the mantissa shifted
left by 40 bits), while the expansion the specification describes is `0x00000000ffff0000`
followed by 48 zero hex digits; the exponent plays no part: `0300ffff` yields the same
target value. -/
theorem checkHash_target_ignores_exponent :
    RandomXManager.checkHashTarget "1d00ffff" = some ⟨0x00ffff0000000000, 0, 0, 0⟩
    ∧ specExpandTarget 0x1d00ffff = (⟨0x00000000ffff0000, 0, 0, 0⟩ : uint256_t).toNat
    ∧ (RandomXManager.checkHashTarget "1d00ffff").map uint256_t.toNat
        ≠ some (specExpandTarget 0x1d00ffff)
    ∧ RandomXManager.checkHashTarget "0300ffff" = RandomXManager.checkHashTarget "1d00ffff" := by
  refine ⟨by decide, by decide, by decide, by decide⟩

/-- C2: for well-formed 256-bit values `a` and `b`, `a < b` (the member `operator<`) is true
exactly when the unsigned integer `sum(words[i] * 2^(64*(3-i)))` of `a` is strictly smaller
than that of `b`; in particular `a < a` is false. -/
theorem uint256_lt_iff_toNat_lt (a b : uint256_t) (ha : a.WellFormed) (hb : b.WellFormed) :
    (a.lt b = true ↔ a.toNat < b.toNat) ∧ a.lt a = false := by
  obtain ⟨a0, a1, a2, a3⟩ := a
  obtain ⟨b0, b1, b2, b3⟩ := b
  simp only [uint256_t.WellFormed] at ha hb
  simp only [uint256_t.lt, uint256_t.ltLoop, uint256_t.words, uint256_t.toNat]
  constructor
  · split_ifs <;> simp <;> omega
  · simp

/-- C2 witness: the comparison at two concrete values that differ in the last word only. -/
theorem uint256_lt_iff_toNat_lt_witness :
    ((uint256_t.lt ⟨0, 0, 7, 1⟩ ⟨0, 0, 7, 2⟩ = true
        ↔ (⟨0, 0, 7, 1⟩ : uint256_t).toNat < (⟨0, 0, 7, 2⟩ : uint256_t).toNat)
      ∧ uint256_t.lt ⟨0, 0, 7, 1⟩ ⟨0, 0, 7, 1⟩ = false) :=
  uint256_lt_iff_toNat_lt ⟨0, 0, 7, 1⟩ ⟨0, 0, 7, 2⟩ (by decide) (by decide)

/-- C3: for every 32-byte hash, word `k` of the hash value built in `checkHash` is the
big-endian integer of bytes `8k..8k+7`, and the numeric value of the four words (word 0 most
significant) is the big-endian integer of the 32 bytes. -/
theorem checkHashValue_big_endian (hash : List Nat) (hlen : hash.length = 32) (hbyte : ∀ b ∈ hash, b < 256) :
    (∀ k, k < 4 → (RandomXManager.checkHashValue hash).words k
        = beNat ((hash.drop (8 * k)).take 8))
    ∧ (RandomXManager.checkHashValue hash).toNat = beNat hash := by
  rcases hash with _ | ⟨b0, _ | ⟨b1, _ | ⟨b2, _ | ⟨b3, _ | ⟨b4, _ | ⟨b5, _ | ⟨b6, _ | ⟨b7, _ | ⟨b8, _ | ⟨b9, _ | ⟨b10, _ | ⟨b11, _ | ⟨b12, _ | ⟨b13, _ | ⟨b14, _ | ⟨b15, _ | ⟨b16, _ | ⟨b17, _ | ⟨b18, _ | ⟨b19, _ | ⟨b20, _ | ⟨b21, _ | ⟨b22, _ | ⟨b23, _ | ⟨b24, _ | ⟨b25, _ | ⟨b26, _ | ⟨b27, _ | ⟨b28, _ | ⟨b29, _ | ⟨b30, _ | ⟨b31, rest⟩⟩⟩⟩⟩⟩⟩⟩⟩⟩⟩⟩⟩⟩⟩⟩⟩⟩⟩⟩⟩⟩⟩⟩⟩⟩⟩⟩⟩⟩⟩⟩
  all_goals try (simp at hlen)
  subst hlen
  simp only [List.mem_cons, List.mem_singleton, forall_eq_or_imp, forall_eq, List.not_mem_nil] at hbyte
  have hv : RandomXManager.checkHashValue [b0, b1, b2, b3, b4, b5, b6, b7, b8, b9, b10, b11, b12, b13, b14, b15, b16, b17, b18, b19, b20, b21, b22, b23, b24, b25, b26, b27, b28, b29, b30, b31] = ⟨beNat [b0, b1, b2, b3, b4, b5, b6, b7], beNat [b8, b9, b10, b11, b12, b13, b14, b15], beNat [b16, b17, b18, b19, b20, b21, b22, b23], beNat [b24, b25, b26, b27, b28, b29, b30, b31]⟩ := by
    show (⟨((((((((0 ||| (b0 <<< 56) % 2 ^ 64) ||| (b1 <<< 48) % 2 ^ 64) ||| (b2 <<< 40) % 2 ^ 64) ||| (b3 <<< 32) % 2 ^ 64) ||| (b4 <<< 24) % 2 ^ 64) ||| (b5 <<< 16) % 2 ^ 64) ||| (b6 <<< 8) % 2 ^ 64) ||| (b7 <<< 0) % 2 ^ 64),
      ((((((((0 ||| (b8 <<< 56) % 2 ^ 64) ||| (b9 <<< 48) % 2 ^ 64) ||| (b10 <<< 40) % 2 ^ 64) ||| (b11 <<< 32) % 2 ^ 64) ||| (b12 <<< 24) % 2 ^ 64) ||| (b13 <<< 16) % 2 ^ 64) ||| (b14 <<< 8) % 2 ^ 64) ||| (b15 <<< 0) % 2 ^ 64),
      ((((((((0 ||| (b16 <<< 56) % 2 ^ 64) ||| (b17 <<< 48) % 2 ^ 64) ||| (b18 <<< 40) % 2 ^ 64) ||| (b19 <<< 32) % 2 ^ 64) ||| (b20 <<< 24) % 2 ^ 64) ||| (b21 <<< 16) % 2 ^ 64) ||| (b22 <<< 8) % 2 ^ 64) ||| (b23 <<< 0) % 2 ^ 64),
      ((((((((0 ||| (b24 <<< 56) % 2 ^ 64) ||| (b25 <<< 48) % 2 ^ 64) ||| (b26 <<< 40) % 2 ^ 64) ||| (b27 <<< 32) % 2 ^ 64) ||| (b28 <<< 24) % 2 ^ 64) ||| (b29 <<< 16) % 2 ^ 64) ||| (b30 <<< 8) % 2 ^ 64) ||| (b31 <<< 0) % 2 ^ 64)⟩ : uint256_t) = _
    obtain ⟨h0, h1, h2, h3, h4, h5, h6, h7, h8, h9, h10, h11, h12, h13, h14, h15, h16, h17, h18,
      h19, h20, h21, h22, h23, h24, h25, h26, h27, h28, h29, h30, h31, -⟩ := hbyte
    rw [or8_eq b0 b1 b2 b3 b4 b5 b6 b7 h0 h1 h2 h3 h4 h5 h6 h7,
      or8_eq b8 b9 b10 b11 b12 b13 b14 b15 h8 h9 h10 h11 h12 h13 h14 h15,
      or8_eq b16 b17 b18 b19 b20 b21 b22 b23 h16 h17 h18 h19 h20 h21 h22 h23,
      or8_eq b24 b25 b26 b27 b28 b29 b30 b31 h24 h25 h26 h27 h28 h29 h30 h31]
  rw [hv]
  refine ⟨?_, ?_⟩
  · intro k hk
    interval_cases k <;> rfl
  · simp only [uint256_t.toNat, uint256_t.words, beNat, List.foldl]
    omega

/-- C3 witness: the packing of the 32-byte hash `0, 1, ..., 31`. -/
theorem checkHashValue_big_endian_witness :
    (∀ k, k < 4 → (RandomXManager.checkHashValue (List.range 32)).words k
        = beNat (((List.range 32).drop (8 * k)).take 8))
    ∧ (RandomXManager.checkHashValue (List.range 32)).toNat = beNat (List.range 32) :=
  checkHashValue_big_endian (List.range 32) (by decide) (by decide)

/-- C4 (evaluated at the failing input): worker `w17` holds job "17" and submits a hash of 32
bytes `0xab`; the `job_id` member of the request is the hash text, not "17". -/
theorem submitShare_job_id_is_hash :
    (w17.submitShareParams "sess" (List.replicate 32 0xab)).map (fun p => p.job_id)
      = some "abababababababababababababababababababababababababababababababab"
    ∧ w17.currentJob.map (fun j => j.jobId) = some "17"
    ∧ (w17.submitShareParams "sess" (List.replicate 32 0xab)).map (fun p => p.job_id)
      ≠ w17.currentJob.map (fun j => j.jobId) := by
  refine ⟨by decide, by decide, by decide⟩

set_option maxRecDepth 100000 in
/-- C5 (evaluated at the failing input): for the same submission the `nonce` member is the job
id "17" and the `result` member is the decimal height "3000000"; neither has the required
length, and the decimal cursor "5" travels as `algo`. -/
theorem submitShare_nonce_result_misplaced :
    (w17.submitShareParams "sess" (List.replicate 32 0xab)).map (fun p => (p.nonce, p.result))
      = some ("17", "3000000")
    ∧ (w17.submitShareParams "sess" (List.replicate 32 0xab)).map (fun p => p.nonce.length)
      ≠ some 8
    ∧ (w17.submitShareParams "sess" (List.replicate 32 0xab)).map (fun p => p.result.length)
      ≠ some 64
    ∧ w17.submitShareRequest "sess" (List.replicate 32 0xab) = some ("\x7b\"id\":1,\"jsonrpc\":\"2.0\",\"method\":\"submit\",\"params\":\x7b\"id\":\"sess\",\"job_id\":\"abababababababababababababababababababababababababababababababab\",\"nonce\":\"17\",\"result\":\"3000000\",\"algo\":\"5\"\x7d\x7d") := by
  refine ⟨by decide, by decide, by decide, by decide⟩

theorem startNonce_eq (N i : Int) (hN : 1 ≤ N) (hN' : N < 2 ^ 31) (hi : 0 ≤ i) (hi' : i < N) :
    MiningThreadData.startNonce ⟨N⟩ i = some (i.toNat * (0xFFFFFFFF / N.toNat))
    ∧ i.toNat * (0xFFFFFFFF / N.toNat) ≤ 0xFFFFFFFF
    ∧ 0 < 0xFFFFFFFF / N.toNat := by
  have hNmod : (N % 2 ^ 32).toNat = N.toNat := by omega
  have himod : (i % 2 ^ 64).toNat = i.toNat := by omega
  have hle : i.toNat ≤ N.toNat := by omega
  have hbound : i.toNat * (0xFFFFFFFF / N.toNat) ≤ 0xFFFFFFFF :=
    Nat.le_trans (Nat.mul_le_mul_right _ hle) (Nat.mul_div_le _ _)
  have hq : 0 < 0xFFFFFFFF / N.toNat := Nat.div_pos (by omega) (by omega)
  refine ⟨?_, hbound, hq⟩
  unfold MiningThreadData.startNonce
  simp only [hNmod, himod]
  rw [if_neg (by omega), Nat.mod_eq_of_lt (by omega)]

/-- C6 (counterexample): with 4 configured threads `updateJob` starts worker 1 at
`0x3FFFFFFF`, not at `1 * (2^32 / 4) = 0x40000000`. -/
theorem updateJob_start_not_pow32 :
    (MiningThreadData.updateJob ⟨4⟩ (MiningThreadData.new 1) Job.default).map
        (fun w => w.currentNonce) = some 0x3FFFFFFF
    ∧ (MiningThreadData.updateJob ⟨4⟩ (MiningThreadData.new 1) Job.default).map
        (fun w => w.currentNonce) ≠ some (1 * (2 ^ 32 / 4)) := by
  refine ⟨by decide, by decide⟩

/-- C6 (amended): for `N >= 1` configured threads and `0 <= i < N`, `updateJob` gives the
worker the job and starts its cursor at `i * floor((2^32 - 1) / N)`; for `N = 4` that is
`i * 0x3FFFFFFF`, i.e. `0x00000000`, `0x3FFFFFFF`, `0x7FFFFFFE`, `0xBFFFFFFD`. -/
theorem updateJob_start_nonce (N i : Int) (w : MiningThreadData) (job : Job)
    (hN : 1 ≤ N) (hN' : N < 2 ^ 31) (hi : 0 ≤ i) (hi' : i < N) (hw : w.threadId = i) :
    ∃ w', MiningThreadData.updateJob ⟨N⟩ w job = some w'
      ∧ w'.currentJob = some job
      ∧ w'.currentNonce = i.toNat * ((2 ^ 32 - 1) / N.toNat)
      ∧ (N = 4 → w'.currentNonce = i.toNat * 0x3FFFFFFF) := by
  obtain ⟨h1, -, -⟩ := startNonce_eq N i hN hN' hi hi'
  refine ⟨{ w with currentJob := some job, currentNonce := i.toNat * (0xFFFFFFFF / N.toNat) },
    ?_, rfl, rfl, ?_⟩
  · unfold MiningThreadData.updateJob
    rw [hw, h1]
  · intro h4
    subst h4
    rfl

/-- C6 witness: worker 3 of 4 starts at `0xBFFFFFFD`. -/
theorem updateJob_start_nonce_witness :
    ∃ w', MiningThreadData.updateJob ⟨4⟩ (MiningThreadData.new 3) Job.default = some w'
      ∧ w'.currentJob = some Job.default
      ∧ w'.currentNonce = (3 : Int).toNat * ((2 ^ 32 - 1) / (4 : Int).toNat)
      ∧ ((4 : Int) = 4 → w'.currentNonce = (3 : Int).toNat * 0x3FFFFFFF) :=
  updateJob_start_nonce 4 3 (MiningThreadData.new 3) Job.default (by decide) (by decide)
    (by decide) (by decide) rfl

/-- C7: for every thread count `N >= 1` (a positive `int`) and thread ids `i != j` in
`[0, N)`, the cursors `updateJob` assigns to workers `i` and `j` differ and both lie in
`[0, 2^32)`. -/
theorem updateJob_start_nonces_distinct (N i j : Int) (wi wj : MiningThreadData) (job : Job)
    (hN : 1 ≤ N) (hN' : N < 2 ^ 31) (hi : 0 ≤ i) (hi' : i < N) (hj : 0 ≤ j) (hj' : j < N)
    (hij : i ≠ j) (hwi : wi.threadId = i) (hwj : wj.threadId = j) :
    ∃ wi' wj', MiningThreadData.updateJob ⟨N⟩ wi job = some wi'
      ∧ MiningThreadData.updateJob ⟨N⟩ wj job = some wj'
      ∧ wi'.currentNonce ≠ wj'.currentNonce
      ∧ wi'.currentNonce < 2 ^ 32 ∧ wj'.currentNonce < 2 ^ 32 := by
  obtain ⟨hsi, hbi, hq⟩ := startNonce_eq N i hN hN' hi hi'
  obtain ⟨hsj, hbj, -⟩ := startNonce_eq N j hN hN' hj hj'
  refine ⟨{ wi with currentJob := some job, currentNonce := i.toNat * (0xFFFFFFFF / N.toNat) },
    { wj with currentJob := some job, currentNonce := j.toNat * (0xFFFFFFFF / N.toNat) },
    ?_, ?_, ?_, ?_, ?_⟩
  · unfold MiningThreadData.updateJob
    rw [hwi, hsi]
  · unfold MiningThreadData.updateJob
    rw [hwj, hsj]
  · intro h
    have h' : i.toNat = j.toNat := Nat.eq_of_mul_eq_mul_right hq h
    omega
  · show i.toNat * (0xFFFFFFFF / N.toNat) < 2 ^ 32
    omega
  · show j.toNat * (0xFFFFFFFF / N.toNat) < 2 ^ 32
    omega

/-- C7 witness: workers 1 and 2 of 3 threads. -/
theorem updateJob_start_nonces_distinct_witness :
    ∃ wi' wj', MiningThreadData.updateJob ⟨3⟩ (MiningThreadData.new 1) Job.default = some wi'
      ∧ MiningThreadData.updateJob ⟨3⟩ (MiningThreadData.new 2) Job.default = some wj'
      ∧ wi'.currentNonce ≠ wj'.currentNonce
      ∧ wi'.currentNonce < 2 ^ 32 ∧ wj'.currentNonce < 2 ^ 32 :=
  updateJob_start_nonces_distinct 3 1 2 (MiningThreadData.new 1) (MiningThreadData.new 2)
    Job.default (by decide) (by decide) (by decide) (by decide) (by decide) (by decide)
    (by decide) rfl rfl

theorem and_255 (x : Nat) : x &&& 0xFF = x % 256 :=
  Nat.and_pow_two_sub_one_eq_mod x 8

theorem padInsert_layout (src : List Nat) (nonce : Nat) :
    BlobLayout src
      ((((((if src.length < 43 then src ++ List.replicate (43 - src.length) 0 else src).set 39
        ((nonce >>> 24) &&& 0xFF)).set 40 ((nonce >>> 16) &&& 0xFF)).set 41
        ((nonce >>> 8) &&& 0xFF)).set 42 (nonce &&& 0xFF))) (nonce % 2 ^ 32) := by
  generalize hp : (if src.length < 43 then src ++ List.replicate (43 - src.length) 0 else src) = p
  have hlen : p.length = max src.length 43 := by
    subst hp
    split
    · simp only [List.length_append, List.length_replicate]; omega
    · omega
  have hlow : ∀ i, i < src.length → p[i]? = src[i]? := by
    intro i hi
    subst hp
    split
    · exact List.getElem?_append_left hi
    · rfl
  have hhigh : ∀ i, src.length ≤ i → i < 43 → p[i]? = some 0 := by
    intro i hi hi'
    subst hp
    rw [if_pos (by omega), List.getElem?_append_right hi, List.getElem?_replicate,
      if_pos (by omega)]
  have h43 : 43 ≤ p.length := by omega
  simp only [Nat.shiftRight_eq_div_pow, and_255]
  refine ⟨by simpa using hlen, ?_, ?_, ?_, ?_, ?_, ?_, ?_⟩
  · simp [List.getElem?_set, (by omega : 39 < p.length)]; omega
  · simp [List.getElem?_set, (by omega : 40 < p.length)]; omega
  · simp [List.getElem?_set, (by omega : 41 < p.length)]; omega
  · simp [List.getElem?_set, (by omega : 42 < p.length)]; omega
  · simp [List.getElem?_set, (by omega : 39 < p.length), (by omega : 40 < p.length),
      (by omega : 41 < p.length), (by omega : 42 < p.length), beNat]
    omega
  · intro i hi h39 h40 h41 h42
    simp [List.getElem?_set, Ne.symm h39, Ne.symm h40, Ne.symm h41, Ne.symm h42, hlow i hi]
  · intro i hi hi' h39 h40 h41 h42
    simp [List.getElem?_set, Ne.symm h39, Ne.symm h40, Ne.symm h41, Ne.symm h42, hhigh i hi hi']

/-- C8: when the blob decodes to `decoded` and the nonce is a 32-bit value, `getBlobBytes`
returns `max(n, 43)` bytes with the nonce big-endian at 39..42, the decoded bytes elsewhere
below `n` and zeros up to 42; `calculateHash` (which hashes only with a VM and a non-empty
input) prepares the data it hashes from its input in the same layout. -/
theorem getBlobBytes_layout (j : Job) (decoded : List Nat) (w : MiningThreadData)
    (input : List Nat) (hdec : Job.decodeBlob j.blob.toList = some decoded)
    (hn : j.nonce < 2 ^ 32) (hvm : w.vm ≠ none) (hin : input ≠ []) :
    (∃ out, j.getBlobBytes = some out ∧ BlobLayout decoded out j.nonce)
    ∧ (∃ data, w.calculateHashData input j.nonce = some data ∧ BlobLayout input data j.nonce) := by
  have hmod : j.nonce % 2 ^ 32 = j.nonce := Nat.mod_eq_of_lt hn
  constructor
  · have h := padInsert_layout decoded j.nonce
    rw [hmod] at h
    exact ⟨_, by unfold Job.getBlobBytes; rw [hdec], h⟩
  · have h := padInsert_layout input j.nonce
    rw [hmod] at h
    exact ⟨_, by unfold MiningThreadData.calculateHashData; rw [if_neg (by simp [hvm, hin])], h⟩

/-- C8 witness: the 3-byte blob `0a0b0c` with nonce `0x01020304`, and a worker with a VM
hashing the input `[1, 2]`. -/
theorem getBlobBytes_layout_witness :
    (∃ out, Job.getBlobBytes { Job.default with blob := "0a0b0c", nonce := 0x01020304 } = some out
        ∧ BlobLayout [0x0a, 0x0b, 0x0c] out 0x01020304)
    ∧ (∃ data, MiningThreadData.calculateHashData { (MiningThreadData.new 0) with vm := some 1 }
          [1, 2] 0x01020304 = some data ∧ BlobLayout [1, 2] data 0x01020304) :=
  getBlobBytes_layout { Job.default with blob := "0a0b0c", nonce := 0x01020304 }
    [0x0a, 0x0b, 0x0c] { (MiningThreadData.new 0) with vm := some 1 } [1, 2]
    (by decide) (by decide) (by decide) (by decide)

theorem member_job_id (a b c : String) (d : Nat) (e : String) :
    (JsonValue.member (jobNotification a b c d e) "job_id").bind JsonValue.getString = some a :=
  rfl

theorem member_blob (a b c : String) (d : Nat) (e : String) :
    (JsonValue.member (jobNotification a b c d e) "blob").bind JsonValue.getString = some b :=
  rfl

theorem member_target (a b c : String) (d : Nat) (e : String) :
    (JsonValue.member (jobNotification a b c d e) "target").bind JsonValue.getString = some c :=
  rfl

theorem member_height (a b c : String) (d : Nat) (e : String) :
    (JsonValue.member (jobNotification a b c d e) "height").bind JsonValue.getDouble = some d :=
  rfl

theorem member_seed_hash (a b c : String) (d : Nat) (e : String) :
    (JsonValue.member (jobNotification a b c d e) "seed_hash").bind JsonValue.getString
      = some e :=
  rfl

theorem updateJob_defined (config : Config) (job : Job) (w : MiningThreadData)
    (hc : config.numThreads % 2 ^ 32 ≠ 0) :
    ∃ w', w.updateJob config job = some w' ∧ w'.currentJob = some job := by
  unfold MiningThreadData.updateJob MiningThreadData.startNonce
  have hd : (config.numThreads % 2 ^ 32).toNat ≠ 0 := by omega
  simp only [hd, if_false]
  exact ⟨_, rfl, rfl⟩

theorem updateWorkers_defined (config : Config) (job : Job)
    (hc : config.numThreads % 2 ^ 32 ≠ 0) (tds : List (Option MiningThreadData)) :
    ∃ tds', updateWorkers config job tds = some tds' ∧ tds'.length = tds.length
      ∧ ∀ w, some w ∈ tds' → w.currentJob = some job := by
  induction tds with
  | nil => exact ⟨[], rfl, rfl, by simp⟩
  | cons head rest ih =>
    obtain ⟨rest', hr, hlen, hall⟩ := ih
    cases head with
    | none =>
      refine ⟨none :: rest', by simp [updateWorkers, hr], by simp [hlen], ?_⟩
      intro w hw
      simp at hw
      exact hall w hw
    | some w0 =>
      obtain ⟨w', hw', hjob⟩ := updateJob_defined config job w0 hc
      refine ⟨some w' :: rest', by simp [updateWorkers, hr, hw'], by simp [hlen], ?_⟩
      intro w hw
      simp at hw
      rcases hw with rfl | hw
      · exact hjob
      · exact hall w hw

theorem processNewJob_same_id (env : InitEnv) (s : PoolState)
    (jobObj : List (String × JsonValue)) (jobId : String) (v : Nat)
    (hid : (JsonValue.member jobObj "job_id").bind JsonValue.getString = some jobId)
    (hv : stoul jobId 10 = some v) (hdup : v % 2 ^ 32 = s.activeJobId) :
    processNewJob env s jobObj = some (s, .duplicate)
      ∨ processNewJob env s jobObj = some (s, .exception) := by
  unfold processNewJob
  simp only [hid, hv, hdup]
  repeat' split
  all_goals first
    | exact Or.inl rfl
    | exact Or.inr rfl
    | simp_all

theorem processNewJob_publishes (env : InitEnv) (s : PoolState) (jobId blob target : String)
    (height : Nat) (seedHash : String) (v : Nat) (rx' : RandomXState)
    (ht : (stoull target 16).isSome) (hv : stoul jobId 10 = some v)
    (hne : v % 2 ^ 32 ≠ s.activeJobId)
    (hinit : RandomXManager.initializeSeed env s.rx seedHash = some (true, rx'))
    (hc : s.config.numThreads % 2 ^ 32 ≠ 0) :
    ∃ s', processNewJob env s (jobNotification jobId blob target height seedHash)
        = some (s', .published)
      ∧ s'.jobQueue = [{ jobId := jobId, blob := blob, target := target,
                         height := height % 2 ^ 64 % 2 ^ 32, seedHash := seedHash, nonce := 0 }]
      ∧ s'.activeJobId = v % 2 ^ 32
      ∧ s'.config = s.config
      ∧ s'.rx.currentTargetHex = target
      ∧ s'.threadData.length = s.threadData.length
      ∧ ∀ w, some w ∈ s'.threadData → w.currentJob
          = some { jobId := jobId, blob := blob, target := target,
                   height := height % 2 ^ 64 % 2 ^ 32, seedHash := seedHash, nonce := 0 } := by
  obtain ⟨t, ht'⟩ := Option.isSome_iff_exists.mp ht
  obtain ⟨tds', htds, hlen, hall⟩ := updateWorkers_defined s.config
    { jobId := jobId, blob := blob, target := target, height := height % 2 ^ 64 % 2 ^ 32,
      seedHash := seedHash, nonce := 0 } hc s.threadData
  refine ⟨{ config := s.config, activeJobId := v % 2 ^ 32, notifiedJobId := v % 2 ^ 32,
             jobQueue := [{ jobId := jobId, blob := blob, target := target,
                            height := height % 2 ^ 64 % 2 ^ 32, seedHash := seedHash,
                            nonce := 0 }],
             threadData := tds',
             rx := RandomXManager.setTarget
               (RandomXManager.setJobInfo rx' (height % 2 ^ 64) jobId) target,
             poolId := s.poolId }, ?_, ?_⟩
  · unfold processNewJob
    simp only [member_job_id, member_blob, member_target, member_height, member_seed_hash,
      Job.make, ht', hv, hne, ne_eq, not_false_eq_true, if_true, hinit, htds]
  · exact ⟨rfl, rfl, rfl, rfl, hlen, hall⟩


theorem envOk_succeeds : envOk.Succeeds := by
  intro rx seedHash
  unfold RandomXManager.initializeSeed
  by_cases h : rx.currentSeedHash = seedHash ∧ rx.dataset ≠ none
  · exact ⟨rx, by rw [if_pos h]⟩
  · exact ⟨_, by rw [if_neg h]; rfl⟩

/-- A notification whose `job_id` parses (`std::stoul`) to the number held in
`activeJobId` leaves the whole state as it was (job queue, `activeJobId`, target and job
info of `RandomXManager`, every worker's job and cursor) and does not publish.
Consequently, from a state whose active id is neither 17 nor 18, with a defined thread
count and RandomX initialisation succeeding, well-formed notifications "17", "17", "18"
publish exactly twice: the first and the third, the second changes nothing. -/
theorem processNewJob_active_id_noop
    (env : InitEnv) (s : PoolState) (jobObj : List (String × JsonValue)) (jobId : String)
    (v : Nat) (s0 : PoolState) (e1 e2 e3 : InitEnv) (b1 t1 sh1 b2 t2 sh2 b3 t3 sh3 : String)
    (h1 h2 h3 : Nat)
    (hid : (JsonValue.member jobObj "job_id").bind JsonValue.getString = some jobId)
    (hv : stoul jobId 10 = some v) (hdup : v % 2 ^ 32 = s.activeJobId)
    (hact17 : s0.activeJobId ≠ 17) (hact18 : s0.activeJobId ≠ 18)
    (hcfg : s0.config.numThreads % 2 ^ 32 ≠ 0)
    (he1 : e1.Succeeds) (he3 : e3.Succeeds)
    (ht1 : (stoull t1 16).isSome) (ht3 : (stoull t3 16).isSome) :
    (∃ o, processNewJob env s jobObj = some (s, o) ∧ o ≠ .published)
    ∧ ∃ s1 s3 o2,
        processNewJob e1 s0 (jobNotification "17" b1 t1 h1 sh1) = some (s1, .published)
        ∧ processNewJob e2 s1 (jobNotification "17" b2 t2 h2 sh2) = some (s1, o2)
        ∧ o2 ≠ .published
        ∧ processNewJob e3 s1 (jobNotification "18" b3 t3 h3 sh3) = some (s3, .published)
        ∧ s1.jobQueue = [{ jobId := "17", blob := b1, target := t1,
                           height := h1 % 2 ^ 64 % 2 ^ 32, seedHash := sh1, nonce := 0 }]
        ∧ s3.jobQueue = [{ jobId := "18", blob := b3, target := t3,
                           height := h3 % 2 ^ 64 % 2 ^ 32, seedHash := sh3, nonce := 0 }] := by
  have noop : ∀ (env : InitEnv) (s : PoolState) (jobObj : List (String × JsonValue))
      (jobId : String) (v : Nat),
      (JsonValue.member jobObj "job_id").bind JsonValue.getString = some jobId →
      stoul jobId 10 = some v → v % 2 ^ 32 = s.activeJobId →
      ∃ o, processNewJob env s jobObj = some (s, o) ∧ o ≠ .published := by
    intro env s jobObj jobId v hid hv hdup
    rcases processNewJob_same_id env s jobObj jobId v hid hv hdup with h | h
    · exact ⟨_, h, by decide⟩
    · exact ⟨_, h, by decide⟩
  refine ⟨noop env s jobObj jobId v hid hv hdup, ?_⟩
  have hv17 : stoul "17" 10 = some 17 := by decide
  have hv18 : stoul "18" 10 = some 18 := by decide
  obtain ⟨rx1, hrx1⟩ := he1 s0.rx sh1
  obtain ⟨s1, hs1, hq1, ha1, hc1, -, -, -⟩ :=
    processNewJob_publishes e1 s0 "17" b1 t1 h1 sh1 17 rx1 ht1 hv17 (by omega) hrx1 hcfg
  obtain ⟨o2, hs2, ho2⟩ := noop e2 s1 (jobNotification "17" b2 t2 h2 sh2) "17" 17
    (member_job_id _ _ _ _ _) hv17 ha1.symm
  obtain ⟨rx3, hrx3⟩ := he3 s1.rx sh3
  obtain ⟨s3, hs3, hq3, -, -, -, -, -⟩ :=
    processNewJob_publishes e3 s1 "18" b3 t3 h3 sh3 18 rx3 ht3 hv18 (by omega) hrx3
      (by rw [hc1]; exact hcfg)
  exact ⟨s1, s3, o2, hs1, hs2, ho2, hs3, hq1, hq3⟩

/-- The duplicate "7" on a state whose active id is 7, and the sequence "17", "17", "18"
from the initial state with one worker. -/
theorem processNewJob_active_id_noop_example :
    (∃ o, processNewJob envOk
          { (PoolState.initial ⟨1⟩ [some (MiningThreadData.new 0)]) with activeJobId := 7 }
          (jobNotification "7" "0707" "1d00ffff" 3000000 "aa")
        = some ({ (PoolState.initial ⟨1⟩ [some (MiningThreadData.new 0)]) with activeJobId := 7 },
            o)
      ∧ o ≠ .published)
    ∧ ∃ s1 s3 o2,
        processNewJob envOk (PoolState.initial ⟨1⟩ [some (MiningThreadData.new 0)])
            (jobNotification "17" "0707" "1d00ffff" 3000000 "aa") = some (s1, .published)
        ∧ processNewJob envOk s1 (jobNotification "17" "0707" "1d00ffff" 3000000 "aa")
            = some (s1, o2)
        ∧ o2 ≠ .published
        ∧ processNewJob envOk s1 (jobNotification "18" "0808" "1d00ffff" 3000001 "aa")
            = some (s3, .published)
        ∧ s1.jobQueue = [{ jobId := "17", blob := "0707", target := "1d00ffff",
                           height := 3000000 % 2 ^ 64 % 2 ^ 32, seedHash := "aa", nonce := 0 }]
        ∧ s3.jobQueue = [{ jobId := "18", blob := "0808", target := "1d00ffff",
                           height := 3000001 % 2 ^ 64 % 2 ^ 32, seedHash := "aa", nonce := 0 }] :=
  processNewJob_active_id_noop envOk
    { (PoolState.initial ⟨1⟩ [some (MiningThreadData.new 0)]) with activeJobId := 7 }
    (jobNotification "7" "0707" "1d00ffff" 3000000 "aa") "7" 7
    (PoolState.initial ⟨1⟩ [some (MiningThreadData.new 0)]) envOk envOk envOk
    "0707" "1d00ffff" "aa" "0707" "1d00ffff" "aa" "0808" "1d00ffff" "aa" 3000000 3000000 3000001
    rfl (by decide) (by decide) (by decide) (by decide) (by decide) envOk_succeeds
    envOk_succeeds (by decide) (by decide)

/-- C9 (evaluated at the failing input): job "17" is published; a notification for job
"18" fails in RandomX initialisation and leaves `activeJobId` at 18, the dataset released
and job "17" still the published one; the notification that follows carries the `job_id`
"17" of the last accepted job and is not skipped: it is published again, `activeJobId`
goes from 18 to 17 and a dataset is allocated anew. -/
theorem processNewJob_republishes_last_job :
    (((processNewJob envOk (PoolState.initial ⟨1⟩ [some (MiningThreadData.new 0)])
        (jobNotification "17" "0707" "1d00ffff" 3000000 "aa")).bind
      (fun r => processNewJob envAllocFails r.1
        (jobNotification "18" "0808" "1d00ffff" 3000001 "bb"))).map
      (fun r => (r.1.activeJobId, r.1.jobQueue.map (fun j => j.jobId), r.1.rx.currentJobId,
        r.1.rx.dataset, r.2)))
      = some (18, ["17"], "17", (none : Option Nat), JobOutcome.initFailed)
    ∧ ((((processNewJob envOk (PoolState.initial ⟨1⟩ [some (MiningThreadData.new 0)])
        (jobNotification "17" "0707" "1d00ffff" 3000000 "aa")).bind
      (fun r => processNewJob envAllocFails r.1
        (jobNotification "18" "0808" "1d00ffff" 3000001 "bb"))).bind
      (fun r => processNewJob envOk r.1
        (jobNotification "17" "0707" "1d00ffff" 3000000 "aa"))).map
      (fun r => (r.1.activeJobId, r.1.jobQueue.map (fun j => j.jobId), r.1.rx.currentJobId,
        r.1.rx.dataset, r.2)))
      = some (17, ["17"], "17", some 1, JobOutcome.published) := by
  refine ⟨by decide, by decide⟩

/-- C10 (evaluated at the failing input): at program start (`activeJobId` = 0, nothing
published) a well-formed notification with `job_id` "0" is skipped as a duplicate although
RandomX initialisation would succeed: the state is unchanged and the job queue stays empty. -/
theorem processNewJob_drops_first_job_zero :
    processNewJob envOk (PoolState.initial ⟨1⟩ [some (MiningThreadData.new 0)])
        (jobNotification "0" "0707" "1d00ffff" 3000000 "aa")
      = some (PoolState.initial ⟨1⟩ [some (MiningThreadData.new 0)], .duplicate)
    ∧ (PoolState.initial ⟨1⟩ [some (MiningThreadData.new 0)]).jobQueue = []
    ∧ envOk.Succeeds := by
  refine ⟨by decide, by decide, envOk_succeeds⟩

/-- C11 (counterexample): after job "17" has been published, a well-formed notification
whose `job_id` is "abc" (a different string, not a decimal integer) is not published: the
conversion throws, the handler catches it, and the queue still holds job "17". -/
theorem processNewJob_non_numeric_not_published :
    ((processNewJob envOk (PoolState.initial ⟨1⟩ [some (MiningThreadData.new 0)])
        (jobNotification "17" "0707" "1d00ffff" 3000000 "aa")).bind
      (fun r => processNewJob envOk r.1 (jobNotification "abc" "0808" "1d00ffff" 3000001 "aa"))).map
        (fun r => (r.1.jobQueue.map (fun j => j.jobId), r.1.rx.currentJobId, r.2))
      = some (["17"], "17", JobOutcome.exception) := by
  decide

/-- C11 (amended): a notification whose `job_id` `std::stoul` cannot convert is dropped with
the whole state unchanged, whatever the last accepted id is; no strings are compared. -/
theorem processNewJob_unparsable_id_dropped (env : InitEnv) (s : PoolState)
    (jobObj : List (String × JsonValue)) (jobId : String)
    (hid : (JsonValue.member jobObj "job_id").bind JsonValue.getString = some jobId)
    (hv : stoul jobId 10 = none) :
    processNewJob env s jobObj = some (s, .exception) := by
  unfold processNewJob
  simp only [hid, hv]
  repeat' split
  all_goals rfl

/-- C11 witness: the notification "abc" arriving at program start. -/
theorem processNewJob_unparsable_id_dropped_witness :
    processNewJob envOk (PoolState.initial ⟨1⟩ [some (MiningThreadData.new 0)])
        (jobNotification "abc" "0808" "1d00ffff" 3000001 "aa")
      = some (PoolState.initial ⟨1⟩ [some (MiningThreadData.new 0)], .exception) :=
  processNewJob_unparsable_id_dropped envOk
    (PoolState.initial ⟨1⟩ [some (MiningThreadData.new 0)])
    (jobNotification "abc" "0808" "1d00ffff" 3000001 "aa") "abc" rfl (by decide)

theorem rebuildDataset_seed (env : InitEnv) (lib : InitLib) (rx : RandomXState) (d : Nat)
    (seedHash : String) (t : List RxCall) :
    (RandomXManager.rebuildDataset env lib rx d seedHash t).map (fun r => (r.1, r.2.1))
      = (match env.allocCache with
        | none => some (false, { rx with dataset := none })
        | some _ =>
          if min env.hardwareConcurrency 8 = 0 then none
          else if env.threadError then
            some (false, { rx with dataset := none, cache := none })
          else some (true, { rx with currentSeedHash := seedHash, cache := none })) := by
  unfold RandomXManager.rebuildDataset
  cases env.allocCache with
  | none => rfl
  | some c =>
    simp only
    split
    · rfl
    · split <;> rfl

theorem initializeTraced_seed (env : InitEnv) (lib : InitLib) (rx : RandomXState)
    (seedHash : String) :
    (RandomXManager.initializeTraced env lib rx seedHash).map (fun r => (r.1, r.2.1))
      = RandomXManager.initializeSeed env rx seedHash := by
  unfold RandomXManager.initializeTraced RandomXManager.initializeSeed
  split
  · rfl
  · cases hA : env.allocDataset with
    | none => rfl
    | some d =>
      simp only
      cases hF : env.fileExists <;> cases hL : env.loadDataset <;>
        simp [rebuildDataset_seed]

theorem rebuildDataset_result (env : InitEnv) (lib : InitLib) (rx : RandomXState) (d : Nat)
    (seedHash : String) (t : List RxCall) (ok : Bool) (rx' : RandomXState) (t' : List RxCall)
    (hd : rx.dataset = some d) (hc : rx.cache = none)
    (h : RandomXManager.rebuildDataset env lib rx d seedHash t = some (ok, rx', t')) :
    (ok = true → rx'.currentSeedHash = seedHash ∧ rx'.dataset = some d ∧ rx'.cache = none)
    ∧ (ok = false → rx'.dataset = none ∧ rx'.cache = none) := by
  unfold RandomXManager.rebuildDataset at h
  cases hC : env.allocCache with
  | none =>
    simp only [hC, Option.some.injEq, Prod.mk.injEq] at h
    obtain ⟨rfl, rfl, -⟩ := h
    simp [hc]
  | some c =>
    simp only [hC] at h
    split at h
    · exact absurd h (by simp)
    · split at h
      · simp only [Option.some.injEq, Prod.mk.injEq] at h
        obtain ⟨rfl, rfl, -⟩ := h
        simp
      · simp only [Option.some.injEq, Prod.mk.injEq] at h
        obtain ⟨rfl, rfl, -⟩ := h
        simp [hd]

theorem initializeTraced_result (env : InitEnv) (lib : InitLib) (rx : RandomXState)
    (seedHash : String) (ok : Bool) (rx' : RandomXState) (t : List RxCall)
    (h : RandomXManager.initializeTraced env lib rx seedHash = some (ok, rx', t)) :
    (ok = true → rx'.currentSeedHash = seedHash ∧ rx'.dataset ≠ none)
    ∧ (ok = false → rx'.dataset = none) := by
  unfold RandomXManager.initializeTraced at h
  split at h
  · rename_i hc
    simp only [Option.some.injEq, Prod.mk.injEq] at h
    obtain ⟨rfl, rfl, -⟩ := h
    exact ⟨fun _ => hc, fun hf => absurd hf (by decide)⟩
  · cases hA : env.allocDataset with
    | none =>
      simp only [hA, Option.some.injEq, Prod.mk.injEq] at h
      obtain ⟨rfl, rfl, -⟩ := h
      simp
    | some d =>
      simp only [hA] at h
      have key : ∀ t0, RandomXManager.rebuildDataset env lib
          { rx with dataset := some d, cache := none } d seedHash t0 = some (ok, rx', t) →
          (ok = true → rx'.currentSeedHash = seedHash ∧ rx'.dataset ≠ none)
          ∧ (ok = false → rx'.dataset = none) := by
        intro t0 h0
        obtain ⟨h1, h3⟩ := rebuildDataset_result env lib _ d seedHash t0 ok rx' t rfl rfl h0
        refine ⟨fun ht => ?_, fun hf => (h3 hf).1⟩
        obtain ⟨hs, hds, -⟩ := h1 ht
        exact ⟨hs, by simp [hds]⟩
      split at h
      · split at h
        · simp only [Option.some.injEq, Prod.mk.injEq] at h
          obtain ⟨rfl, rfl, -⟩ := h
          simp
        · exact key _ h
      · exact key _ h

/-- C15: if `initialize(s)` has returned true, an immediately following `initialize(s)`
returns true and makes no library call at all (nothing is released, allocated, loaded or
rebuilt); the dataset handle, the cache handle and the current seed hash are unchanged. -/
theorem initialize_idempotent (env env' : InitEnv) (lib lib' : InitLib) (rx rx1 : RandomXState)
    (s : String) (t : List RxCall)
    (h : RandomXManager.initializeTraced env lib rx s = some (true, rx1, t)) :
    RandomXManager.initializeTraced env' lib' rx1 s = some (true, rx1, [])
    ∧ RandomXManager.initializeSeed env' rx1 s = some (true, rx1) := by
  obtain ⟨h1, -⟩ := initializeTraced_result env lib rx s true rx1 t h
  have hc := h1 rfl
  constructor
  · unfold RandomXManager.initializeTraced
    rw [if_pos hc]
  · unfold RandomXManager.initializeSeed
    rw [if_pos hc]

/-- C15 witness: a first call that builds the dataset for seed "aa", then a second call for
"aa" in an environment where every allocation would fail. -/
theorem initialize_idempotent_witness :
    RandomXManager.initializeTraced
        { allocDataset := none, fileExists := false, loadDataset := false, allocCache := none,
          hardwareConcurrency := 0, threadError := true, saveDataset := false } libOk
        { dataset := some 1, cache := none, currentSeedHash := "aa", currentTargetHex := "",
          currentHeight := 0, currentJobId := "" } "aa"
      = some (true, { dataset := some 1, cache := none, currentSeedHash := "aa",
                      currentTargetHex := "", currentHeight := 0, currentJobId := "" }, [])
    ∧ RandomXManager.initializeSeed
        { allocDataset := none, fileExists := false, loadDataset := false, allocCache := none,
          hardwareConcurrency := 0, threadError := true, saveDataset := false }
        { dataset := some 1, cache := none, currentSeedHash := "aa", currentTargetHex := "",
          currentHeight := 0, currentJobId := "" } "aa"
      = some (true, { dataset := some 1, cache := none, currentSeedHash := "aa",
                      currentTargetHex := "", currentHeight := 0, currentJobId := "" }) :=
  initialize_idempotent envOk _ libOk libOk (PoolState.initial ⟨1⟩ []).rx _ "aa"
    [RxCall.allocDataset 14 (some 1), RxCall.allocCache 14 (some 2),
     RxCall.initCache 2 [97, 97] 2, RxCall.initDataset 1 2 0 250,
     RxCall.initDataset 1 2 250 250, RxCall.initDataset 1 2 500 250,
     RxCall.initDataset 1 2 750 250, RxCall.saveFile "aa" true, RxCall.releaseCache 2]
    (by decide)

theorem initCacheArgs_append (a b : List RxCall) :
    initCacheArgs (a ++ b) = initCacheArgs a ++ initCacheArgs b := by
  simp [initCacheArgs, List.filterMap_append]

theorem initCacheArgs_releaseExisting (rx : RandomXState) :
    initCacheArgs (RandomXManager.releaseExisting rx) = [] := by
  unfold RandomXManager.releaseExisting
  cases rx.dataset <;> cases rx.cache <;> rfl

theorem initCacheArgs_initDataset (d c : Nat) (l : List (Nat × Nat)) :
    initCacheArgs (l.map (fun r => RxCall.initDataset d c r.1 r.2)) = [] := by
  induction l with
  | nil => rfl
  | cons r rest ih =>
    simp only [List.map_cons, initCacheArgs, List.filterMap_cons] at ih ⊢
    exact ih

theorem rebuildDataset_initCache (env : InitEnv) (lib : InitLib) (rx : RandomXState) (d : Nat)
    (seedHash : String) (t : List RxCall) (ok : Bool) (rx' : RandomXState) (t' : List RxCall)
    (ht : initCacheArgs t = [])
    (h : RandomXManager.rebuildDataset env lib rx d seedHash t = some (ok, rx', t')) :
    initCacheArgs t' = []
      ∨ initCacheArgs t' = [(RandomXManager.seedKey seedHash, seedHash.length)] := by
  unfold RandomXManager.rebuildDataset at h
  cases hC : env.allocCache with
  | none =>
    simp only [hC, Option.some.injEq, Prod.mk.injEq] at h
    obtain ⟨-, -, rfl⟩ := h
    left
    rw [initCacheArgs_append, ht]
    rfl
  | some c =>
    simp only [hC] at h
    split at h
    · exact absurd h (by simp)
    · split at h
      all_goals
        simp only [Option.some.injEq, Prod.mk.injEq] at h
        obtain ⟨-, -, rfl⟩ := h
        right
        simp only [initCacheArgs_append, ht, initCacheArgs_initDataset]
        rfl

/-- C13 (counterexample): for the seed hash of 64 characters `0`, `initialize` passes to
`randomx_init_cache` the 64 characters themselves (64 bytes `0x30`) with key length 64, not
the 32 zero bytes the hex string encodes. -/
theorem initialize_key_is_hex_text :
    (RandomXManager.initializeTraced envOk libOk (PoolState.initial ⟨1⟩ []).rx
        (String.mk (List.replicate 64 '0'))).map (fun r => initCacheArgs r.2.2)
      = some [(List.replicate 64 0x30, 64)]
    ∧ (RandomXManager.initializeTraced envOk libOk (PoolState.initial ⟨1⟩ []).rx
        (String.mk (List.replicate 64 '0'))).map (fun r => initCacheArgs r.2.2)
      ≠ some [(List.replicate 32 0, 32)] := by
  refine ⟨by decide, by decide⟩

/-- C13 (amended): whenever `initialize(seedHash)` calls `randomx_init_cache`, it does so
once, and the key is the text of `seedHash` as given (one byte per character, not decoded)
with key length `seedHash.length()`, which is 64 for a 64-character hex string. -/
theorem initialize_key_is_seed_text (env : InitEnv) (lib : InitLib) (rx rx' : RandomXState)
    (seedHash : String) (ok : Bool) (t : List RxCall)
    (h : RandomXManager.initializeTraced env lib rx seedHash = some (ok, rx', t)) :
    (initCacheArgs t = []
      ∨ initCacheArgs t = [(RandomXManager.seedKey seedHash, seedHash.length)])
    ∧ (RandomXManager.seedKey seedHash).length = seedHash.length
    ∧ (seedHash.length = 64 → ∀ key n, (key, n) ∈ initCacheArgs t → n = 64) := by
  have main : initCacheArgs t = []
      ∨ initCacheArgs t = [(RandomXManager.seedKey seedHash, seedHash.length)] := by
    unfold RandomXManager.initializeTraced at h
    split at h
    · simp only [Option.some.injEq, Prod.mk.injEq] at h
      obtain ⟨-, -, rfl⟩ := h
      exact Or.inl rfl
    · cases hA : env.allocDataset with
      | none =>
        simp only [hA, Option.some.injEq, Prod.mk.injEq] at h
        obtain ⟨-, -, rfl⟩ := h
        left
        rw [initCacheArgs_append, initCacheArgs_releaseExisting]
        rfl
      | some d =>
        simp only [hA] at h
        have h0 : initCacheArgs (RandomXManager.releaseExisting rx
            ++ [RxCall.allocDataset RandomXManager.initFlags (some d)]) = [] := by
          rw [initCacheArgs_append, initCacheArgs_releaseExisting]
          rfl
        split at h
        · split at h
          · simp only [Option.some.injEq, Prod.mk.injEq] at h
            obtain ⟨-, -, rfl⟩ := h
            left
            rw [initCacheArgs_append, h0]
            rfl
          · refine rebuildDataset_initCache env lib _ d seedHash _ ok rx' t ?_ h
            rw [initCacheArgs_append, h0]
            rfl
        · exact rebuildDataset_initCache env lib _ d seedHash _ ok rx' t h0 h
  refine ⟨main, by simp [RandomXManager.seedKey], ?_⟩
  intro h64 key n hmem
  rcases main with h0 | h1
  · rw [h0] at hmem
    exact absurd hmem (List.not_mem_nil _)
  · rw [h1] at hmem
    simp only [List.mem_singleton, Prod.mk.injEq] at hmem
    omega

/-- C13 witness: building the dataset for the seed hash of 64 characters `a`. -/
theorem initialize_key_is_seed_text_witness :
    (initCacheArgs [RxCall.allocDataset 14 (some 1), RxCall.allocCache 14 (some 2),
        RxCall.initCache 2 (List.replicate 64 97) 64, RxCall.initDataset 1 2 0 250,
        RxCall.initDataset 1 2 250 250, RxCall.initDataset 1 2 500 250,
        RxCall.initDataset 1 2 750 250,
        RxCall.saveFile (String.mk (List.replicate 64 'a')) true, RxCall.releaseCache 2] = []
      ∨ initCacheArgs [RxCall.allocDataset 14 (some 1), RxCall.allocCache 14 (some 2),
        RxCall.initCache 2 (List.replicate 64 97) 64, RxCall.initDataset 1 2 0 250,
        RxCall.initDataset 1 2 250 250, RxCall.initDataset 1 2 500 250,
        RxCall.initDataset 1 2 750 250,
        RxCall.saveFile (String.mk (List.replicate 64 'a')) true, RxCall.releaseCache 2]
        = [(RandomXManager.seedKey (String.mk (List.replicate 64 'a')),
            (String.mk (List.replicate 64 'a')).length)])
    ∧ (RandomXManager.seedKey (String.mk (List.replicate 64 'a'))).length
        = (String.mk (List.replicate 64 'a')).length
    ∧ ((String.mk (List.replicate 64 'a')).length = 64 → ∀ key n,
        (key, n) ∈ initCacheArgs [RxCall.allocDataset 14 (some 1),
          RxCall.allocCache 14 (some 2), RxCall.initCache 2 (List.replicate 64 97) 64,
          RxCall.initDataset 1 2 0 250, RxCall.initDataset 1 2 250 250,
          RxCall.initDataset 1 2 500 250, RxCall.initDataset 1 2 750 250,
          RxCall.saveFile (String.mk (List.replicate 64 'a')) true, RxCall.releaseCache 2]
        → n = 64) :=
  initialize_key_is_seed_text envOk libOk (PoolState.initial ⟨1⟩ []).rx
    { dataset := some 1, cache := none, currentSeedHash := String.mk (List.replicate 64 'a'),
      currentTargetHex := "", currentHeight := 0, currentJobId := "" }
    (String.mk (List.replicate 64 'a')) true _ (by decide)

set_option maxRecDepth 100000 in
/-- C12 (evaluated at the failing input): job "1" on seed "aa" is published and worker 0
creates VM 7 on dataset 1; when job "2" on seed "bb" arrives, `processNewJob` calls
`initialize`, whose first library call releases dataset 1; no `randomx_destroy_vm` is among
the calls, and afterwards the worker still holds VM 7 with `vmInitialized` set. -/
theorem initialize_releases_dataset_under_live_vm :
    seedSwitchScenario = some
      ([RxCall.createVm 30 (some 1) (some 7)],
       [RxCall.releaseDataset 1, RxCall.allocDataset 14 (some 3), RxCall.allocCache 14 (some 2),
        RxCall.initCache 2 [98, 98] 2, RxCall.initDataset 3 2 0 250,
        RxCall.initDataset 3 2 250 250, RxCall.initDataset 3 2 500 250,
        RxCall.initDataset 3 2 750 250, RxCall.saveFile "bb" true, RxCall.releaseCache 2],
       [some { threadId := 0, vm := some 7, vmInitialized := true, hashCount := 0,
               totalHashCount := 0, acceptedShares := 0, rejectedShares := 0,
               currentNonce := 0,
               currentJob := some { jobId := "2", blob := "0808", target := "1d00ffff",
                                    height := 3000001, seedHash := "bb", nonce := 0 } }]) := by
  decide

theorem processNewJobTraced_eq (env : InitEnv) (lib : InitLib) (s : PoolState)
    (jobObj : List (String × JsonValue)) :
    (processNewJobTraced env lib s jobObj).map (fun r => (r.1, r.2.1))
      = processNewJob env s jobObj := by
  unfold processNewJobTraced processNewJob
  cases (JsonValue.member jobObj "job_id").bind JsonValue.getString with
  | none => rfl
  | some jobId =>
  cases (JsonValue.member jobObj "blob").bind JsonValue.getString with
  | none => rfl
  | some blob =>
  cases (JsonValue.member jobObj "target").bind JsonValue.getString with
  | none => rfl
  | some target =>
  cases (JsonValue.member jobObj "height").bind JsonValue.getDouble with
  | none => rfl
  | some h =>
  cases (JsonValue.member jobObj "seed_hash").bind JsonValue.getString with
  | none => rfl
  | some seedHash =>
  dsimp only
  cases Job.make jobId blob target (h % 2 ^ 64 % 2 ^ 32) seedHash with
  | none => rfl
  | some newJob =>
  cases stoul jobId 10 with
  | none => rfl
  | some v =>
  dsimp only
  split
  · rw [← initializeTraced_seed env lib]
    rcases RandomXManager.initializeTraced env lib s.rx seedHash with _ | ⟨ok, rx, t⟩
    · rfl
    · cases ok
      · rfl
      · dsimp only [Option.map]
        cases updateWorkers s.config newJob s.threadData <;> rfl
  · rfl

theorem processNewJobTraced_cases (env : InitEnv) (lib : InitLib) (s s' : PoolState)
    (jobObj : List (String × JsonValue)) (o : JobOutcome) (t : List RxCall)
    (h : processNewJobTraced env lib s jobObj = some (s', o, t)) :
    (s' = s ∧ t = [] ∧ (o = .exception ∨ o = .duplicate))
    ∨ (∃ seedHash rx, o = .initFailed
        ∧ RandomXManager.initializeTraced env lib s.rx seedHash = some (false, rx, t)
        ∧ s'.rx = rx ∧ s'.jobQueue = s.jobQueue ∧ s'.threadData = s.threadData
        ∧ s'.config = s.config)
    ∨ (∃ newJob rx, o = .published
        ∧ RandomXManager.initializeTraced env lib s.rx newJob.seedHash = some (true, rx, t)
        ∧ s'.jobQueue = [newJob] ∧ s'.rx.currentSeedHash = rx.currentSeedHash
        ∧ s'.rx.dataset = rx.dataset ∧ s'.rx.cache = rx.cache
        ∧ s'.rx.currentTargetHex = newJob.target ∧ s'.config = s.config) := by
  unfold processNewJobTraced at h
  have exc : ∀ {x : PoolState × JobOutcome × List RxCall},
      some (s, JobOutcome.exception, ([] : List RxCall)) = some x → x = (s', o, t) →
      (s' = s ∧ t = [] ∧ (o = .exception ∨ o = .duplicate)) := by
    intro x hx hxe
    simp only [Option.some.injEq] at hx
    subst hx
    simp only [Prod.mk.injEq] at hxe
    obtain ⟨rfl, rfl, rfl⟩ := hxe
    exact ⟨rfl, rfl, Or.inl rfl⟩
  cases h1 : (JsonValue.member jobObj "job_id").bind JsonValue.getString with
  | none => rw [h1] at h; exact Or.inl (exc h rfl)
  | some jobId =>
  rw [h1] at h
  cases h2 : (JsonValue.member jobObj "blob").bind JsonValue.getString with
  | none => rw [h2] at h; exact Or.inl (exc h rfl)
  | some blob =>
  rw [h2] at h
  cases h3 : (JsonValue.member jobObj "target").bind JsonValue.getString with
  | none => rw [h3] at h; exact Or.inl (exc h rfl)
  | some target =>
  rw [h3] at h
  cases h4 : (JsonValue.member jobObj "height").bind JsonValue.getDouble with
  | none => rw [h4] at h; exact Or.inl (exc h rfl)
  | some hgt =>
  rw [h4] at h
  cases h5 : (JsonValue.member jobObj "seed_hash").bind JsonValue.getString with
  | none => rw [h5] at h; exact Or.inl (exc h rfl)
  | some seedHash =>
  rw [h5] at h
  dsimp only at h
  cases h6 : Job.make jobId blob target (hgt % 2 ^ 64 % 2 ^ 32) seedHash with
  | none => rw [h6] at h; exact Or.inl (exc h rfl)
  | some newJob =>
  rw [h6] at h
  have hjob : newJob.seedHash = seedHash ∧ newJob.target = target := by
    unfold Job.make at h6
    split at h6
    · exact absurd h6 (by simp)
    · simp only [Option.some.injEq] at h6
      subst h6
      exact ⟨rfl, rfl⟩
  cases h7 : stoul jobId 10 with
  | none => rw [h7] at h; exact Or.inl (exc h rfl)
  | some v =>
  rw [h7] at h
  dsimp only at h
  split at h
  · rcases hT : RandomXManager.initializeTraced env lib s.rx seedHash with _ | ⟨ok, rx, t0⟩
    · rw [hT] at h
      exact absurd h (by simp)
    · rw [hT] at h
      cases ok
      · dsimp only at h
        simp only [Option.some.injEq, Prod.mk.injEq] at h
        obtain ⟨rfl, rfl, rfl⟩ := h
        exact Or.inr (Or.inl ⟨seedHash, rx, rfl, hT, rfl, rfl, rfl, rfl⟩)
      · dsimp only at h
        cases hU : updateWorkers s.config newJob s.threadData with
        | none => rw [hU] at h; exact absurd h (by simp)
        | some tds =>
          rw [hU] at h
          simp only [Option.some.injEq, Prod.mk.injEq] at h
          obtain ⟨rfl, rfl, rfl⟩ := h
          refine Or.inr (Or.inr ⟨newJob, rx, rfl, ?_, rfl, rfl, rfl, rfl, ?_, rfl⟩)
          · rw [hjob.1]
            exact hT
          · exact hjob.2.symm
  · simp only [Option.some.injEq, Prod.mk.injEq] at h
    obtain ⟨rfl, rfl, rfl⟩ := h
    exact Or.inl ⟨rfl, rfl, Or.inr rfl⟩

theorem processNewJobTraced_invariant (env : InitEnv) (lib : InitLib) (s s' : PoolState)
    (jobObj : List (String × JsonValue)) (o : JobOutcome) (t : List RxCall)
    (hinv : SeedInvariant s)
    (h : processNewJobTraced env lib s jobObj = some (s', o, t)) :
    SeedInvariant s' := by
  rcases processNewJobTraced_cases env lib s s' jobObj o t h with
    ⟨rfl, -, -⟩ | ⟨seedHash, rx, -, hT, hrx, -, -, -⟩ | ⟨newJob, rx, -, hT, hq, hs, -, -, -, -⟩
  · exact hinv
  · obtain ⟨-, hf⟩ := initializeTraced_result env lib _ _ _ _ _ hT
    intro hd
    rw [hrx] at hd
    exact absurd (hf rfl) hd
  · obtain ⟨ht, -⟩ := initializeTraced_result env lib _ _ _ _ _ hT
    intro _ job hjob
    rw [hq, List.mem_singleton] at hjob
    rw [hjob, hs, (ht rfl).1]

theorem cleanup_invariant (st : MinerState) :
    SeedInvariant (RandomXManager.cleanup st).1.pool := by
  intro hd
  exact absurd rfl hd

theorem run_invariant (ops : List MinerOp) :
    ∀ (st st' : MinerState), SeedInvariant st.pool →
      (∀ op ∈ ops, op.isSeedChange = false) → st.run ops = some st' →
      SeedInvariant st'.pool := by
  induction ops with
  | nil =>
    intro st st' hinv _ hrun
    simp only [MinerState.run, Option.some.injEq] at hrun
    subst hrun
    exact hinv
  | cons op rest ih =>
    intro st st' hinv hops hrun
    have hop : op.isSeedChange = false := hops op (List.mem_cons_self _ _)
    have hrest : ∀ op' ∈ rest, op'.isSeedChange = false :=
      fun op' h' => hops op' (List.mem_cons_of_mem _ h')
    unfold MinerState.run at hrun
    cases hstep : st.step op with
    | none => rw [hstep] at hrun; exact absurd hrun (by simp)
    | some st1 =>
      rw [hstep] at hrun
      refine ih st1 st' ?_ hrest hrun
      cases op with
      | newJob env lib jobObj =>
        simp only [MinerState.step] at hstep
        rcases hP : processNewJobTraced env lib st.pool jobObj with _ | ⟨pool, o, t⟩
        · rw [hP] at hstep
          exact absurd hstep (by simp)
        · rw [hP] at hstep
          simp only [Option.some.injEq] at hstep
          subst hstep
          exact processNewJobTraced_invariant env lib st.pool pool jobObj o t hinv hP
      | seedChange env lib seed => exact absurd hop (by simp [MinerOp.isSeedChange])
      | cleanup =>
        simp only [MinerState.step, Option.some.injEq] at hstep
        subst hstep
        exact cleanup_invariant st

/-- C14 (counterexample): job "1" on seed "aa" is published, then
`handleSeedHashChange("bb")` rebuilds the dataset: the queue still holds the job with seed
"aa", the dataset is resident, and the current seed hash is "bb". -/
theorem seedChange_breaks_invariant :
    ((MinerState.initial ⟨1⟩ [some (MiningThreadData.new 0)]).run
        [.newJob envOk libOk (jobNotification "1" "0707" "1d00ffff" 3000000 "aa"),
         .seedChange { envOk with allocDataset := some 3 } libOk "bb"]).map
      (fun st => (st.pool.jobQueue.map (fun j => j.seedHash), st.pool.rx.dataset,
        st.pool.rx.currentSeedHash, decide (SeedInvariant st.pool)))
      = some (["aa"], some 3, "bb", false) := by
  decide

/-- C14 (amended): in every state reached from program start through
`PoolClient::processNewJob` and `RandomXManager::cleanup` (no call of
`handleSeedHashChange`), whenever the dataset is resident the job in the queue carries the
current seed hash of `RandomXManager`. -/
theorem seed_invariant_without_seedChange (config : Config)
    (threadData : List (Option MiningThreadData)) (ops : List MinerOp) (st : MinerState)
    (hops : ∀ op ∈ ops, op.isSeedChange = false)
    (hrun : (MinerState.initial config threadData).run ops = some st) :
    SeedInvariant st.pool := by
  refine run_invariant ops (MinerState.initial config threadData) st ?_ hops hrun
  intro _ job hjob
  exact absurd hjob (List.not_mem_nil _)

/-- C14 witness: after job "1" on seed "aa" has been published from program start, the
dataset is resident and the queued job carries the current seed hash. -/
theorem seed_invariant_without_seedChange_witness :
    SeedInvariant
      ({ pool :=
          { config := ⟨1⟩, activeJobId := 1, notifiedJobId := 1,
            jobQueue := [{ jobId := "1", blob := "0707", target := "1d00ffff",
                           height := 3000000, seedHash := "aa", nonce := 0 }],
            threadData := [some { (MiningThreadData.new 0) with
                                  currentJob := some { jobId := "1", blob := "0707",
                                                       target := "1d00ffff", height := 3000000,
                                                       seedHash := "aa", nonce := 0 } }],
            rx := { dataset := some 1, cache := none, currentSeedHash := "aa",
                    currentTargetHex := "1d00ffff", currentHeight := 3000000,
                    currentJobId := "1" },
            poolId := "" },
         vms := [], rxThreadData := [] } : MinerState).pool :=
  seed_invariant_without_seedChange ⟨1⟩ [some (MiningThreadData.new 0)]
    [.newJob envOk libOk (jobNotification "1" "0707" "1d00ffff" 3000000 "aa")] _
    (by intro op hop; simp only [List.mem_singleton] at hop; subst hop; rfl) (by decide)

theorem leBytes_length (n v : Nat) : (leBytes n v).length = n := by
  induction n generalizing v with
  | zero => rfl
  | succ n ih => simp [leBytes, ih]

theorem leValue_leBytes (n v : Nat) : leValue (leBytes n v) = v % 256 ^ n := by
  induction n generalizing v with
  | zero => simp [leBytes, leValue, Nat.mod_one]
  | succ n ih =>
    simp only [leBytes, leValue, ih]
    rw [Nat.pow_succ, Nat.mul_comm (256 ^ n) 256, Nat.mod_mul]

theorem IfStream.read_prefix (a b : List Nat) (n : Nat) (h : a.length = n) :
    IfStream.read { rest := a ++ b, good := true } n = (a, { rest := b, good := true }) := by
  subst h
  unfold IfStream.read
  simp

/-- When the dataset memory has exactly the number of bytes that `RANDOMX_DATASET_SIZE`
denotes, `saveDataset` writes the `u64` size, the `u32` seed length, the seed characters and
the bytes of `D`, in that order, and `loadDataset` on that file returns true and leaves the
dataset memory equal to `D`. -/
theorem saveDataset_loadDataset_same_size (datasetSize : Nat) (seedHash : String)
    (D mem : List Nat) (d : Nat) (hD : D.length = datasetSize) (hmem : mem.length = datasetSize)
    (hsize : datasetSize < 2 ^ 64) (hseed : seedHash.length < 2 ^ 32) :
    RandomXManager.saveDataset datasetSize true seedHash (some d) (some D)
      = some (true, some (leBytes 8 datasetSize ++ leBytes 4 seedHash.length
          ++ RandomXManager.seedKey seedHash ++ D))
    ∧ RandomXManager.loadDataset datasetSize
        (some (leBytes 8 datasetSize ++ leBytes 4 seedHash.length
          ++ RandomXManager.seedKey seedHash ++ D)) seedHash (some mem)
      = some (true, some D) := by
  have hkey : (RandomXManager.seedKey seedHash).length = seedHash.length := by
    simp [RandomXManager.seedKey]
  have hv8 : leValue (leBytes 8 datasetSize) = datasetSize := by
    rw [leValue_leBytes]
    exact Nat.mod_eq_of_lt hsize
  have hv4 : leValue (leBytes 4 seedHash.length) = seedHash.length := by
    rw [leValue_leBytes]
    exact Nat.mod_eq_of_lt hseed
  constructor
  · unfold RandomXManager.saveDataset
    simp only [Bool.not_true, Bool.false_eq_true, if_false, Nat.mod_eq_of_lt hseed]
    rw [if_neg (by omega), List.take_of_length_le (by omega), List.take_of_length_le (by omega)]
  · unfold RandomXManager.loadDataset
    simp only [List.append_assoc]
    rw [IfStream.read_prefix _ _ 8 (leBytes_length 8 _)]
    simp only [leBytes_length, Nat.lt_irrefl, if_false, hv8, ne_eq, not_true_eq_false]
    rw [IfStream.read_prefix _ _ 4 (leBytes_length 4 _)]
    simp only [leBytes_length, Nat.lt_irrefl, if_false, hv4]
    rw [IfStream.read_prefix _ _ seedHash.length hkey]
    simp only [hkey, Nat.sub_self, List.replicate_zero, List.append_nil, ne_eq,
      not_true_eq_false, if_false]
    have hread : IfStream.read { rest := D, good := true } datasetSize
        = (D, { rest := [], good := true }) := by
      have := IfStream.read_prefix D [] datasetSize hD
      rw [List.append_nil] at this
      exact this
    rw [hread]
    have hlt : ¬ mem.length < D.length := by omega
    simp only [hlt, if_false]
    simp only [hD, ← hmem, List.drop_length, List.append_nil]

/-- A dataset of 4 bytes saved and reloaded for the seed hash "aa", with 4 as the size. -/
theorem saveDataset_loadDataset_same_size_example :
    RandomXManager.saveDataset 4 true "aa" (some 1) (some [9, 8, 7, 6])
      = some (true, some (leBytes 8 4 ++ leBytes 4 "aa".length
          ++ RandomXManager.seedKey "aa" ++ [9, 8, 7, 6]))
    ∧ RandomXManager.loadDataset 4
        (some (leBytes 8 4 ++ leBytes 4 "aa".length
          ++ RandomXManager.seedKey "aa" ++ [9, 8, 7, 6])) "aa" (some [0, 0, 0, 0])
      = some (true, some [9, 8, 7, 6]) :=
  saveDataset_loadDataset_same_size 4 "aa" [9, 8, 7, 6] [0, 0, 0, 0] 1 rfl rfl
    (by decide) (by decide)

/-- On a file with the header of `RANDOMX_DATASET_SIZE`, the seed and that many data bytes,
`loadDataset` stores the data bytes into the dataset memory of the library's size, which is
shorter: the read runs past the end of the memory. -/
theorem loadDataset_writes_past_dataset (seedHash : String) (data mem : List Nat)
    (hdata : data.length = RANDOMX_DATASET_SIZE) (hmem : mem.length = libraryDatasetSize)
    (hseed : seedHash.length < 2 ^ 32) :
    RandomXManager.loadDataset RANDOMX_DATASET_SIZE
        (some (leBytes 8 RANDOMX_DATASET_SIZE ++ leBytes 4 seedHash.length
          ++ RandomXManager.seedKey seedHash ++ data)) seedHash (some mem)
      = none := by
  have hkey : (RandomXManager.seedKey seedHash).length = seedHash.length := by
    simp [RandomXManager.seedKey]
  have hv8 : leValue (leBytes 8 RANDOMX_DATASET_SIZE) = RANDOMX_DATASET_SIZE := by
    rw [leValue_leBytes]
    exact Nat.mod_eq_of_lt (by decide)
  have hv4 : leValue (leBytes 4 seedHash.length) = seedHash.length := by
    rw [leValue_leBytes]
    exact Nat.mod_eq_of_lt hseed
  have hlt : mem.length < data.length := by
    rw [hdata, hmem]
    decide
  generalize hS : RANDOMX_DATASET_SIZE = S at *
  unfold RandomXManager.loadDataset
  simp only [List.append_assoc]
  rw [IfStream.read_prefix _ _ 8 (leBytes_length 8 _)]
  simp only [leBytes_length, Nat.lt_irrefl, if_false, hv8, ne_eq, not_true_eq_false]
  rw [IfStream.read_prefix _ _ 4 (leBytes_length 4 _)]
  simp only [leBytes_length, Nat.lt_irrefl, if_false, hv4]
  rw [IfStream.read_prefix _ _ seedHash.length hkey]
  simp only [hkey, Nat.sub_self, List.replicate_zero, List.append_nil, ne_eq,
    not_true_eq_false, if_false]
  have hread : IfStream.read { rest := data, good := true } S
      = (data, { rest := [], good := true }) := by
    have := IfStream.read_prefix data [] S hdata
    rw [List.append_nil] at this
    exact this
  rw [hread]
  simp only [hlt, if_true]

/-- C17 (evaluated at the failing input): the dataset memory of the library has
2181038016 bytes, `RANDOMX_DATASET_SIZE` is 4294967296, and for every seed hash and every
content `D` of the library's size `saveDataset` writes `RANDOMX_DATASET_SIZE` bytes from
the memory, reading past its end. -/
theorem saveDataset_reads_past_dataset (seedHash : String) (d : Nat)
    (D : Fin libraryDatasetSize → Nat) :
    libraryDatasetSize = 2181038016
    ∧ RANDOMX_DATASET_SIZE = 4294967296
    ∧ (List.ofFn D).length = libraryDatasetSize
    ∧ RandomXManager.saveDataset RANDOMX_DATASET_SIZE true seedHash (some d)
        (some (List.ofFn D)) = none := by
  refine ⟨by decide, by decide, List.length_ofFn D, ?_⟩
  have hlt : (List.ofFn D).length < RANDOMX_DATASET_SIZE := by
    rw [List.length_ofFn]
    decide
  unfold RandomXManager.saveDataset
  simp only [Bool.not_true, Bool.false_eq_true, if_false, hlt, if_true]

/-- C18 (evaluated at the failing input): a file that holds the size field of
`RANDOMX_DATASET_SIZE`, the length 2, the seed characters "aa" and not a single dataset
byte is accepted: `loadDataset` returns true and the dataset memory is left as it was.  With
3 of 4 dataset bytes present the fourth byte of the memory keeps its old value. -/
theorem loadDataset_accepts_truncated_file (mem : List Nat) :
    RandomXManager.loadDataset RANDOMX_DATASET_SIZE
        (some [0, 0, 0, 0, 1, 0, 0, 0, 2, 0, 0, 0, 97, 97]) "aa" (some mem)
      = some (true, some mem)
    ∧ RandomXManager.loadDataset 4
        (some [4, 0, 0, 0, 0, 0, 0, 0, 2, 0, 0, 0, 97, 97, 9, 8, 7]) "aa" (some [1, 2, 3, 4])
      = some (true, some [9, 8, 7, 4]) := by
  refine ⟨?_, by decide⟩
  have h : RandomXManager.loadDataset RANDOMX_DATASET_SIZE
      (some [0, 0, 0, 0, 1, 0, 0, 0, 2, 0, 0, 0, 97, 97]) "aa" (some mem)
      = if mem.length < ([] : List Nat).length then none
        else some (true, some (([] : List Nat) ++ mem.drop ([] : List Nat).length)) := rfl
  rw [h]
  simp

/-- C19 (evaluated at the failing inputs): for the single chunk `"a\nb\n"` the successive
`receiveData` calls return only `"a"` (the line `"b"` is lost with the local buffer), and for
the chunks `"ab"`, `"c\n"` they return `"c"` (the first half of the line `"abc"` is lost);
the expected lines are `"a"`, `"b"` and `"abc"`. -/
theorem receiveData_loses_lines :
    PoolClient.receivedMessages ["a\nb\n".toList] = ["a".toList]
    ∧ specLines ["a\nb\n".toList] = ["a".toList, "b".toList]
    ∧ PoolClient.receivedMessages ["ab".toList, "c\n".toList] = ["c".toList]
    ∧ specLines ["ab".toList, "c\n".toList] = ["abc".toList] := by
  refine ⟨by decide, by decide, by decide, by decide⟩

theorem last_two_chars (l : List Char) (a b : Char) :
    (l ++ [a, b]).getLast? = some b ∧ (l ++ [a, b]).dropLast.getLast? = some a := by
  have h : l ++ [a, b] = (l ++ [a]) ++ [b] := by simp
  rw [h, List.dropLast_concat]
  simp

set_option maxRecDepth 100000 in
/-- C20 (counterexample): the request `createSubmitPayload` builds has `params` as the
positional array `[sessionId, jobId, nonceHex, hashHex, algo]`, not as a named object; and
the request text of `PoolClient::submitShare` for a job id that contains double quotes
denotes an object whose `params` has six members, two of them named `nonce`, and whose
`job_id` is not the given argument. -/
theorem submit_request_not_named_object :
    JsonValue.member (createSubmitPayload 0 "sess" "17" "0000002a" "abab" "rx/0").1.members
        "params"
      = some (.array [.string "sess", .string "17", .string "0000002a", .string "abab",
                      .string "rx/0"])
    ∧ (JsonValue.member (createSubmitPayload 0 "sess" "17" "0000002a" "abab" "rx/0").1.members
        "params").map JsonValue.isObject = some false
    ∧ ((parseJson (PoolClient.submitRequest "sess" "17\",\"nonce\":\"ffffffff" "0000002a"
          "abab" "rx/0")).map
        (fun v => (JsonValue.member v.members "params").map
          (fun q => q.members.map (fun m => (m.1, m.2.getString)))))
      = some (some [("id", some "sess"), ("job_id", some "17"), ("nonce", some "ffffffff"),
          ("nonce", some "0000002a"), ("result", some "abab"), ("algo", some "rx/0")]) := by
  refine ⟨rfl, rfl, by decide⟩

theorem lexJson_string (s acc rest : List Char)
    (hs : s.all (fun c => c != '"' && c != '\\' && decide (0x20 ≤ c.toNat)) = true) :
    lexJson (.inString acc) (s ++ '"' :: rest)
      = (lexJson .normal rest).map
          (fun ts => JsonToken.str (String.mk (acc.reverse ++ s)) :: ts) := by
  induction s generalizing acc with
  | nil => simp [lexJson]
  | cons c cs ih =>
    simp only [List.all_cons, Bool.and_eq_true, bne_iff_ne, ne_eq, decide_eq_true_eq] at hs
    obtain ⟨⟨⟨h1, h2⟩, h3⟩, hcs⟩ := hs
    have h3' : ¬ c.toNat < 0x20 := by omega
    have hstep : lexJson (.inString acc) (c :: (cs ++ '"' :: rest))
        = lexJson (.inString (c :: acc)) (cs ++ '"' :: rest) := by
      simp only [lexJson, if_neg h1, if_neg h2, if_neg h3']
    rw [List.cons_append, hstep, ih (c :: acc) hcs]
    simp

theorem lexJson_quoted (s : String) (rest : List Char) (hs : jsonPlain s = true) :
    lexJson .normal ('"' :: (s.toList ++ '"' :: rest))
      = (lexJson .normal rest).map (fun ts => JsonToken.str s :: ts) := by
  have h := lexJson_string s.toList [] rest hs
  simp only [List.reverse_nil, List.nil_append] at h
  have h0 : lexJson .normal ('"' :: (s.toList ++ '"' :: rest))
      = lexJson (.inString []) (s.toList ++ '"' :: rest) := by
    simp [lexJson, jsonWs, punctToken]
  rw [h0, h]
  rfl

theorem lexJson_punct (c : Char) (t : JsonToken) (rest : List Char)
    (hc : jsonWs c = false) (ht : punctToken c = some t) :
    lexJson .normal (c :: rest) = (lexJson .normal rest).map (fun ts => t :: ts) := by
  simp [lexJson, hc, ht]

theorem lexJson_one (rest : List Char) :
    lexJson .normal ('1' :: ',' :: rest)
      = (lexJson .normal rest).map (fun ts => JsonToken.num 1 :: JsonToken.comma :: ts) := by
  simp [lexJson, jsonWs, punctToken]
theorem lexJson_member (k v : String) (rest : List Char) (hk : jsonPlain k = true)
    (hv : jsonPlain v = true) :
    lexJson .normal ('"' :: (k.toList ++ '"' :: ':' :: '"' :: (v.toList ++ '"' :: rest)))
      = (lexJson .normal rest).map
          (fun ts => JsonToken.str k :: JsonToken.colon :: JsonToken.str v :: ts) := by
  rw [lexJson_quoted k _ hk, lexJson_punct ':' .colon _ rfl rfl, lexJson_quoted v _ hv]
  cases lexJson .normal rest <;> rfl

theorem renderSubmit_toList (p : SubmitParams) :
    (PoolClient.renderSubmit p).toList
      = '\x7b' :: '"' :: ("id".toList ++ '"' :: ':' :: '1' :: ','
        :: '"' :: ("jsonrpc".toList ++ '"' :: ':' :: '"' :: ("2.0".toList ++ '"' :: ','
        :: '"' :: ("method".toList ++ '"' :: ':' :: '"' :: ("submit".toList ++ '"' :: ','
        :: '"' :: ("params".toList ++ '"' :: ':' :: '\x7b'
        :: '"' :: ("id".toList ++ '"' :: ':' :: '"' :: (p.id.toList ++ '"' :: ','
        :: '"' :: ("job_id".toList ++ '"' :: ':' :: '"' :: (p.job_id.toList ++ '"' :: ','
        :: '"' :: ("nonce".toList ++ '"' :: ':' :: '"' :: (p.nonce.toList ++ '"' :: ','
        :: '"' :: ("result".toList ++ '"' :: ':' :: '"' :: (p.result.toList ++ '"' :: ','
        :: '"' :: ("algo".toList ++ '"' :: ':' :: '"' :: (p.algo.toList ++ '"'
        :: '\x7d' :: '\x7d' :: [])))))))))))))))) := by
  unfold PoolClient.renderSubmit
  simp only [String.toList, String.data_append, List.append_assoc]
  rfl

theorem lexJson_renderSubmit (p : SubmitParams)
    (h1 : jsonPlain p.id = true) (h2 : jsonPlain p.job_id = true)
    (h3 : jsonPlain p.nonce = true) (h4 : jsonPlain p.result = true)
    (h5 : jsonPlain p.algo = true) :
    lexJson .normal (PoolClient.renderSubmit p).toList
      = some [.lbrace, .str "id", .colon, .num 1, .comma, .str "jsonrpc", .colon, .str "2.0",
          .comma, .str "method", .colon, .str "submit", .comma, .str "params", .colon,
          .lbrace, .str "id", .colon, .str p.id, .comma, .str "job_id", .colon,
          .str p.job_id, .comma, .str "nonce", .colon, .str p.nonce, .comma, .str "result",
          .colon, .str p.result, .comma, .str "algo", .colon, .str p.algo, .rbrace,
          .rbrace] := by
  have hnil : lexJson .normal [] = some [] := rfl
  rw [renderSubmit_toList,
    lexJson_punct '\x7b' .lbrace _ rfl rfl,
    lexJson_quoted "id" _ (by decide), lexJson_punct ':' .colon _ rfl rfl, lexJson_one,
    lexJson_member "jsonrpc" "2.0" _ (by decide) (by decide),
    lexJson_punct ',' .comma _ rfl rfl,
    lexJson_member "method" "submit" _ (by decide) (by decide),
    lexJson_punct ',' .comma _ rfl rfl,
    lexJson_quoted "params" _ (by decide), lexJson_punct ':' .colon _ rfl rfl,
    lexJson_punct '\x7b' .lbrace _ rfl rfl,
    lexJson_member "id" p.id _ (by decide) h1, lexJson_punct ',' .comma _ rfl rfl,
    lexJson_member "job_id" p.job_id _ (by decide) h2, lexJson_punct ',' .comma _ rfl rfl,
    lexJson_member "nonce" p.nonce _ (by decide) h3, lexJson_punct ',' .comma _ rfl rfl,
    lexJson_member "result" p.result _ (by decide) h4, lexJson_punct ',' .comma _ rfl rfl,
    lexJson_member "algo" p.algo _ (by decide) h5,
    lexJson_punct '\x7d' .rbrace _ rfl rfl, lexJson_punct '\x7d' .rbrace _ rfl rfl, hnil]
  rfl

theorem parseJson_renderSubmit (p : SubmitParams)
    (h1 : jsonPlain p.id = true) (h2 : jsonPlain p.job_id = true)
    (h3 : jsonPlain p.nonce = true) (h4 : jsonPlain p.result = true)
    (h5 : jsonPlain p.algo = true) :
    parseJson (PoolClient.renderSubmit p)
      = some (.object [("id", .number 1), ("jsonrpc", .string "2.0"),
          ("method", .string "submit"),
          ("params", .object [("id", .string p.id), ("job_id", .string p.job_id),
            ("nonce", .string p.nonce), ("result", .string p.result),
            ("algo", .string p.algo)])]) := by
  unfold parseJson
  rw [lexJson_renderSubmit p h1 h2 h3 h4 h5]
  rfl

theorem jsonPlain_no_newline (s : String) (hs : jsonPlain s = true) :
    s.toList.count '\n' = 0 := by
  rw [List.count_eq_zero]
  intro hmem
  unfold jsonPlain at hs
  rw [List.all_eq_true] at hs
  have h := hs '\n' hmem
  revert h
  decide

theorem renderSubmit_one_line (p : SubmitParams)
    (h1 : jsonPlain p.id = true) (h2 : jsonPlain p.job_id = true)
    (h3 : jsonPlain p.nonce = true) (h4 : jsonPlain p.result = true)
    (h5 : jsonPlain p.algo = true) :
    (PoolClient.renderSubmit p).toList.count '\n' = 0 := by
  rw [renderSubmit_toList]
  simp only [List.count_cons, List.count_append, jsonPlain_no_newline _ h1,
    jsonPlain_no_newline _ h2, jsonPlain_no_newline _ h3, jsonPlain_no_newline _ h4,
    jsonPlain_no_newline _ h5, List.count_nil]
  decide

/-- C20 (amended): for arguments without double quote, backslash and control character the
request text of `PoolClient::submitShare` is JSON text that denotes the object with the
members `id` 1, `jsonrpc` "2.0", `method` "submit" and `params`, where `params` is the
object with exactly the members `id` (the pool id stored at login), `job_id`, `nonce`,
`result` and `algo`, in this order, holding the arguments; the bytes sent are the request
followed by a newline, which is the only newline in them, and the character before it is
the closing brace.  The function `createSubmitPayload` builds an object with `id` (the
request counter), method "submit" and `params` as the positional array of its five
arguments, which `sendAndReceive` sends followed by a newline. -/
theorem submit_request_format (poolId jobId nonce result algorithm : String) (n : Nat)
    (sessionId nonceHex hashHex algo payload : String)
    (h1 : jsonPlain poolId = true) (h2 : jsonPlain jobId = true)
    (h3 : jsonPlain nonce = true) (h4 : jsonPlain result = true)
    (h5 : jsonPlain algorithm = true) :
    parseJson (PoolClient.submitRequest poolId jobId nonce result algorithm)
      = some (.object [("id", .number 1), ("jsonrpc", .string "2.0"),
          ("method", .string "submit"),
          ("params", .object [("id", .string poolId), ("job_id", .string jobId),
            ("nonce", .string nonce), ("result", .string result),
            ("algo", .string algorithm)])])
    ∧ PoolClient.submitShareBytes poolId jobId nonce result algorithm
      = PoolClient.submitRequest poolId jobId nonce result algorithm ++ "\n"
    ∧ (PoolClient.submitShareBytes poolId jobId nonce result algorithm).toList.count '\n' = 1
    ∧ (PoolClient.submitShareBytes poolId jobId nonce result algorithm).toList.getLast?
      = some '\n'
    ∧ (PoolClient.submitShareBytes poolId jobId nonce result algorithm).toList.dropLast.getLast?
      = some '\x7d'
    ∧ (createSubmitPayload n sessionId jobId nonceHex hashHex algo).1
      = .object [("id", .number (n % 2 ^ 32)), ("method", .string "submit"),
                 ("params", .array [.string sessionId, .string jobId, .string nonceHex,
                                    .string hashHex, .string algo])]
    ∧ PoolClient.sendAndReceiveBytes payload = payload ++ "\n"
    ∧ (PoolClient.sendAndReceiveBytes payload).toList.getLast? = some '\n' := by
  have hfmt : (PoolClient.submitShareBytes poolId jobId nonce result algorithm).toList
      = ("\x7b\"id\":1,\"jsonrpc\":\"2.0\",\"method\":\"submit\",\"params\":\x7b\"id\":\"".toList
          ++ poolId.toList ++ "\",\"job_id\":\"".toList ++ jobId.toList
          ++ "\",\"nonce\":\"".toList ++ nonce.toList ++ "\",\"result\":\"".toList
          ++ result.toList ++ "\",\"algo\":\"".toList ++ algorithm.toList ++ ['"', '\x7d'])
        ++ ['\x7d', '\n'] := by
    simp [PoolClient.submitShareBytes, PoolClient.submitRequest, PoolClient.renderSubmit,
      PoolClient.submitParams, String.data_append]
  have hcount : (PoolClient.submitShareBytes poolId jobId nonce result algorithm).toList.count
      '\n' = 1 := by
    have h0 := renderSubmit_one_line
      (PoolClient.submitParams poolId jobId nonce result algorithm) h1 h2 h3 h4 h5
    have hl : (PoolClient.submitShareBytes poolId jobId nonce result algorithm).toList
        = (PoolClient.renderSubmit
            (PoolClient.submitParams poolId jobId nonce result algorithm)).toList ++ ['\n'] := by
      simp [PoolClient.submitShareBytes, PoolClient.submitRequest, String.data_append]
    rw [hl, List.count_append, h0]
    decide
  refine ⟨parseJson_renderSubmit _ h1 h2 h3 h4 h5, rfl, hcount, ?_, ?_, rfl, rfl, ?_⟩
  · rw [hfmt]
    exact (last_two_chars _ _ _).1
  · rw [hfmt]
    exact (last_two_chars _ _ _).2
  · simp [PoolClient.sendAndReceiveBytes, String.data_append]

theorem submit_request_format_witness :
    parseJson (PoolClient.submitRequest "sess" "17" "0000002a" "abab" "rx/0")
      = some (.object [("id", .number 1), ("jsonrpc", .string "2.0"),
          ("method", .string "submit"),
          ("params", .object [("id", .string "sess"), ("job_id", .string "17"),
            ("nonce", .string "0000002a"), ("result", .string "abab"),
            ("algo", .string "rx/0")])])
    ∧ PoolClient.submitShareBytes "sess" "17" "0000002a" "abab" "rx/0"
      = PoolClient.submitRequest "sess" "17" "0000002a" "abab" "rx/0" ++ "\n"
    ∧ (PoolClient.submitShareBytes "sess" "17" "0000002a" "abab" "rx/0").toList.count '\n' = 1
    ∧ (PoolClient.submitShareBytes "sess" "17" "0000002a" "abab" "rx/0").toList.getLast?
      = some '\n'
    ∧ (PoolClient.submitShareBytes "sess" "17" "0000002a" "abab"
        "rx/0").toList.dropLast.getLast? = some '\x7d'
    ∧ (createSubmitPayload 7 "sess" "17" "0000002a" "abab" "rx/0").1
      = .object [("id", .number (7 % 2 ^ 32)), ("method", .string "submit"),
                 ("params", .array [.string "sess", .string "17", .string "0000002a",
                                    .string "abab", .string "rx/0"])]
    ∧ PoolClient.sendAndReceiveBytes "payload" = "payload" ++ "\n"
    ∧ (PoolClient.sendAndReceiveBytes "payload").toList.getLast? = some '\n' :=
  submit_request_format "sess" "17" "0000002a" "abab" "rx/0" 7 "sess" "0000002a" "abab" "rx/0"
    "payload" (by decide) (by decide) (by decide) (by decide) (by decide)

/-! ### Submit responses and share counters -/

theorem handleSubmitResponse_true_iff (parsed : Option JsonValue) :
    PoolClient.handleSubmitResponse parsed = true ↔
      ∃ obj result, parsed = some (.object obj) ∧
        JsonValue.member obj "result" = some (.object result) ∧
        JsonValue.member result "status" = some (.string "OK") := by
  cases parsed with
  | none => simp [PoolClient.handleSubmitResponse, PoolClient.submitResponseTry]
  | some v =>
    cases v with
    | object obj =>
      cases hr : JsonValue.member obj "result" with
      | none => simp [PoolClient.handleSubmitResponse, PoolClient.submitResponseTry, hr]
      | some r =>
        cases r with
        | object result =>
          cases hs : JsonValue.member result "status" with
          | none => simp [PoolClient.handleSubmitResponse, PoolClient.submitResponseTry, hr, hs]
          | some sv =>
            cases sv <;>
              simp [PoolClient.handleSubmitResponse, PoolClient.submitResponseTry, hr, hs,
                JsonValue.getString]
        | _ => simp [PoolClient.handleSubmitResponse, PoolClient.submitResponseTry, hr]
    | _ => simp [PoolClient.handleSubmitResponse, PoolClient.submitResponseTry]

/-- C21: `PoolClient::submitShare` returns true exactly when the socket steps succeed and
the received text parses as a JSON object whose member `result` is an object whose member
`status` is the string "OK"; the function is total, so every other response (parse error,
non-object, missing or non-object `result`, missing or non-string `status`, another status
text) gives false and no exception leaves it. -/
theorem submitShare_true_iff_status_ok (parse : String → Option JsonValue) (io : SubmitIo) :
    PoolClient.submitShare parse io = true ↔
      (io.socketValid = true ∧ io.sendOk = true ∧ io.selectReady = true ∧
        ∃ response obj result, io.response = some response ∧
          parse response = some (.object obj) ∧
          JsonValue.member obj "result" = some (.object result) ∧
          JsonValue.member result "status" = some (.string "OK")) := by
  unfold PoolClient.submitShare
  cases h1 : io.socketValid <;> cases h2 : io.sendOk <;> cases h3 : io.selectReady <;>
    simp
  cases h4 : io.response with
  | none => simp
  | some response => simp [handleSubmitResponse_true_iff]

/-- The retry loop of `miningThread` (MiningThread.cpp) makes at most three calls, stops at
the first accepted one, and counts the share as accepted exactly when one of the first three
attempts was accepted. -/
theorem submitFoundShare_retries (outcome : Nat → Bool) (c : ShareCounters) :
    (MiningThread.submitFoundShare outcome c).2 ≤ 3
    ∧ (∀ k, k + 1 < (MiningThread.submitFoundShare outcome c).2 → outcome k = false)
    ∧ ((outcome 0 = true ∨ outcome 1 = true ∨ outcome 2 = true) →
        (MiningThread.submitFoundShare outcome c).1
          = { c with accepted := (c.accepted + 1) % 2 ^ 64 }
        ∧ outcome ((MiningThread.submitFoundShare outcome c).2 - 1) = true)
    ∧ (¬ (outcome 0 = true ∨ outcome 1 = true ∨ outcome 2 = true) →
        (MiningThread.submitFoundShare outcome c).1
          = { c with rejected := (c.rejected + 1) % 2 ^ 64 }
        ∧ (MiningThread.submitFoundShare outcome c).2 = 3) := by
  cases h0 : outcome 0 <;> cases h1 : outcome 1 <;> cases h2 : outcome 2 <;>
    simp [MiningThread.submitFoundShare, MiningThread.submitLoop, h0, h1, h2] <;>
    intro k hk <;>
    first
      | omega
      | (have hk' : k = 0 ∨ k = 1 := by omega
         rcases hk' with rfl | rfl <;> assumption)
      | (have hk' : k = 0 := by omega
         subst hk'; assumption)

/-- C22: on the outcomes fail, fail, OK the member function `MiningThreadData::submitShare`
calls `PoolClient::submitShare` once and counts the share as rejected, while the retry loop
of `miningThread` (MiningThread.cpp) makes three calls and counts it as accepted. -/
theorem submitShare_single_attempt :
    (MiningThreadData.submitShare failFailOk w17).2 = 1
    ∧ (MiningThreadData.submitShare failFailOk w17).1.acceptedShares = w17.acceptedShares
    ∧ (MiningThreadData.submitShare failFailOk w17).1.rejectedShares
        = w17.rejectedShares + 1
    ∧ MiningThread.submitFoundShare failFailOk { accepted := 0, rejected := 0 }
        = ({ accepted := 1, rejected := 0 }, 3) := by
  decide

/-- The member function `MiningThreadData::submitShare` and `handleShareResponse` do not
lower the sum of the two counters they write, as long as the counters stay below the
`uint64_t` limit. -/
theorem submit_counters_monotone (outcome : Nat → Bool) (w : MiningThreadData)
    (parsed : Option JsonValue) (accepted : Bool) (c : ShareCounters) (r : Bool × ShareCounters)
    (hw : w.acceptedShares + w.rejectedShares + 1 < 2 ^ 64)
    (hc : c.accepted + c.rejected + 1 < 2 ^ 64)
    (hr : handleShareResponse parsed accepted c = some r) :
    w.acceptedShares + w.rejectedShares
        ≤ (MiningThreadData.submitShare outcome w).1.acceptedShares
          + (MiningThreadData.submitShare outcome w).1.rejectedShares
    ∧ c.accepted + c.rejected ≤ r.2.accepted + r.2.rejected := by
  constructor
  · unfold MiningThreadData.submitShare
    cases w.currentJob with
    | none => simp
    | some j =>
      cases outcome 0
      · simp only [Bool.false_eq_true, if_false]
        rw [Nat.mod_eq_of_lt (by omega)]; omega
      · simp only [if_true]
        rw [Nat.mod_eq_of_lt (by omega)]; omega
  · have hacc : (c.accepted + 1) % 2 ^ 64 = c.accepted + 1 := Nat.mod_eq_of_lt (by omega)
    have hrej : (c.rejected + 1) % 2 ^ 64 = c.rejected + 1 := Nat.mod_eq_of_lt (by omega)
    unfold handleShareResponse at hr
    rw [hacc, hrej] at hr
    repeat' split at hr
    all_goals first
      | (cases hr; done)
      | (cases hr; simp only []; omega)

/-- C24: the function `MiningStats::updateThreadStats` lowers the sum accepted + rejected of
the `globalStats` counters: with the counters at 5 and 1, taken from one worker, a call for
a worker that has no share yet sets both to 0. -/
theorem updateThreadStats_lowers_sum :
    (MiningStats.updateThreadStats (some (MiningThreadData.new 1)) 0 0 0 "17" 0
        { totalHashes := 100, acceptedShares := 5, rejectedShares := 1, elapsedSeconds := 9,
          currentJobId := "17", currentNonce := 7 }).2.acceptedShares
      + (MiningStats.updateThreadStats (some (MiningThreadData.new 1)) 0 0 0 "17" 0
        { totalHashes := 100, acceptedShares := 5, rejectedShares := 1, elapsedSeconds := 9,
          currentJobId := "17", currentNonce := 7 }).2.rejectedShares = 0
    ∧ ¬ (5 + 1 ≤
      (MiningStats.updateThreadStats (some (MiningThreadData.new 1)) 0 0 0 "17" 0
        { totalHashes := 100, acceptedShares := 5, rejectedShares := 1, elapsedSeconds := 9,
          currentJobId := "17", currentNonce := 7 }).2.acceptedShares
      + (MiningStats.updateThreadStats (some (MiningThreadData.new 1)) 0 0 0 "17" 0
        { totalHashes := 100, acceptedShares := 5, rejectedShares := 1, elapsedSeconds := 9,
          currentJobId := "17", currentNonce := 7 }).2.rejectedShares) := by
  decide

/-! ### The mining loop, lock order, expanded target and `shift_left` -/

theorem getBlobBytes_length (j : Job) (input : List Nat) (h : j.getBlobBytes = some input) :
    43 ≤ input.length := by
  unfold Job.getBlobBytes at h
  cases hd : Job.decodeBlob j.blob.toList with
  | none => rw [hd] at h; cases h
  | some bytes =>
    rw [hd] at h
    simp only [Option.some.injEq] at h
    subst h
    simp only [List.length_set]
    split
    · rw [List.length_append, List.length_replicate]; omega
    · omega

/-- C23: the worker at cursor `0xFFFFFFFF` hashes with the nonce bytes ff ff ff ff, moves
its cursor to `0x100000000` with the job unchanged, and in the next pass hashes the blob of
the same job with the nonce bytes 00 00 00 00. -/
theorem mine_hashes_after_last_nonce :
    (wLastNonce.minePass.map
        (fun r => (r.1.map (fun d => (d.drop 39).take 4), r.2.currentNonce, r.2.currentJob)))
      = some (some [255, 255, 255, 255], 0x100000000, wLastNonce.currentJob)
    ∧ ((wLastNonce.minePass.bind (fun r => r.2.minePass)).map
        (fun r => (r.1.map (fun d => (d.drop 39).take 4), r.2.currentJob)))
      = some (some [0, 0, 0, 0], wLastNonce.currentJob) := by
  decide

/-- C23 (amended): a worker of `MiningThreadData::mine` that holds a job and a VM and has
its cursor at `0xFFFFFFFF` hashes that nonce, moves the cursor to `0x100000000` with the job
unchanged, and in the next pass hashes the data of nonce `0x00000000` for the same job; the
`uint32_t` nonce of `miningThread` (MiningThread.cpp) wraps from `0xFFFFFFFF` to 0 and its
pass hashes the input with the nonce bytes zero. -/
theorem mine_wraps_to_nonce_zero (w : MiningThreadData) (job : Job) (input : List Nat)
    (hjob : w.currentJob = some job) (hvm : w.vm ≠ none)
    (hblob : job.getBlobBytes = some input) (hnonce : w.currentNonce = 0xFFFFFFFF) :
    ∃ d2 w1 w2,
      w.minePass = some (w.calculateHashData input 0xFFFFFFFF, w1)
      ∧ w1.currentJob = some job ∧ w1.currentNonce = 0x100000000
      ∧ w1.minePass = some (some d2, w2)
      ∧ w2.currentJob = some job
      ∧ w.calculateHashData input 0 = some d2
      ∧ BlobLayout input d2 0
      ∧ MiningThread.loopStep input 0xFFFFFFFF
          = ((((input.set 39 0).set 40 0).set 41 0).set 42 0, 0) := by
  have hlen : 43 ≤ input.length := getBlobBytes_length job input hblob
  have hne : input ≠ [] := by
    intro h
    rw [h] at hlen
    simp at hlen
  have hguard : ¬ (w.vm = none ∨ input = []) := not_or.mpr ⟨hvm, hne⟩
  have hzero : w.calculateHashData input 0
      = some ((((((if input.length < 43 then input ++ List.replicate (43 - input.length) 0
          else input).set 39 ((0 >>> 24) &&& 0xFF)).set 40 ((0 >>> 16) &&& 0xFF)).set 41
          ((0 >>> 8) &&& 0xFF)).set 42 (0 &&& 0xFF))) := by
    unfold MiningThreadData.calculateHashData
    rw [if_neg hguard]
  refine ⟨_, { w with currentNonce := 0x100000000
                      hashCount := (w.hashCount + 1) % 2 ^ 64
                      totalHashCount := (w.totalHashCount + 1) % 2 ^ 64 },
    { w with currentNonce := 0x100000001
             hashCount := ((w.hashCount + 1) % 2 ^ 64 + 1) % 2 ^ 64
             totalHashCount := ((w.totalHashCount + 1) % 2 ^ 64 + 1) % 2 ^ 64 },
    ?_, hjob, rfl, ?_, hjob, hzero, padInsert_layout input 0, ?_⟩
  · unfold MiningThreadData.minePass
    rw [hjob]
    simp only [hblob, hnonce]
    rfl
  · unfold MiningThreadData.minePass
    simp only [hjob, hblob]
    unfold MiningThreadData.calculateHashData
    simp only [if_neg hguard]
    rfl
  · rfl

theorem mine_wraps_to_nonce_zero_witness :
    ∃ d2 w1 w2,
      wLastNonce.minePass
        = some (wLastNonce.calculateHashData (List.replicate 43 0) 0xFFFFFFFF, w1)
      ∧ w1.currentJob = some { jobId := "17", blob := "", target := "1d00ffff",
                               height := 3000000, seedHash := "", nonce := 0 }
      ∧ w1.currentNonce = 0x100000000
      ∧ w1.minePass = some (some d2, w2)
      ∧ w2.currentJob = some { jobId := "17", blob := "", target := "1d00ffff",
                               height := 3000000, seedHash := "", nonce := 0 }
      ∧ wLastNonce.calculateHashData (List.replicate 43 0) 0 = some d2
      ∧ BlobLayout (List.replicate 43 0) d2 0
      ∧ MiningThread.loopStep (List.replicate 43 0) 0xFFFFFFFF
          = ((((((List.replicate 43 0).set 39 0).set 40 0).set 41 0).set 42 0), 0) :=
  mine_wraps_to_nonce_zero wLastNonce
    { jobId := "17", blob := "", target := "1d00ffff", height := 3000000, seedHash := "",
      nonce := 0 }
    (List.replicate 43 0) (by rfl) (by decide) (by decide) (by rfl)

/-- C29: in one pass of `MiningThreadData::mine` the thread locks the member `jobMutex`
again while its own `lock_guard` on it is alive: in `updateJob` when it takes a job from the
queue, and in `submitShare` when a hash met the target; a pass with neither call locks no
mutex twice. -/
theorem mine_relocks_jobMutex :
    firstRelock [] (MiningThreadData.mineLocks false true false) = some Mutex.workerJob
    ∧ firstRelock [] (MiningThreadData.mineLocks false true true) = some Mutex.workerJob
    ∧ firstRelock [] (MiningThreadData.mineLocks true false true) = some Mutex.workerJob
    ∧ firstRelock [] (MiningThreadData.mineLocks true true true) = some Mutex.workerJob
    ∧ firstRelock [] (MiningThreadData.mineLocks true false false) = none
    ∧ firstRelock [] (MiningThreadData.mineLocks false false false) = none := by
  decide

set_option maxRecDepth 100000 in
/-- For the mantissa `0xFFFFFF` the words of `calculateDifficulty` denote the value the
specification gives exactly for the exponents other than 9, 10, 17, 18, 25 and 26, where
the shifted mantissa crosses a word boundary below bit 256. -/
theorem expandWords_full_mantissa :
    ∀ e, e < 256 →
      (decide ((Job.expandWords (e * 2 ^ 24 + 0xFFFFFF)).toNat
          = specExpandTarget (e * 2 ^ 24 + 0xFFFFFF))
        = !(decide (e ∈ [9, 10, 17, 18, 25, 26]))) := by
  decide

/-- C26: for the compact target `09ffffff` (exponent 9, mantissa `0xFFFFFF`) the words of
`Job::calculateDifficulty` denote `0xFFFF000000000000`, while the value of the mantissa
shifted by 48 bits is `0xFFFFFF000000000000`: the eight mantissa bits above bit 63 are
lost. -/
theorem calculateDifficulty_drops_straddling_bits :
    Job.expandedTarget "09ffffff"
      = some { w0 := 0, w1 := 0, w2 := 0, w3 := 0xFFFF000000000000 }
    ∧ (Job.expandedTarget "09ffffff").map uint256_t.toNat = some 0xFFFF000000000000
    ∧ specExpandTarget 0x09ffffff = 0xFFFFFF000000000000
    ∧ (Job.expandedTarget "09ffffff").map uint256_t.toNat
        ≠ some (specExpandTarget 0x09ffffff) := by
  decide

theorem shiftLoop_ge_64 (v : uint256_t) (n : Nat) (h : 64 ≤ n) :
    uint256_t.shiftLoop n v = none := by
  rw [uint256_t.shiftLoop]
  have h1 : 0 < n := by omega
  have h2 : ¬ n < 64 := by omega
  simp [h1, h2, uint256_t.shiftPass, uint256_t.shiftWord, shl64, shr64]

theorem shift_parts (x carry s : Nat) (hx : x < 2 ^ 64) (hs : s < 64)
    (hc : carry < 2 ^ s) :
    ((x <<< s) % 2 ^ 64) ||| carry = (x % 2 ^ (64 - s)) * 2 ^ s + carry
    ∧ x >>> (64 - s) = x / 2 ^ (64 - s)
    ∧ x / 2 ^ (64 - s) < 2 ^ s
    ∧ x * 2 ^ s = (x / 2 ^ (64 - s)) * 2 ^ 64 + (x % 2 ^ (64 - s)) * 2 ^ s
    ∧ (x % 2 ^ (64 - s)) * 2 ^ s + carry < 2 ^ 64 := by
  have hKP : 2 ^ (64 - s) * 2 ^ s = 2 ^ 64 := by
    rw [← Nat.pow_add]
    congr 1
    omega
  have hK : 0 < 2 ^ (64 - s) := Nat.two_pow_pos _
  have hr : x % 2 ^ (64 - s) < 2 ^ (64 - s) := Nat.mod_lt _ hK
  refine ⟨?_, Nat.shiftRight_eq_div_pow _ _, ?_, ?_, ?_⟩
  · rw [Nat.shiftLeft_eq, ← hKP, Nat.mul_mod_mul_right, Nat.mul_comm (x % 2 ^ (64 - s)) (2 ^ s)]
    exact (Nat.mul_add_lt_is_or hc _).symm
  · apply Nat.div_lt_of_lt_mul
    rw [hKP]
    exact hx
  · calc x * 2 ^ s = (2 ^ (64 - s) * (x / 2 ^ (64 - s)) + x % 2 ^ (64 - s)) * 2 ^ s := by
          rw [Nat.div_add_mod]
      _ = (x / 2 ^ (64 - s)) * (2 ^ (64 - s) * 2 ^ s) + (x % 2 ^ (64 - s)) * 2 ^ s := by ring
      _ = _ := by rw [hKP]
  · calc (x % 2 ^ (64 - s)) * 2 ^ s + carry < (x % 2 ^ (64 - s)) * 2 ^ s + 2 ^ s := by omega
      _ = (x % 2 ^ (64 - s) + 1) * 2 ^ s := by ring
      _ ≤ 2 ^ (64 - s) * 2 ^ s := Nat.mul_le_mul_right _ hr
      _ = 2 ^ 64 := hKP

theorem shiftPass_value (a : uint256_t) (s : Nat) (ha : a.WellFormed) (hs0 : 0 < s)
    (hs : s < 64) :
    ∃ b, a.shiftPass s = some b ∧ b.WellFormed ∧ b.toNat = (a.toNat * 2 ^ s) % 2 ^ 256 := by
  obtain ⟨h0, h1, h2, h3⟩ := ha
  have h64 : 64 - s < 64 := by omega
  have hz : (0 : Nat) < 2 ^ s := Nat.two_pow_pos s
  obtain ⟨e3, r3, c3, m3, b3⟩ := shift_parts a.w3 0 s h3 hs hz
  obtain ⟨e2, r2, c2, m2, b2⟩ := shift_parts a.w2 (a.w3 / 2 ^ (64 - s)) s h2 hs c3
  obtain ⟨e1, r1, c1, m1, b1⟩ := shift_parts a.w1 (a.w2 / 2 ^ (64 - s)) s h1 hs c2
  obtain ⟨e0, r0, c0, m0, b0⟩ := shift_parts a.w0 (a.w1 / 2 ^ (64 - s)) s h0 hs c1
  refine ⟨{ w0 := (a.w0 % 2 ^ (64 - s)) * 2 ^ s + a.w1 / 2 ^ (64 - s)
            w1 := (a.w1 % 2 ^ (64 - s)) * 2 ^ s + a.w2 / 2 ^ (64 - s)
            w2 := (a.w2 % 2 ^ (64 - s)) * 2 ^ s + a.w3 / 2 ^ (64 - s)
            w3 := (a.w3 % 2 ^ (64 - s)) * 2 ^ s + 0 }, ?_, ⟨b0, b1, b2, b3⟩, ?_⟩
  · simp only [uint256_t.shiftPass, uint256_t.shiftWord, shr64, shl64, hs, h64, if_true,
      uint256_t.words, uint256_t.setWord, r3, r2, r1, e3, e2, e1, e0]
  · simp only [uint256_t.toNat, uint256_t.words]
    have hexp : (a.w0 * 2 ^ (64 * 3) + a.w1 * 2 ^ (64 * 2) + a.w2 * 2 ^ (64 * 1)
        + a.w3 * 2 ^ (64 * 0)) * 2 ^ s
        = (a.w0 * 2 ^ s) * 2 ^ 192 + (a.w1 * 2 ^ s) * 2 ^ 128 + (a.w2 * 2 ^ s) * 2 ^ 64
          + a.w3 * 2 ^ s := by ring
    rw [hexp, m0, m1, m2, m3]
    generalize a.w0 / 2 ^ (64 - s) = q0 at *
    generalize a.w1 / 2 ^ (64 - s) = q1 at *
    generalize a.w2 / 2 ^ (64 - s) = q2 at *
    generalize a.w3 / 2 ^ (64 - s) = q3 at *
    generalize (a.w0 % 2 ^ (64 - s)) * 2 ^ s = l0 at *
    generalize (a.w1 % 2 ^ (64 - s)) * 2 ^ s = l1 at *
    generalize (a.w2 % 2 ^ (64 - s)) * 2 ^ s = l2 at *
    generalize (a.w3 % 2 ^ (64 - s)) * 2 ^ s = l3 at *
    norm_num at *
    omega

theorem shift_left_below_64 (a : uint256_t) (n : Int) (ha : a.WellFormed) (hn0 : 0 < n)
    (hn : n < 64) :
    ∃ b, a.shift_left n = some b ∧ b.WellFormed
      ∧ b.toNat = (a.toNat * 2 ^ n.toNat) % 2 ^ 256 := by
  obtain ⟨b, hb, hw, hv⟩ := shiftPass_value a n.toNat ha (by omega) (by omega)
  refine ⟨b, ?_, hw, hv⟩
  unfold uint256_t.shift_left
  rw [if_neg (by omega), if_neg (by omega), uint256_t.shiftLoop]
  have h1 : 0 < n.toNat := by omega
  have h2 : n.toNat < 64 := by omega
  simp only [h1, h2, if_true, hb, Nat.sub_self]
  rw [uint256_t.shiftLoop]
  simp

theorem shift_left_outside (a : uint256_t) (n : Int) :
    (n ≤ 0 → a.shift_left n = some a)
    ∧ (n ≥ 256 → a.shift_left n = some { w0 := 0, w1 := 0, w2 := 0, w3 := 0 })
    ∧ (64 ≤ n → n < 256 → a.shift_left n = none) := by
  refine ⟨?_, ?_, ?_⟩
  · intro h
    unfold uint256_t.shift_left
    rw [if_pos h]
  · intro h
    unfold uint256_t.shift_left
    rw [if_neg (by omega), if_pos h]
  · intro h1 h2
    unfold uint256_t.shift_left
    rw [if_neg (by omega), if_neg (by omega)]
    exact shiftLoop_ge_64 a _ (by omega)

/-- C30: the call `shift_left(64)` evaluates `words[i] << 64`, a 64-bit shift whose amount is
not below 64 and whose behaviour is undefined, for every value; the call `shift_left(1)` on
the value 1 gives 2. -/
theorem shift_left_by_64_undefined (v : uint256_t) :
    v.shift_left 64 = none
    ∧ shl64 (v.words 3) (if (64 : Int) < 64 then 64 else 64) = none
    ∧ uint256_t.shift_left { w0 := 0, w1 := 0, w2 := 0, w3 := 1 } 1
        = some { w0 := 0, w1 := 0, w2 := 0, w3 := 2 } := by
  refine ⟨?_, ?_, ?_⟩
  · unfold uint256_t.shift_left
    simp only [show ¬ ((64 : Int) ≤ 0) by decide, show ¬ ((64 : Int) ≥ 256) by decide, if_false]
    exact shiftLoop_ge_64 v _ (by decide)
  · simp [shl64]
  · unfold uint256_t.shift_left
    simp only [show ¬ ((1 : Int) ≤ 0) by decide, show ¬ ((1 : Int) ≥ 256) by decide, if_false]
    rw [show (1 : Int).toNat = 1 from rfl, uint256_t.shiftLoop]
    simp only [show (0 : Nat) < 1 by decide, show (1 : Nat) < 64 by decide, if_true]
    rw [show uint256_t.shiftPass { w0 := 0, w1 := 0, w2 := 0, w3 := 1 } 1
        = some { w0 := 0, w1 := 0, w2 := 0, w3 := 2 } by decide]
    simp only [Nat.sub_self]
    rw [uint256_t.shiftLoop]
    simp

/-! ### Hex conversion -/

set_option maxRecDepth 100000 in
theorem stoi_hexByte : ∀ b, b < 256 → stoi (String.mk (hexByte b)) 16 = some (b : Int) := by
  decide

theorem hexDigit_lower : ∀ n, n < 16 → hexDigit n ∈ "0123456789abcdef".toList := by
  decide

theorem hexToBytesLoop_bytesToHex (x : List Nat) (hx : ∀ b ∈ x, b < 256) :
    Utils.hexToBytesLoop (x.flatMap hexByte) = some x := by
  induction x with
  | nil => rfl
  | cons b rest ih =>
    have hb : b < 256 := hx b (List.mem_cons_self _ _)
    have hrest := ih (fun c hc => hx c (List.mem_cons_of_mem _ hc))
    have hs := stoi_hexByte b hb
    unfold hexByte at hs
    have hcons : (b :: rest).flatMap hexByte
        = hexDigit (b / 16) :: hexDigit (b % 16) :: rest.flatMap hexByte := by
      simp [List.flatMap, hexByte]
    rw [hcons, Utils.hexToBytesLoop, hs]
    simp only [hrest]
    have hmod : ((b : Int) % 256).toNat = b := by omega
    rw [hmod]

/-- The definition of `bytesToHex` in Utils.cpp is inverted by `hexToBytes` and gives exactly
two lower-case hex digits for each byte. -/
theorem utils_bytesToHex_roundtrip (x : List Nat) (hx : ∀ b ∈ x, b < 256) :
    Utils.hexToBytes (Utils.bytesToHex x) = some x
    ∧ (Utils.bytesToHex x).length = 2 * x.length
    ∧ ∀ c ∈ (Utils.bytesToHex x).toList, c ∈ "0123456789abcdef".toList := by
  refine ⟨?_, ?_, ?_⟩
  · exact hexToBytesLoop_bytesToHex x hx
  · show (x.flatMap hexByte).length = 2 * x.length
    clear hx
    induction x with
    | nil => rfl
    | cons b rest ih =>
      have hcons : (b :: rest).flatMap hexByte
          = hexDigit (b / 16) :: hexDigit (b % 16) :: rest.flatMap hexByte := by
        simp [List.flatMap, hexByte]
      rw [hcons, List.length_cons, List.length_cons, ih, List.length_cons]
      omega
  · intro c hc
    have hc' : c ∈ x.flatMap hexByte := hc
    rw [List.mem_flatMap] at hc'
    obtain ⟨b, hbx, hcb⟩ := hc'
    have hb : b < 256 := hx b hbx
    unfold hexByte at hcb
    simp only [List.mem_cons, List.mem_singleton, List.not_mem_nil, or_false] at hcb
    rcases hcb with rfl | rfl
    · exact hexDigit_lower _ (by omega)
    · exact hexDigit_lower _ (by omega)

/-- C25: the definition of `bytesToHex` in Globals.cpp gives three characters for a byte,
two hex digits and a space; on its output for the byte `0xab` the loop of `hexToBytes` meets
the substring `" "`, on which `std::stoi` throws, and its output for `0xab 0xcd` decodes to
the three bytes `0xab 0x0c 0x0d`; the definition in Utils.cpp gives `"ab"`, which decodes
to the byte. -/
theorem globals_bytesToHex_no_roundtrip :
    Globals.bytesToHex [0xab] = "ab "
    ∧ (Globals.bytesToHex [0xab]).length = 3
    ∧ Utils.hexToBytes (Globals.bytesToHex [0xab]) = none
    ∧ Utils.hexToBytes (Globals.bytesToHex [0xab, 0xcd]) = some [0xab, 0x0c, 0x0d]
    ∧ Utils.bytesToHex [0xab] = "ab"
    ∧ Utils.hexToBytes (Utils.bytesToHex [0xab]) = some [0xab] := by
  decide

/-! ### Allocation and release in `initialize`, failed initialisation in `processNewJob` -/

theorem liveAfter_append (live : LiveHandles) (t1 t2 : List RxCall) :
    liveAfter live (t1 ++ t2) = (liveAfter live t1).bind (fun l => liveAfter l t2) := by
  induction t1 generalizing live with
  | nil => simp [liveAfter]
  | cons c rest ih =>
    cases c with
    | releaseDataset d =>
      simp only [List.cons_append, liveAfter]
      split
      · exact ih _
      · rfl
    | releaseCache d =>
      simp only [List.cons_append, liveAfter]
      split
      · exact ih _
      · rfl
    | allocDataset f r =>
      cases r with
      | none => simp only [List.cons_append, liveAfter]; exact ih _
      | some d => simp only [List.cons_append, liveAfter]; exact ih _
    | allocCache f r =>
      cases r with
      | none => simp only [List.cons_append, liveAfter]; exact ih _
      | some d => simp only [List.cons_append, liveAfter]; exact ih _
    | initCache a b c => simp only [List.cons_append, liveAfter]; exact ih _
    | initDataset a b c d => simp only [List.cons_append, liveAfter]; exact ih _
    | createVm a b c => simp only [List.cons_append, liveAfter]; exact ih _
    | destroyVm a => simp only [List.cons_append, liveAfter]; exact ih _
    | loadFile a b => simp only [List.cons_append, liveAfter]; exact ih _
    | saveFile a b => simp only [List.cons_append, liveAfter]; exact ih _

theorem liveAfter_initDataset (live : LiveHandles) (d c : Nat) (l : List (Nat × Nat)) :
    liveAfter live (l.map (fun r => RxCall.initDataset d c r.1 r.2)) = some live := by
  induction l with
  | nil => rfl
  | cons r rest ih => simp only [List.map_cons, liveAfter]; exact ih

theorem liveAfter_releaseExisting (rx : RandomXState) :
    liveAfter rx.live (RandomXManager.releaseExisting rx)
      = some { datasets := [], caches := [] } := by
  unfold RandomXManager.releaseExisting RandomXState.live
  cases rx.dataset <;> cases rx.cache <;> simp [liveAfter]

theorem rebuildDataset_live (env : InitEnv) (lib : InitLib) (rx : RandomXState) (d : Nat)
    (seedHash : String) (t : List RxCall) (ok : Bool) (rx' : RandomXState) (t' : List RxCall)
    (live0 : LiveHandles)
    (hd : rx.dataset = some d) (hc : rx.cache = none)
    (hl : liveAfter live0 t = some { datasets := [d], caches := [] })
    (h : RandomXManager.rebuildDataset env lib rx d seedHash t = some (ok, rx', t')) :
    liveAfter live0 t' = some rx'.live := by
  unfold RandomXManager.rebuildDataset at h
  cases hC : env.allocCache with
  | none =>
    simp only [hC, Option.some.injEq, Prod.mk.injEq] at h
    obtain ⟨-, rfl, rfl⟩ := h
    simp [liveAfter_append, hl, liveAfter, RandomXState.live, hc]
  | some c =>
    simp only [hC] at h
    split at h
    · exact absurd h (by simp)
    · split at h
      · simp only [Option.some.injEq, Prod.mk.injEq] at h
        obtain ⟨-, rfl, rfl⟩ := h
        simp [-List.map_take, liveAfter_append, hl, liveAfter, RandomXState.live,
          liveAfter_initDataset]
      · simp only [Option.some.injEq, Prod.mk.injEq] at h
        obtain ⟨-, rfl, rfl⟩ := h
        simp [liveAfter_append, hl, liveAfter, RandomXState.live, liveAfter_initDataset, hd]

theorem initializeTraced_live (env : InitEnv) (lib : InitLib) (rx : RandomXState)
    (seedHash : String) (ok : Bool) (rx' : RandomXState) (t : List RxCall)
    (hcache : rx.cache = none)
    (h : RandomXManager.initializeTraced env lib rx seedHash = some (ok, rx', t)) :
    liveAfter rx.live t = some rx'.live ∧ rx'.cache = none := by
  unfold RandomXManager.initializeTraced at h
  split at h
  · simp only [Option.some.injEq, Prod.mk.injEq] at h
    obtain ⟨-, rfl, rfl⟩ := h
    exact ⟨rfl, hcache⟩
  · cases hA : env.allocDataset with
    | none =>
      simp only [hA, Option.some.injEq, Prod.mk.injEq] at h
      obtain ⟨-, rfl, rfl⟩ := h
      rw [liveAfter_append, liveAfter_releaseExisting]
      simp [liveAfter, RandomXState.live]
    | some d =>
      simp only [hA] at h
      have hl1 : liveAfter rx.live (RandomXManager.releaseExisting rx
          ++ [RxCall.allocDataset RandomXManager.initFlags (some d)])
          = some { datasets := [d], caches := [] } := by
        rw [liveAfter_append, liveAfter_releaseExisting]
        simp [liveAfter]
      have hl2 : liveAfter rx.live (RandomXManager.releaseExisting rx
          ++ [RxCall.allocDataset RandomXManager.initFlags (some d)]
          ++ [RxCall.loadFile seedHash false])
          = some { datasets := [d], caches := [] } := by
        rw [liveAfter_append, hl1]
        simp [liveAfter]
      cases hF : env.fileExists with
      | false =>
        simp only [hF, Bool.false_eq_true, if_false] at h
        have hr := rebuildDataset_result env lib _ d seedHash _ ok rx' t rfl rfl h
        refine ⟨rebuildDataset_live env lib _ d seedHash _ ok rx' t rx.live rfl rfl hl1 h, ?_⟩
        cases ok
        · exact (hr.2 rfl).2
        · exact (hr.1 rfl).2.2
      | true =>
        cases hL : env.loadDataset with
        | true =>
          simp only [hF, hL, if_true, Option.some.injEq, Prod.mk.injEq] at h
          obtain ⟨-, rfl, rfl⟩ := h
          refine ⟨?_, rfl⟩
          rw [liveAfter_append, hl1]
          simp [liveAfter, RandomXState.live]
        | false =>
          simp only [hF, hL, if_true, Bool.false_eq_true, if_false] at h
          have hr := rebuildDataset_result env lib _ d seedHash _ ok rx' t rfl rfl h
          refine ⟨rebuildDataset_live env lib _ d seedHash _ ok rx' t rx.live rfl rfl hl2 h,
            ?_⟩
          cases ok
          · exact (hr.2 rfl).2
          · exact (hr.1 rfl).2.2

theorem rebuildDataset_defined (env : InitEnv) (lib : InitLib) (rx : RandomXState) (d : Nat)
    (seedHash : String) (t : List RxCall) (hhw : env.hardwareConcurrency ≠ 0) :
    (RandomXManager.rebuildDataset env lib rx d seedHash t).isSome = true := by
  unfold RandomXManager.rebuildDataset
  cases env.allocCache with
  | none => rfl
  | some c =>
    have hmin : ¬ (min env.hardwareConcurrency 8 = 0) := by omega
    simp only [if_neg hmin]
    split <;> rfl

theorem initializeTraced_defined (env : InitEnv) (lib : InitLib) (rx : RandomXState)
    (seedHash : String) (hhw : env.hardwareConcurrency ≠ 0) :
    (RandomXManager.initializeTraced env lib rx seedHash).isSome = true := by
  unfold RandomXManager.initializeTraced
  split
  · rfl
  · cases env.allocDataset with
    | none => rfl
    | some d =>
      simp only []
      split
      · split
        · rfl
        · exact rebuildDataset_defined env lib _ d seedHash _ hhw
      · exact rebuildDataset_defined env lib _ d seedHash _ hhw

/-- C27: for a call of `RandomXManager::initialize` made with the cache handle null, as it
is at program start and after every call, whatever the library answers: the call returns a
result when the machine reports at least one hardware thread, and for every result the
calls release only handles that are allocated and not yet released and leave allocated
exactly the handles the state holds; the cache handle is null; on false the dataset handle
is null too, so nothing remains allocated; on true the dataset handle is set and
`currentSeedHash` is the requested seed hash. -/
theorem initialize_postcondition (env : InitEnv) (lib : InitLib) (rx : RandomXState)
    (seedHash : String) (hcache : rx.cache = none) :
    (env.hardwareConcurrency ≠ 0 →
      (RandomXManager.initializeTraced env lib rx seedHash).isSome = true)
    ∧ ∀ ok rx' t, RandomXManager.initializeTraced env lib rx seedHash = some (ok, rx', t) →
      liveAfter rx.live t = some rx'.live
      ∧ rx'.cache = none
      ∧ (ok = false → rx'.dataset = none ∧ rx'.live = { datasets := [], caches := [] })
      ∧ (ok = true → rx'.dataset ≠ none ∧ rx'.currentSeedHash = seedHash
          ∧ rx'.live = { datasets := rx'.dataset.toList, caches := [] }) := by
  refine ⟨initializeTraced_defined env lib rx seedHash, ?_⟩
  intro ok rx' t h
  have hres := initializeTraced_result env lib rx seedHash ok rx' t h
  have hlive := initializeTraced_live env lib rx seedHash ok rx' t hcache h
  refine ⟨hlive.1, hlive.2, ?_, ?_⟩
  · intro hf
    have hd := hres.2 hf
    refine ⟨hd, ?_⟩
    simp [RandomXState.live, hd, hlive.2]
  · intro ht
    refine ⟨(hres.1 ht).2, (hres.1 ht).1, ?_⟩
    simp [RandomXState.live, hlive.2]

theorem initialize_postcondition_witness :
    (RandomXManager.initializeTraced { envOk with allocCache := none } libOk
        ⟨some 9, none, "aa", "", 0, ""⟩ "bb").isSome = true
    ∧ liveAfter (RandomXState.live (⟨some 9, none, "aa", "", 0, ""⟩ : RandomXState))
        [RxCall.releaseDataset 9, RxCall.allocDataset 14 (some 1), RxCall.allocCache 14 none,
          RxCall.releaseDataset 1]
      = some (RandomXState.live (⟨none, none, "aa", "", 0, ""⟩ : RandomXState))
    ∧ (⟨none, none, "aa", "", 0, ""⟩ : RandomXState).cache = none
    ∧ (false = false → (⟨none, none, "aa", "", 0, ""⟩ : RandomXState).dataset = none
        ∧ RandomXState.live (⟨none, none, "aa", "", 0, ""⟩ : RandomXState)
          = { datasets := [], caches := [] })
    ∧ (false = true → (⟨none, none, "aa", "", 0, ""⟩ : RandomXState).dataset ≠ none
        ∧ (⟨none, none, "aa", "", 0, ""⟩ : RandomXState).currentSeedHash = "bb"
        ∧ RandomXState.live (⟨none, none, "aa", "", 0, ""⟩ : RandomXState)
          = { datasets := (⟨none, none, "aa", "", 0, ""⟩ : RandomXState).dataset.toList,
              caches := [] }) :=
  ⟨(initialize_postcondition { envOk with allocCache := none } libOk
      ⟨some 9, none, "aa", "", 0, ""⟩ "bb" rfl).1 (by decide),
   (initialize_postcondition { envOk with allocCache := none } libOk
      ⟨some 9, none, "aa", "", 0, ""⟩ "bb" rfl).2 false ⟨none, none, "aa", "", 0, ""⟩
      [RxCall.releaseDataset 9, RxCall.allocDataset 14 (some 1), RxCall.allocCache 14 none,
        RxCall.releaseDataset 1]
      (by decide)⟩

/-- C28: after job "17" is published, a notification for job "18" during which the
dataset allocation fails leaves `activeJobId` at 18 with job "17" still the published one,
and the same notification, repeated when the allocation would succeed, is skipped as a
duplicate: job "18" is never published. -/
theorem processNewJob_failed_init_then_duplicate :
    ((processNewJob envOk (PoolState.initial ⟨1⟩ [some (MiningThreadData.new 0)])
        (jobNotification "17" "0707" "1d00ffff" 3000000 "aa")).map
      (fun r => (r.1.activeJobId, r.1.jobQueue.map (fun j => j.jobId), r.2)))
      = some (17, ["17"], JobOutcome.published)
    ∧ (((processNewJob envOk (PoolState.initial ⟨1⟩ [some (MiningThreadData.new 0)])
        (jobNotification "17" "0707" "1d00ffff" 3000000 "aa")).bind
      (fun r => processNewJob envAllocFails r.1
        (jobNotification "18" "0808" "1d00ffff" 3000001 "bb"))).map
      (fun r => (r.1.activeJobId, r.1.jobQueue.map (fun j => j.jobId), r.1.rx.currentJobId,
        r.2)))
      = some (18, ["17"], "17", JobOutcome.initFailed)
    ∧ ((((processNewJob envOk (PoolState.initial ⟨1⟩ [some (MiningThreadData.new 0)])
        (jobNotification "17" "0707" "1d00ffff" 3000000 "aa")).bind
      (fun r => processNewJob envAllocFails r.1
        (jobNotification "18" "0808" "1d00ffff" 3000001 "bb"))).bind
      (fun r => processNewJob envOk r.1
        (jobNotification "18" "0808" "1d00ffff" 3000001 "bb"))).map
      (fun r => (r.1.activeJobId, r.1.jobQueue.map (fun j => j.jobId), r.1.rx.currentJobId,
        r.2)))
      = some (18, ["17"], "17", JobOutcome.duplicate) := by
  decide

end MoneroMiner
